import Mathlib

/-!
# gammacombo: the plugin (toy Monte-Carlo) scan engine

A shallow embedding of parts of `core/src/MethodPluginScan.cpp`.

Conventions of the embedding:

* C++ `float` / `double` values are embedded as exact rationals `ℚ`: comparisons,
  sums, differences and quotients are the exact ones, there is no rounding and no NaN.
* C++ `int` values are embedded as `Int`; where a loop counter is incremented the
  32-bit wrap-around is written out (`wrapInt`).
* ROOT histograms (`TH1F`) are embedded by their per-bin arrays, indexed by the ROOT bin
  number (`0` underflow, `1..n` regular bins, `n+1` overflow), and their entry count.
* A bin error is kept as its square (ROOT itself stores `fSumw2`), because the square
  root of a rational need not be rational.
-/

namespace MethodPluginScan

/-! ## Importance sampling -/

/-- The function `MethodPluginScan::importance(double pvalue)`: the fraction by which the number of
toys of a scan point is scaled, from the expected p-value. -/
def importance (pvalue : ℚ) : ℚ :=
  let f1 : ℚ := 5 / 100
  let co : ℚ := 1 / 100000
  if pvalue < co then 0
  else
    let f := (1 - pvalue) / pvalue / 30
    if f > 1 then 1
    else if f < f1 then f1
    else f

/-! ## ROOT histograms -/

/-- The part of ROOT's `TH1F` the scanner uses: a fixed-width axis of `fNbins` bins
over `[fXmin, fXmax)`, the per-bin contents `fArray`, the per-bin squared errors
`fSumw2` and the entry count `fEntries`. Bin numbers are ROOT's: `0` is the underflow
bin, `fNbins + 1` the overflow bin. -/
structure TH1F where
  fNbins : Nat
  fXmin : ℚ
  fXmax : ℚ
  fArray : Nat → ℚ
  fSumw2 : Nat → ℚ
  fEntries : Nat

namespace TH1F

/-- The constructor `TH1F(name, title, nbinsx, xlow, xup)`: an empty histogram. ROOT replaces a
non-positive number of bins by one bin. -/
def create (nbinsx : Int) (xlow xup : ℚ) : TH1F :=
  { fNbins := if nbinsx ≤ 0 then 1 else nbinsx.toNat
    fXmin := xlow
    fXmax := xup
    fArray := fun _ => 0
    fSumw2 := fun _ => 0
    fEntries := 0 }

/-- ROOT's `TH1::GetNbinsX`. -/
def GetNbinsX (h : TH1F) : Nat := h.fNbins

/-- ROOT's `TAxis::FindBin` for a fixed-width axis. -/
def FindBin (h : TH1F) (x : ℚ) : Nat :=
  if x < h.fXmin then 0
  else if ¬ (x < h.fXmax) then h.fNbins + 1
  else 1 + (Int.floor ((h.fNbins : ℚ) * (x - h.fXmin) / (h.fXmax - h.fXmin))).toNat

/-- ROOT's `TH1::Fill(x)`: one more entry, the content of the bin of `x` goes up by one. -/
def Fill (h : TH1F) (x : ℚ) : TH1F :=
  { h with
    fEntries := h.fEntries + 1
    fArray := Function.update h.fArray (h.FindBin x) (h.fArray (h.FindBin x) + 1) }

/-- ROOT's `TH1::GetBinContent(bin)`. -/
def GetBinContent (h : TH1F) (bin : Nat) : ℚ := h.fArray bin

/-- ROOT's `TH1::GetEntries`. -/
def GetEntries (h : TH1F) : Nat := h.fEntries

/-- ROOT's `TH1::SetBinContent(bin, content)`; ROOT counts it as an entry. -/
def SetBinContent (h : TH1F) (bin : Nat) (content : ℚ) : TH1F :=
  { h with
    fEntries := h.fEntries + 1
    fArray := Function.update h.fArray bin content }

/-- ROOT's `TH1::SetBinError(bin, error)`, taking the square of the error: ROOT stores
`fSumw2[bin] = error * error`. -/
def SetBinError2 (h : TH1F) (bin : Nat) (error2 : ℚ) : TH1F :=
  { h with fSumw2 := Function.update h.fSumw2 bin error2 }

/-- The square of `TH1::GetBinError(bin)`. -/
def GetBinError2 (h : TH1F) (bin : Nat) : ℚ := h.fSumw2 bin

end TH1F

/-! ## Toy rows and the scanner's configuration -/

/-- One entry of the `ToyTree`: the branches `analyseToys` reads (all `float`). -/
structure ToyRow where
  id : ℚ
  scanpoint : ℚ
  chi2min : ℚ
  chi2minGlobal : ℚ
  chi2minToy : ℚ
  chi2minGlobalToy : ℚ
  statusFree : ℚ
  statusScan : ℚ

/-- A `ToyTree` set up for reading: its entries in order, and what
`getScanpointMin`, `getScanpointMax` and `getScanpointN` return. -/
structure ToyTree where
  entries : List ToyRow
  scanpointMin : ℚ
  scanpointMax : ℚ
  scanpointN : Int

/-- The options of `arg` (an `OptParser`) that the analysis reads. -/
structure OptParser where
  pluginPlotRangeMin : ℚ
  pluginPlotRangeMax : ℚ
  pluginext : Bool

/-- The members of the `MethodPluginScan` object that the analysis reads.
`profileLHgetChi2min` is `profileLH->getChi2min`, `pvalueCorrectorTransform` is
`pvalueCorrector->transform`; both live outside this file and are parameters. -/
structure Scanner where
  arg : OptParser
  chi2minGlobal : ℚ
  pvalueCorrectorSet : Bool
  pvalueCorrectorTransform : ℚ → ℚ
  profileLHgetChi2min : ℚ → ℚ

/-! ## `analyseToys` -/

/-- The local variables of `analyseToys` that the event loop updates. -/
structure AnalyseState where
  h_better : TH1F
  h_all : TH1F
  h_background : TH1F
  h_gof : TH1F
  nfailed : Nat
  nwrongrun : Nat
  ntoysid : Nat

/-- The empty `hCL` that `analyseToys` creates, one bin per scan point. -/
def newHCL (t : ToyTree) : TH1F :=
  let halfBinWidth : ℚ := (t.scanpointMax - t.scanpointMin) / (t.scanpointN : ℚ) / 2
  let halfBinWidth : ℚ := if t.scanpointN = 1 then 1 else halfBinWidth
  TH1F.create t.scanpointN (t.scanpointMin - halfBinWidth) (t.scanpointMax + halfBinWidth)

/-- The state before the first entry is read: four clones of the empty `hCL`. -/
def analyseInit (t : ToyTree) : AnalyseState :=
  { h_better := newHCL t
    h_all := newHCL t
    h_background := newHCL t
    h_gof := newHCL t
    nfailed := 0
    nwrongrun := 0
    ntoysid := 0 }

/-- The id filter of `analyseToys`: the entry is read on (not skipped by `continue`). -/
def selected (id : Int) (r : ToyRow) : Prop :=
  ¬ (id ≠ -1 ∧ abs (r.id - (id : ℚ)) > 1 / 1000)

instance (id : Int) (r : ToyRow) : Decidable (selected id r) := by
  unfold selected; infer_instance

/-- The quality cut of `analyseToys`. -/
def passesCuts (r : ToyRow) : Prop :=
  abs r.chi2minToy < 500 ∧ abs r.chi2minGlobalToy < 500
    ∧ r.statusFree = 0 ∧ r.statusScan = 0

instance (r : ToyRow) : Decidable (passesCuts r) := by
  unfold passesCuts; infer_instance

/-- The plot-range clip of `analyseToys`: the entry is kept. -/
def inPlotRange (a : OptParser) (r : ToyRow) : Prop :=
  ¬ (a.pluginPlotRangeMin ≠ a.pluginPlotRangeMax
      ∧ ¬ (a.pluginPlotRangeMin < r.scanpoint ∧ r.scanpoint < a.pluginPlotRangeMax))

instance (a : OptParser) (r : ToyRow) : Decidable (inPlotRange a r) := by
  unfold inPlotRange; infer_instance

/-- The value of `t->chi2min` that the test statistic is built from: with
`arg->pluginext` the branch value is overwritten by the internal profile likelihood. -/
def chi2minUsed (s : Scanner) (r : ToyRow) : ℚ :=
  if s.arg.pluginext then s.profileLHgetChi2min r.scanpoint else r.chi2min

/-- One pass through the body of the event loop of `analyseToys`. -/
def analyseEntry (s : Scanner) (id : Int) (st : AnalyseState) (r : ToyRow) : AnalyseState :=
  if id ≠ -1 ∧ abs (r.id - (id : ℚ)) > 1 / 1000 then st
  else
    let st := { st with ntoysid := st.ntoysid + 1 }
    if ¬ (abs r.chi2minToy < 500 ∧ abs r.chi2minGlobalToy < 500
          ∧ r.statusFree = 0 ∧ r.statusScan = 0) then
      { st with nfailed := st.nfailed + 1 }
    else
      let st :=
        if id ≠ -1 ∧ ¬ (abs (r.chi2minGlobal - s.chi2minGlobal) < 2 / 10) then
          { st with nwrongrun := st.nwrongrun + 1 }
        else st
      if s.arg.pluginPlotRangeMin ≠ s.arg.pluginPlotRangeMax
          ∧ ¬ (s.arg.pluginPlotRangeMin < r.scanpoint
                ∧ r.scanpoint < s.arg.pluginPlotRangeMax) then st
      else
        let chi2min := if s.arg.pluginext then s.profileLHgetChi2min r.scanpoint else r.chi2min
        let inPhysicalRegion : Bool := decide (r.chi2minToy - r.chi2minGlobalToy > 0)
        let st :=
          if inPhysicalRegion
              ∧ r.chi2minToy - r.chi2minGlobalToy > chi2min - r.chi2minGlobal then
            { st with h_better := st.h_better.Fill r.scanpoint }
          else st
        let st :=
          if inPhysicalRegion ∧ r.chi2minGlobalToy > r.chi2minGlobal then
            { st with h_gof := st.h_gof.Fill r.scanpoint }
          else st
        let st :=
          if inPhysicalRegion then { st with h_all := st.h_all.Fill r.scanpoint }
          else st
        if ¬ inPhysicalRegion then
          { st with h_background := st.h_background.Fill r.scanpoint }
        else st

/-- The event loop of `analyseToys`, over the entries in order. -/
def analyseLoop (s : Scanner) (t : ToyTree) (id : Int) : AnalyseState :=
  t.entries.foldl (analyseEntry s id) (analyseInit t)

/-- The body of the loop over the bins `i = 1 .. GetNbinsX` of `analyseToys`. -/
def setPvalue (s : Scanner) (st : AnalyseState) (hCL : TH1F) (i : Nat) : TH1F :=
  let nbetter := st.h_better.GetBinContent i
  let nall := st.h_all.GetBinContent i
  if nall = 0 then hCL
  else
    let p := nbetter / nall
    let p := if s.pvalueCorrectorSet then s.pvalueCorrectorTransform p else p
    (hCL.SetBinContent i p).SetBinError2 i (p * (1 - p) / nall)

/-- The function `MethodPluginScan::analyseToys(ToyTree* t, int id)`: the returned `hCL`. The
messages it prints are separate definitions below; the control output for the
goodness of fit does not change the result. -/
def analyseToys (s : Scanner) (t : ToyTree) (id : Int) : TH1F :=
  (List.range' 1 (analyseLoop s t id).h_better.GetNbinsX).foldl
    (setPvalue s (analyseLoop s t id)) (newHCL t)

/-- The wrong-run warning of `analyseToys`: `none` when it is not printed, otherwise the
percentage printed, `nwrongrun / (nentries - nfailed) * 100`. -/
def wrongRunWarning (s : Scanner) (t : ToyTree) (id : Int) : Option ℚ :=
  let st := analyseLoop s t id
  if id = -1 ∧ st.nwrongrun > 0 then
    some ((st.nwrongrun : ℚ) / (((t.entries.length : Int) - (st.nfailed : Int) : Int) : ℚ) * 100)
  else none

/-! ## Predicates on toy rows, used to state what the counters hold -/

/-- The physical region of `analyseToys`. -/
def inPhysicalRegion (r : ToyRow) : Prop := r.chi2minToy - r.chi2minGlobalToy > 0

instance (r : ToyRow) : Decidable (inPhysicalRegion r) := by
  unfold inPhysicalRegion; infer_instance

/-- The entry reaches the counters. -/
def binned (s : Scanner) (id : Int) (r : ToyRow) : Prop :=
  selected id r ∧ passesCuts r ∧ inPlotRange s.arg r

instance (s : Scanner) (id : Int) (r : ToyRow) : Decidable (binned s id r) := by
  unfold binned; infer_instance

def isBetter (s : Scanner) (r : ToyRow) : Prop :=
  r.chi2minToy - r.chi2minGlobalToy > chi2minUsed s r - r.chi2minGlobal

instance (s : Scanner) (r : ToyRow) : Decidable (isBetter s r) := by
  unfold isBetter; infer_instance

/-- A counter histogram that the loop body fills exactly for the entries satisfying `c`. -/
def FilledWhen (s : Scanner) (id : Int) (proj : AnalyseState → TH1F)
    (c : ToyRow → Prop) [DecidablePred c] : Prop :=
  ∀ (st : AnalyseState) (r : ToyRow),
    proj (analyseEntry s id st r) = if c r then (proj st).Fill r.scanpoint else proj st

/-- The value that the bin loop of `analyseToys` writes into bin `i`. -/
def pvalueAt (s : Scanner) (st : AnalyseState) (i : Nat) : ℚ :=
  if s.pvalueCorrectorSet then
    s.pvalueCorrectorTransform (st.h_better.GetBinContent i / st.h_all.GetBinContent i)
  else st.h_better.GetBinContent i / st.h_all.GetBinContent i

/-! ## `readScan1dTrees` -/

/-- The value of a C++ `int` after an arithmetic step whose exact result is `x`:
32-bit two's complement wrap-around. -/
def wrapInt (x : Int) : Int := (x + 2147483648) % 4294967296 - 2147483648

/-- The result files on disk, by run number: the rows stored in
`..._run<i>.root`, or `none` when `FileExists` is false for that file. -/
abbrev ResultFiles := Int → Option (List ToyRow)

/-- What the file loop of `readScan1dTrees` updates: the chain `c` (as the run numbers of
the files added to it, in order) and the two counters. -/
structure ChainState where
  c : List Int
  nFilesMissing : Int
  nFilesRead : Int

/-- The loop `for (int i=runMin; i<=runMax; i++)` of `readScan1dTrees`, started at `i`.
`fuel` bounds the number of loop tests; `none` means the fuel ran out. -/
def readFilesLoop (files : ResultFiles) (runMax : Int) : Nat → Int → ChainState → Option ChainState
  | 0, _, _ => none
  | fuel + 1, i, st =>
    if i ≤ runMax then
      if (files i).isNone then
        readFilesLoop files runMax fuel (wrapInt (i + 1))
          { st with nFilesMissing := wrapInt (st.nFilesMissing + 1) }
      else
        readFilesLoop files runMax fuel (wrapInt (i + 1))
          { st with c := st.c ++ [i], nFilesRead := wrapInt (st.nFilesRead + 1) }
    else some st

/-- How a call ends: it returns a value, or the process is ended by `exit(code)`. -/
inductive Outcome (α : Type) where
  | returned (value : α)
  | exited (code : Int)

/-- The rows of a chain of files, file after file. -/
def chainEntries (files : ResultFiles) : List Int → List ToyRow
  | [] => []
  | i :: c => (files i).getD [] ++ chainEntries files c

/-- The `ToyTree` that `readScan1dTrees` opens on a chain of files. -/
def chainTree (scanpoints : List ToyRow → ℚ × ℚ × Int) (files : ResultFiles)
    (c : List Int) : ToyTree :=
  { entries := chainEntries files c
    scanpointMin := (scanpoints (chainEntries files c)).1
    scanpointMax := (scanpoints (chainEntries files c)).2.1
    scanpointN := (scanpoints (chainEntries files c)).2.2 }

/-- What `readScan1dTrees` leaves behind when it returns: the counts it prints, the chain
it read and the new `hCL`. -/
structure Scan1dRead where
  nFilesRead : Int
  nFilesMissing : Int
  c : List Int
  hCL : TH1F

/-- The function `MethodPluginScan::readScan1dTrees(int runMin, int runMax)`. The `ToyTree` class is
outside these sources: `scanpoints` stands for what `getScanpointMin`, `getScanpointMax`
and `getScanpointN` return for a chain with the given entries. The control plots are
left out. `none` means the fuel of the file loop ran out. -/
def readScan1dTrees (s : Scanner) (scanpoints : List ToyRow → ℚ × ℚ × Int)
    (files : ResultFiles) (fuel : Nat) (runMin runMax : Int) : Option (Outcome Scan1dRead) :=
  match readFilesLoop files runMax fuel runMin { c := [], nFilesMissing := 0, nFilesRead := 0 } with
  | none => none
  | some st =>
    if st.nFilesRead = 0 then some (Outcome.exited 1)
    else
      let t : ToyTree := chainTree scanpoints files st.c
      some (Outcome.returned
        { nFilesRead := st.nFilesRead
          nFilesMissing := st.nFilesMissing
          c := st.c
          hCL := analyseToys s t (-1) })

/-- The run numbers `i, i+1, ..., i+n-1`. -/
def runsFrom (i : Int) : Nat → List Int
  | 0 => []
  | n + 1 => i :: runsFrom (i + 1) n

/-- The run numbers of the inclusive range `[runMin, runMax]` whose result file exists,
in increasing order. -/
def presentRuns (files : ResultFiles) (runMin runMax : Int) : List Int :=
  (runsFrom runMin (runMax + 1 - runMin).toNat).filter (fun i => (files i).isSome)

/-! ## Concrete inputs -/

/-- A scanner without plot-range clip, external profile likelihood or coverage corrector,
whose global minimum is `0`. -/
def plainScanner : Scanner :=
  { arg := { pluginPlotRangeMin := 0, pluginPlotRangeMax := 0, pluginext := false }
    chi2minGlobal := 0
    pvalueCorrectorSet := false
    pvalueCorrectorTransform := fun p => p
    profileLHgetChi2min := fun _ => 0 }

/-- A toy at scan point `0` whose free fit did not converge. -/
def failedRow : ToyRow :=
  { id := 0, scanpoint := 0, chi2min := 4, chi2minGlobal := 0
    chi2minToy := 1, chi2minGlobalToy := 0, statusFree := 1, statusScan := 0 }

/-- A converged physical toy at scan point `0` with toy delta `1`, below the data delta `4`. -/
def physicalRow : ToyRow :=
  { id := 0, scanpoint := 0, chi2min := 4, chi2minGlobal := 0
    chi2minToy := 1, chi2minGlobalToy := 0, statusFree := 0, statusScan := 0 }

/-- A converged physical toy at scan point `0` with toy delta `5`, above the data delta `4`. -/
def betterRow : ToyRow :=
  { id := 0, scanpoint := 0, chi2min := 4, chi2minGlobal := 0
    chi2minToy := 5, chi2minGlobalToy := 0, statusFree := 0, statusScan := 0 }

/-- A converged toy at scan point `0` outside the physical region (toy delta `-1`). -/
def backgroundRow : ToyRow :=
  { id := 0, scanpoint := 0, chi2min := 4, chi2minGlobal := 0
    chi2minToy := 1, chi2minGlobalToy := 2, statusFree := 0, statusScan := 0 }

/-- A converged toy at scan point `0` whose toy delta is exactly `0`. -/
def zeroDeltaRow : ToyRow :=
  { id := 0, scanpoint := 0, chi2min := 4, chi2minGlobal := 0
    chi2minToy := 1, chi2minGlobalToy := 1, statusFree := 0, statusScan := 0 }

/-- The example of the specification: 100 toys at one scan point, 5 of them failed,
95 physical, 7 of these better than the data. -/
def hundredToys : ToyTree :=
  { entries := List.replicate 5 failedRow ++ List.replicate 88 physicalRow
      ++ List.replicate 7 betterRow
    scanpointMin := 0
    scanpointMax := 0
    scanpointN := 1 }

/-- Two scan points `0` and `1`: the toy at `0` is unphysical, so the first bin has no
accepted toy; the toy at `1` is physical and not better, so the second bin has p-value 0. -/
def firstBinEmpty : ToyTree :=
  { entries := [backgroundRow, { physicalRow with scanpoint := 1 }]
    scanpointMin := 0
    scanpointMax := 1
    scanpointN := 2 }

/-- The mirror image of `firstBinEmpty`: the first bin has p-value 0, the second bin has
no accepted toy. -/
def secondBinEmpty : ToyTree :=
  { entries := [physicalRow, { backgroundRow with scanpoint := 1 }]
    scanpointMin := 0
    scanpointMax := 1
    scanpointN := 2 }

/-- One scan point `0` with a single toy, which is converged but unphysical. -/
def oneBackgroundToy : ToyTree :=
  { entries := [backgroundRow], scanpointMin := 0, scanpointMax := 0, scanpointN := 1 }

/-- One scan point `0` with a single toy, of toy delta `0`. -/
def oneZeroDeltaToy : ToyTree :=
  { entries := [zeroDeltaRow], scanpointMin := 0, scanpointMax := 0, scanpointN := 1 }

/-- One scan point `0` with a single converged physical toy that was written by a run
whose global minimum was `10`, while the active global minimum of `plainScanner` is `0`. -/
def wrongRunToys : ToyTree :=
  { entries := [{ physicalRow with chi2minGlobal := 10 }]
    scanpointMin := 0
    scanpointMax := 0
    scanpointN := 1 }

/-- Only run `2` of the runs has a result file; it holds one toy. -/
def onlyRunTwo : ResultFiles := fun i => if i = 2 then some [physicalRow] else none

/-! ## Two-dimensional histograms and `readScan2dTrees` -/

/-- ROOT's `TAxis` with fixed-width bins. -/
structure TAxis where
  fNbins : Nat
  fXmin : ℚ
  fXmax : ℚ

/-- ROOT's `TAxis::FindBin` for a fixed-width axis. -/
def TAxis.FindBin (a : TAxis) (x : ℚ) : Nat :=
  if x < a.fXmin then 0
  else if ¬ (x < a.fXmax) then a.fNbins + 1
  else 1 + (Int.floor ((a.fNbins : ℚ) * (x - a.fXmin) / (a.fXmax - a.fXmin))).toNat

/-- The part of ROOT's `TH2F` the scanner uses. The cells are numbered by ROOT's global
bin number `biny * (nx + 2) + binx`, under- and overflow bins included. -/
structure TH2F where
  fXaxis : TAxis
  fYaxis : TAxis
  fArray : Nat → ℚ
  fSumw2 : Nat → ℚ
  fEntries : Nat

namespace TH2F

/-- ROOT's `TH2::GetNbinsX`. -/
def GetNbinsX (h : TH2F) : Nat := h.fXaxis.fNbins

/-- ROOT's `TH2::GetNbinsY`. -/
def GetNbinsY (h : TH2F) : Nat := h.fYaxis.fNbins

/-- The number of cells, `fNcells`. -/
def fNcells (h : TH2F) : Nat := (h.fXaxis.fNbins + 2) * (h.fYaxis.fNbins + 2)

/-- ROOT's `TH2::GetBin(binx, biny)`: the global bin number, the arguments clamped to
the axis. -/
def GetBin (h : TH2F) (binx biny : Nat) : Nat :=
  min biny (h.fYaxis.fNbins + 1) * (h.fXaxis.fNbins + 2) + min binx (h.fXaxis.fNbins + 1)

/-- ROOT's `TH2::Fill(x, y)`: one more entry, the content of the cell of `(x, y)` goes up
by one; the value returned is the global bin number, or `-1` when the cell is an under-
or overflow cell. -/
def Fill (h : TH2F) (x y : ℚ) : TH2F × Int :=
  let binx := h.fXaxis.FindBin x
  let biny := h.fYaxis.FindBin y
  let bin := biny * (h.fXaxis.fNbins + 2) + binx
  let h1 : TH2F :=
    { h with
      fEntries := h.fEntries + 1
      fArray := Function.update h.fArray bin (h.fArray bin + 1) }
  if binx = 0 ∨ binx > h.fXaxis.fNbins ∨ biny = 0 ∨ biny > h.fYaxis.fNbins then (h1, -1)
  else (h1, (bin : Int))

/-- ROOT's `TH1::GetBinContent(bin)` for a global bin number: a number outside the cells
is moved to the first or the last cell. -/
def GetBinContent1 (h : TH2F) (bin : Int) : ℚ :=
  if bin < 0 then h.fArray 0
  else if bin ≥ (h.fNcells : Int) then h.fArray (h.fNcells - 1)
  else h.fArray bin.toNat

/-- ROOT's `TH1::SetBinContent(bin, content)` for a global bin number: it counts as an
entry; a number outside the cells changes no content. -/
def SetBinContent1 (h : TH2F) (bin : Int) (content : ℚ) : TH2F :=
  if bin < 0 ∨ bin ≥ (h.fNcells : Int) then { h with fEntries := h.fEntries + 1 }
  else
    { h with
      fEntries := h.fEntries + 1
      fArray := Function.update h.fArray bin.toNat content }

/-- ROOT's `TH2::GetBinContent(binx, biny)`. -/
def GetBinContent (h : TH2F) (binx biny : Nat) : ℚ := h.fArray (h.GetBin binx biny)

/-- ROOT's `TH2::SetBinContent(binx, biny, content)`. -/
def SetBinContent (h : TH2F) (binx biny : Nat) (content : ℚ) : TH2F :=
  { h with
    fEntries := h.fEntries + 1
    fArray := Function.update h.fArray (h.GetBin binx biny) content }

/-- ROOT's `TH2::SetBinError(binx, biny, error)`, taking the square of the error. -/
def SetBinError2 (h : TH2F) (binx biny : Nat) (error2 : ℚ) : TH2F :=
  { h with fSumw2 := Function.update h.fSumw2 (h.GetBin binx biny) error2 }

/-- The square of `TH2::GetBinError(binx, biny)`. -/
def GetBinError2 (h : TH2F) (binx biny : Nat) : ℚ := h.fSumw2 (h.GetBin binx biny)

end TH2F

/-- One entry of the chain that `readScan2dTrees` reads: the branches it uses. -/
structure ToyRow2d where
  scanpoint1 : ℚ
  scanpoint2 : ℚ
  chi2min : ℚ
  chi2minGlobal : ℚ
  chi2minToy : ℚ
  chi2minGlobalToy : ℚ

/-- The 2D result files on disk, by run number. -/
abbrev ResultFiles2d := Int → Option (List ToyRow2d)

/-- The members of the `MethodPluginScan` object that `readScan2dTrees` reads. `arg` may
be a null pointer. `chisq2d x y` is the content of `profileLH->getHchisq2d()` at the bin
of `(x, y)`. -/
structure Scanner2d where
  arg : Option OptParser
  chi2minGlobal : ℚ
  chisq2d : ℚ → ℚ → ℚ

/-- The test `fabs(num / den) < bound` in IEEE arithmetic: for `den = 0` the quotient is
infinite or not a number and the test fails. -/
def fabsDivLt (num den bound : ℚ) : Prop :=
  den ≠ 0 ∧ abs (num / den) < bound

instance (num den bound : ℚ) : Decidable (fabsDivLt num den bound) := by
  unfold fabsDivLt; infer_instance

/-- The file loop of `readScan2dTrees`, the same loop as in `readScan1dTrees`. -/
def readFilesLoop2d (files : ResultFiles2d) (runMax : Int) :
    Nat → Int → ChainState → Option ChainState
  | 0, _, _ => none
  | fuel + 1, i, st =>
    if i ≤ runMax then
      if (files i).isNone then
        readFilesLoop2d files runMax fuel (wrapInt (i + 1))
          { st with nFilesMissing := wrapInt (st.nFilesMissing + 1) }
      else
        readFilesLoop2d files runMax fuel (wrapInt (i + 1))
          { st with c := st.c ++ [i], nFilesRead := wrapInt (st.nFilesRead + 1) }
    else some st

/-- The rows of a chain of 2D files, file after file. -/
def chainEntries2d (files : ResultFiles2d) : List Int → List ToyRow2d
  | [] => []
  | i :: c => (files i).getD [] ++ chainEntries2d files c

/-- The local variables of `readScan2dTrees` that the event loop updates. -/
structure Analyse2dState where
  h_better : TH2F
  h_all : TH2F
  nfailed : Nat

/-- One pass through the body of the event loop of `readScan2dTrees`. -/
def analyseEntry2d (s : Scanner2d) (st : Analyse2dState) (r : ToyRow2d) : Analyse2dState :=
  if ¬ (r.chi2minToy > -10000000000 ∧ r.chi2minGlobalToy > -10000000000
        ∧ r.chi2minToy - r.chi2minGlobalToy > 0
        ∧ fabsDivLt (r.chi2minGlobal - s.chi2minGlobal) (r.chi2minGlobal + s.chi2minGlobal)
            (1 / 100)
        ∧ r.chi2minToy < 100) then
    { st with nfailed := st.nfailed + 1 }
  else
    let chi2min :=
      match s.arg with
      | some a => if a.pluginext then s.chisq2d r.scanpoint1 r.scanpoint2 else r.chi2min
      | none => r.chi2min
    let filled := st.h_all.Fill r.scanpoint1 r.scanpoint2
    let st := { st with h_all := filled.1 }
    let scanBin := filled.2
    if r.chi2minToy - r.chi2minGlobalToy > chi2min - r.chi2minGlobal then
      { st with
        h_better := st.h_better.SetBinContent1 scanBin (st.h_better.GetBinContent1 scanBin + 1) }
    else st

/-- The body of the double loop over the bins `(i, j)` at the end of `readScan2dTrees`. -/
def setPvalue2d (st : Analyse2dState) (hCL2d : TH2F) (i j : Nat) : TH2F :=
  let nbetter := st.h_better.GetBinContent i j
  let nall := st.h_all.GetBinContent i j
  if nall = 0 then hCL2d
  else
    let f := nbetter / nall
    (hCL2d.SetBinContent i j f).SetBinError2 i j (f * (1 - f) / nall)

/-- The event loop of `readScan2dTrees`; both counters start as clones of `hCL2d`. -/
def analyseLoop2d (s : Scanner2d) (hCL2d : TH2F) (rows : List ToyRow2d) : Analyse2dState :=
  rows.foldl (analyseEntry2d s) { h_better := hCL2d, h_all := hCL2d, nfailed := 0 }

/-- The analysis part of `readScan2dTrees`: from the member `hCL2d` and the rows of the
chain to the new `hCL2d`, by the event loop and the double loop
`for i = 1..GetNbinsX, for j = 1..GetNbinsY`. -/
def analyse2d (s : Scanner2d) (hCL2d : TH2F) (rows : List ToyRow2d) : TH2F :=
  let st := analyseLoop2d s hCL2d rows
  (List.range' 1 st.h_better.GetNbinsX).foldl
    (fun h i => (List.range' 1 st.h_better.GetNbinsY).foldl (fun h j => setPvalue2d st h i j) h)
    hCL2d

/-- What `readScan2dTrees` leaves behind when it returns. -/
structure Scan2dRead where
  nFilesRead : Int
  nFilesMissing : Int
  c : List Int
  hCL2d : TH2F

/-- The function `MethodPluginScan::readScan2dTrees(int runMin, int runMax)`; `hCL2d` is
the member histogram at the call. The control plots are left out. `none` means the fuel
of the file loop ran out. -/
def readScan2dTrees (s : Scanner2d) (hCL2d : TH2F) (files : ResultFiles2d) (fuel : Nat)
    (runMin runMax : Int) : Option (Outcome Scan2dRead) :=
  match readFilesLoop2d files runMax fuel runMin
      { c := [], nFilesMissing := 0, nFilesRead := 0 } with
  | none => none
  | some st =>
    some (Outcome.returned
      { nFilesRead := st.nFilesRead
        nFilesMissing := st.nFilesMissing
        c := st.c
        hCL2d := analyse2d s hCL2d (chainEntries2d files st.c) })
/-- A 2D scanner with active global minimum `1`, without external profile likelihood. -/
def plainScanner2d : Scanner2d :=
  { arg := some { pluginPlotRangeMin := 0, pluginPlotRangeMax := 0, pluginext := false }
    chi2minGlobal := 1
    chisq2d := fun _ _ => 0 }

/-- An empty 2D CL histogram with one bin over `[-1, 1] x [-1, 1]`. -/
def emptyGrid : TH2F :=
  { fXaxis := { fNbins := 1, fXmin := -1, fXmax := 1 }
    fYaxis := { fNbins := 1, fXmin := -1, fXmax := 1 }
    fArray := fun _ => 0
    fSumw2 := fun _ => 0
    fEntries := 0 }

/-- An accepted 2D toy at `(0, 0)` with toy delta `5`, above the data delta `4`. -/
def betterRow2d : ToyRow2d :=
  { scanpoint1 := 0, scanpoint2 := 0, chi2min := 5, chi2minGlobal := 1
    chi2minToy := 6, chi2minGlobalToy := 1 }

/-- An accepted 2D toy at `(0, 0)` with toy delta `1`, below the data delta `4`. -/
def physicalRow2d : ToyRow2d :=
  { scanpoint1 := 0, scanpoint2 := 0, chi2min := 5, chi2minGlobal := 1
    chi2minToy := 2, chi2minGlobalToy := 1 }

/-- No 2D result file exists. -/
def noFiles2d : ResultFiles2d := fun _ => none
/-- The quality cut of `readScan2dTrees`: the entry is accepted. -/
def accepted2d (s : Scanner2d) (r : ToyRow2d) : Prop :=
  r.chi2minToy > -10000000000 ∧ r.chi2minGlobalToy > -10000000000
    ∧ r.chi2minToy - r.chi2minGlobalToy > 0
    ∧ fabsDivLt (r.chi2minGlobal - s.chi2minGlobal) (r.chi2minGlobal + s.chi2minGlobal)
        (1 / 100)
    ∧ r.chi2minToy < 100

instance (s : Scanner2d) (r : ToyRow2d) : Decidable (accepted2d s r) := by
  unfold accepted2d; infer_instance

/-- The value of `chi2min` that `readScan2dTrees` builds the test statistic from. -/
def chi2minUsed2d (s : Scanner2d) (r : ToyRow2d) : ℚ :=
  match s.arg with
  | some a => if a.pluginext then s.chisq2d r.scanpoint1 r.scanpoint2 else r.chi2min
  | none => r.chi2min

/-- The toy delta of the entry is above the data delta. -/
def isBetter2d (s : Scanner2d) (r : ToyRow2d) : Prop :=
  r.chi2minToy - r.chi2minGlobalToy > chi2minUsed2d s r - r.chi2minGlobal

instance (s : Scanner2d) (r : ToyRow2d) : Decidable (isBetter2d s r) := by
  unfold isBetter2d; infer_instance

/-- The global bin number of the cell of `(x, y)`. -/
def TH2F.cellOf (h : TH2F) (x y : ℚ) : Nat :=
  h.fYaxis.FindBin y * (h.fXaxis.fNbins + 2) + h.fXaxis.FindBin x
/-- Only run `1` has a 2D result file; it holds two accepted toys at `(0, 0)`, one of
them better than the data. -/
def oneFile2d : ResultFiles2d :=
  fun i => if i = 1 then some [betterRow2d, physicalRow2d] else none
/-- The counters of the 2D event loop have the axes of the histogram `h0`. -/
def HasAxesOf (st : Analyse2dState) (h0 : TH2F) : Prop :=
  st.h_all.fXaxis = h0.fXaxis ∧ st.h_all.fYaxis = h0.fYaxis
    ∧ st.h_better.fXaxis = h0.fXaxis ∧ st.h_better.fYaxis = h0.fYaxis

/-- The value that the double loop of `readScan2dTrees` writes into bin `(i, j)`. -/
def pvalueAt2d (st : Analyse2dState) (i j : Nat) : ℚ :=
  st.h_better.GetBinContent i j / st.h_all.GetBinContent i j

/-! ## The model: parameters, observables, fit results -/

/-- A RooFit variable (`RooRealVar`): its name, its value, the flag that holds it
constant in a fit, and its range. `setVal` is taken to store the value as given. -/
structure RooRealVar where
  name : String
  val : ℚ
  isConstant : Bool
  min : ℚ
  max : ℚ

/-- A set or list of variables (`RooArgSet`, `RooArgList`), in order. -/
abbrev RooArgSet := List RooRealVar

/-- The lookup `RooAbsCollection::find(name)`: the first variable of that name. -/
def findVar (set : RooArgSet) (name : String) : Option RooRealVar :=
  List.find? (fun v => v.name == name) set

/-- The part of a `RooSlimFitResult` that the scanner reads. -/
structure RooSlimFitResult where
  floatParsFinal : RooArgSet
  constPars : RooArgSet
  minNll : ℚ

/-- The parameter evolution `parevolPLH`: its CL histogram and its curve results, one
slot per bin, a slot being a null pointer when no result is stored. -/
structure MethodProbScan where
  hCL : TH1F
  curveResults : List (Option RooSlimFitResult)

/-! ## `getParevolPoint` -/

/-- The test `fabs(num / den) > bound` in IEEE arithmetic: for `den = 0` the quotient is
infinite, and the test holds, unless `num = 0`, when it is not a number. -/
def fabsDivGt (num den bound : ℚ) : Prop :=
  if den = 0 then num ≠ 0 else abs (num / den) > bound

instance (num den bound : ℚ) : Decidable (fabsDivGt num den bound) := by
  unfold fabsDivGt; infer_instance

/-- What `getParevolPoint` hands back: the stored result, and whether the warning that
scan point and evolution point differ by more than 1% was printed. -/
structure ParevolPoint where
  result : RooSlimFitResult
  warned : Bool

/-- The function `MethodPluginScan::getParevolPoint(float scanpoint)`. Reading
`curveResults` outside its slots has no defined result (`none`). -/
def getParevolPoint (scanVar1 : String) (parevolPLH : MethodProbScan) (scanpoint : ℚ) :
    Option (Outcome ParevolPoint) :=
  let iCurveRes : Int := (parevolPLH.hCL.FindBin scanpoint : Int) - 1
  if iCurveRes < 0 ∨ iCurveRes ≥ (parevolPLH.curveResults.length : Int) then none
  else
    match parevolPLH.curveResults.getD iCurveRes.toNat none with
    | none => some (Outcome.exited 1)
    | some r =>
      match findVar (r.floatParsFinal ++ r.constPars) scanVar1 with
      | none => some (Outcome.exited 1)
      | some var =>
        some (Outcome.returned
          { result := r
            warned := decide (fabsDivGt (scanpoint - var.val) scanpoint (1 / 100)) })

/-- A stored result at scan value `1/2` with one nuisance parameter `"x"` at `3`. -/
def storedResult : RooSlimFitResult :=
  { floatParsFinal := [{ name := "x", val := 3, isConstant := false, min := 0, max := 10 }]
    constPars := [{ name := "g", val := 1 / 2, isConstant := true, min := 0, max := 2 }]
    minNll := 4 }

/-- A parameter evolution over `[0, 2]` with two bins: a stored result in the first
bin, none in the second bin. -/
def twoBinEvolution : MethodProbScan :=
  { hCL := TH1F.create 2 0 2
    curveResults := [some storedResult, none] }

/-! ## The model collaborators of the toy scan -/

/-- Modelled from the spec: the model collaborator's load of named parameters
(`setParameters` of the utilities, which is not in the sources): every variable of
`setMe` that `values` names takes the value found there; the held-constant flags and
the ranges of `setMe` stay as they are (fixing and freeing are the separate operations
`setConstant`). -/
def setParameters (setMe values : RooArgSet) : RooArgSet :=
  setMe.map fun p =>
    match findVar values p.name with
    | some v => { p with val := v.val }
    | none => p

/-- The call `var->setVal(x)` on the variable called `name` of the set. -/
def setVal (set : RooArgSet) (name : String) (x : ℚ) : RooArgSet :=
  set.map fun p => if p.name == name then { p with val := x } else p

/-- The call `var->setConstant(c)` on the variable called `name` of the set. -/
def setConstant (set : RooArgSet) (name : String) (c : Bool) : RooArgSet :=
  set.map fun p => if p.name == name then { p with isConstant := c } else p

/-- The workspace `w`: the parameters `w->set(parsName)` and the observables
`w->set(obsName)`. -/
structure RooWorkspace where
  pars : RooArgSet
  obs : RooArgSet

/-- What one call of the optimizer sees: the parameters and observables of the
workspace and the two start points of the fitter. -/
structure FitCall where
  pars : RooArgSet
  obs : RooArgSet
  startparsFirstFit : RooArgSet
  startparsSecondFit : RooArgSet

/-- What one call of the optimizer gives: the fitted values, the test statistic and the
status code. -/
structure FitOutcome where
  pars : RooArgSet
  chi2 : ℚ
  status : Int

/-- Modelled from the spec: the `Fitter` object (its class is not in the sources), "a fit
operation returning a FitOutcome": the start points set by the caller, the test
statistic and status of the last fit, and the calls made so far. -/
structure Fitter where
  startparsFirstFit : RooArgSet
  startparsSecondFit : RooArgSet
  chi2 : ℚ
  status : Int
  calls : List FitCall

/-- What one call of the model sampler sees: the parameters of the workspace and the
number of toys asked for. -/
structure GenCall where
  pars : RooArgSet
  nEvents : Int

/-- A generated `RooDataSet`: its rows, each a set of observable values. -/
structure RooDataSet where
  entries : List RooArgSet

/-- The lookup `RooDataSet::get(i)`: a null pointer outside the rows. -/
def RooDataSet.get (d : RooDataSet) (i : Nat) : Option RooArgSet :=
  d.entries[i]?

/-- Modelled from the spec: the progress bar (its class is not in the sources), a
counter of steps. -/
structure ProgressBar where
  nSteps : Int

/-- The call `pb->progress()`: one step. -/
def ProgressBar.progress (pb : ProgressBar) : ProgressBar := { nSteps := pb.nSteps + 1 }

/-- The call `pb->skipSteps(n)`: `n` steps at once. -/
def ProgressBar.skipSteps (pb : ProgressBar) (n : Int) : ProgressBar :=
  { nSteps := pb.nSteps + n }

/-- Modelled from the spec: a ToyRecord, the branch variables of the `ToyTree` that is
written (its class is not in the sources): run id, batch id, scan coordinate, data and
toy test statistics, status codes, best-fit value of the scan parameter, and the
snapshots of the parameters (before the fits, after the scan fit, after the free fit)
and of the observables. -/
structure ToyRecord where
  nrun : ℚ
  scanpoint : ℚ
  id : ℚ
  chi2min : ℚ
  chi2minGlobal : ℚ
  chi2minToy : ℚ
  chi2minGlobalToy : ℚ
  statusScan : ℚ
  statusFree : ℚ
  scanbest : ℚ
  parsPll : RooArgSet
  parsScan : RooArgSet
  parsFree : RooArgSet
  observables : RooArgSet

/-- Modelled from the spec: the result store that is written, an append-only table with
one row per ToyRecord: the branch variables and the rows filled so far. -/
structure ToyStore where
  branches : ToyRecord
  rows : List ToyRecord

/-- The call `t->fill()`: the branch variables become one more row. -/
def ToyStore.fill (t : ToyStore) : ToyStore := { t with rows := t.rows ++ [t.branches] }

/-- Modelled from the spec: the RoundRobinStartCache and the other snapshots of the
`FitResultCache` (its class is not in the sources). `parsRoundRobin` holds the `K = 3`
most recent start points, most recent first. -/
structure FitResultCache where
  parsAtFunctionCall : RooArgSet
  parsAtGlobalMin : RooArgSet
  parsRoundRobin : List RooArgSet

/-- The capacity `K` of the round-robin cache. -/
def roundRobinSize : Nat := 3

/-- The call `frCache.initRoundRobinDB(set)`: every slot holds `set`. -/
def FitResultCache.initRoundRobinDB (c : FitResultCache) (set : RooArgSet) : FitResultCache :=
  { c with parsRoundRobin := List.replicate roundRobinSize set }

/-- The call `frCache.storeParsRoundRobin(set)`: `set` becomes the most recent slot, the
oldest slot is dropped. -/
def FitResultCache.storeParsRoundRobin (c : FitResultCache) (set : RooArgSet) :
    FitResultCache :=
  { c with parsRoundRobin := (set :: c.parsRoundRobin).take roundRobinSize }

/-- The call `frCache.getRoundRobinNminus(n)`: the `n`-th most recent slot. -/
def FitResultCache.getRoundRobinNminus (c : FitResultCache) (n : Nat) : RooArgSet :=
  c.parsRoundRobin.getD n []

/-- The configuration of the plugin scanner and its external collaborators:
`prob x` is `TMath::Prob(x, 1)`, `minimize k call` is the optimizer at its `k`-th call,
`sample k call j name` is the value of the observable `name` in toy `j` of the `k`-th
batch drawn by the model sampler, `gaus k mean` is the `k`-th draw
`TRandom3::Gaus(mean, 0.05)` of a fresh generator, and `obsDataset` is the row
`obsDataset->get(0)` of the observed data. -/
structure PluginConfig where
  scanVar1 : String
  nToys : Int
  importance : Bool
  obsDataset : RooArgSet
  prob : ℚ → ℚ
  minimize : Nat → FitCall → FitOutcome
  sample : Nat → GenCall → Nat → String → ℚ
  gaus : Nat → ℚ → ℚ

/-- The state that `computePvalue1d` works on: the workspace, the toy store `t`, the
fitter `f`, the progress bar `pb`, and the batches drawn from the model sampler so far. -/
structure ScanState where
  w : RooWorkspace
  t : ToyStore
  f : Fitter
  pb : ProgressBar
  genCalls : List GenCall

/-- Modelled from the spec: `Fitter::fit()`: the optimizer is called on the workspace
and the start points; the floating parameters of the workspace take the fitted values,
the fitter keeps test statistic and status. -/
def Fitter.fit (cfg : PluginConfig) (f : Fitter) (w : RooWorkspace) : Fitter × RooWorkspace :=
  let call : FitCall :=
    { pars := w.pars
      obs := w.obs
      startparsFirstFit := f.startparsFirstFit
      startparsSecondFit := f.startparsSecondFit }
  let out := cfg.minimize f.calls.length call
  ({ f with chi2 := out.chi2, status := out.status, calls := f.calls ++ [call] },
   { w with
     pars := w.pars.map fun p =>
      if p.isConstant then p
      else
        match findVar out.pars p.name with
        | some v => { p with val := v.val }
        | none => p })

/-- The call `pdf->generate(obs, nEvents)` of the model sampler: a data set of `nEvents`
rows over the observables of the workspace. -/
def generate (cfg : PluginConfig) (k : Nat) (w : RooWorkspace) (nEvents : Int) : RooDataSet :=
  { entries := (List.range nEvents.toNat).map fun j =>
      w.obs.map fun o =>
        { o with val := cfg.sample k { pars := w.pars, nEvents := nEvents } j o.name } }

/-- The test `TString(name).Contains(pat)`. -/
def containsSubstr (name pat : String) : Bool :=
  name.toList.tails.any fun t => pat.toList.isPrefixOf t

/-- The value that the loop over the variables of a toy leaves in `generatedValues[i]`:
the value of the last variable whose name contains `kD_k3pi_obs`, if there is one. -/
def lastK3piValue (toyData : RooArgSet) : Option ℚ :=
  toyData.foldl (fun acc var => if containsSubstr var.name "kD_k3pi_obs" then some var.val else acc)
    none

/-! ## `generateToys` and `computePvalue1d` -/

/-- What `generateToys` leaves behind: the workspace (whose parameters a regeneration
has changed), the batches drawn so far, and the data set it returns. -/
structure Generated where
  w : RooWorkspace
  genCalls : List GenCall
  dataset : RooDataSet

/-- The function `MethodPluginScan::generateToys(int nToys)`. The printout of the first
toys is left out. Dereferencing a null pointer (a toy outside the data set, a variable
that the workspace does not have) and comparing a value that was never set have no
defined result (`none`). -/
def generateToys (cfg : PluginConfig) (w : RooWorkspace) (genCalls : List GenCall)
    (nToys : Int) : Option Generated :=
  let dataset := generate cfg genCalls.length w nToys
  let genCalls := genCalls ++ [{ pars := w.pars, nEvents := nToys }]
  match dataset.get 0, dataset.get 1 with
  | some toy0, some toy1 =>
    match lastK3piValue toy0, lastK3piValue toy1 with
    | none, none => some { w := w, genCalls := genCalls, dataset := dataset }
    | some v0, some v1 =>
      if v0 = v1 then
        match findVar w.pars "kD_k3pi", findVar w.pars "dD_k3pi" with
        | some k, some d =>
          let w : RooWorkspace := { w with pars := setVal w.pars "kD_k3pi" (cfg.gaus 0 k.val) }
          let w : RooWorkspace := { w with pars := setVal w.pars "dD_k3pi" (cfg.gaus 1 d.val) }
          let dataset := generate cfg genCalls.length w nToys
          let genCalls := genCalls ++ [{ pars := w.pars, nEvents := nToys }]
          match dataset.get 0, dataset.get 1 with
          | some _, some _ => some { w := w, genCalls := genCalls, dataset := dataset }
          | _, _ => none
        | _, _ => none
      else some { w := w, genCalls := genCalls, dataset := dataset }
    | _, _ => none
  | _, _ => none

/-- The conversion of a `double` to an `int`: the fraction is dropped. -/
def truncToInt (x : ℚ) : Int := if 0 ≤ x then Int.floor x else Int.ceil x

/-- The number `nActualToys` of toys that `computePvalue1d` draws, from the data test
statistics `chi2min` and `chi2minGlobal`. -/
def actualToys (cfg : PluginConfig) (chi2min chi2minGlobal : ℚ) : Int :=
  if cfg.importance then
    truncToInt ((cfg.nToys : ℚ) * importance (cfg.prob (chi2min - chi2minGlobal)))
  else cfg.nToys

/-- The state of the toy loop of `computePvalue1d`: the scan state and the local
`frCache`. -/
structure ToyLoopState where
  st : ScanState
  frCache : FitResultCache

/-- The scan fit of one toy: the scan parameter is held at the scan point; the fit is
run from the most recent cached start point and the global minimum, and once more from
the next two cached start points if its status is 1. -/
def scanFit (cfg : PluginConfig) (scanpoint : ℚ) (frCache : FitResultCache)
    (f : Fitter) (w : RooWorkspace) : Fitter × RooWorkspace :=
  let w : RooWorkspace := { w with pars := setVal w.pars cfg.scanVar1 scanpoint }
  let w : RooWorkspace := { w with pars := setConstant w.pars cfg.scanVar1 true }
  let f : Fitter :=
    { f with
      startparsFirstFit := frCache.getRoundRobinNminus 0
      startparsSecondFit := frCache.parsAtGlobalMin }
  let fw := f.fit cfg w
  if fw.1.status = 1 then
    let f : Fitter :=
      { fw.1 with
        startparsFirstFit := frCache.getRoundRobinNminus 1
        startparsSecondFit := frCache.getRoundRobinNminus 2 }
    f.fit cfg fw.2
  else fw

/-- The free fit of one toy: the scan parameter floats; the fit is run, and once more if
its status is 1. -/
def freeFit (cfg : PluginConfig) (f : Fitter) (w : RooWorkspace) : Fitter × RooWorkspace :=
  let w : RooWorkspace := { w with pars := setConstant w.pars cfg.scanVar1 false }
  let fw := f.fit cfg w
  if fw.1.status = 1 then fw.1.fit cfg fw.2 else fw

/-- One pass through the body of the toy loop of `computePvalue1d`, for toy `j`. -/
def toyStep (cfg : PluginConfig) (scanpoint : ℚ) (toyDataSet : RooDataSet)
    (x : ToyLoopState) (j : Nat) : Option ToyLoopState :=
  let pb := x.st.pb.progress
  match toyDataSet.get j with
  | none => none
  | some toyData =>
    let w : RooWorkspace := { x.st.w with obs := setParameters x.st.w.obs toyData }
    let t : ToyStore := { x.st.t with branches := { x.st.t.branches with observables := w.obs } }
    let fw := scanFit cfg scanpoint x.frCache x.st.f w
    let t : ToyStore :=
      { t with
        branches :=
          { t.branches with
            chi2minToy := fw.1.chi2
            statusScan := (fw.1.status : ℚ)
            parsScan := fw.2.pars } }
    let fw := freeFit cfg fw.1 fw.2
    match findVar fw.2.pars cfg.scanVar1 with
    | none => none
    | some best =>
      let t : ToyStore :=
        { t with
          branches :=
            { t.branches with
              chi2minGlobalToy := fw.1.chi2
              statusFree := (fw.1.status : ℚ)
              scanbest := best.val
              parsFree := fw.2.pars } }
      let frCache :=
        if t.branches.statusFree = 0 then x.frCache.storeParsRoundRobin fw.2.pars
        else x.frCache
      some
        { st := { x.st with w := fw.2, t := t.fill, f := fw.1, pb := pb }
          frCache := frCache }

/-- The toy loop of `computePvalue1d` over the toys `js`, in order. -/
def toyLoop (cfg : PluginConfig) (scanpoint : ℚ) (toyDataSet : RooDataSet) :
    List Nat → ToyLoopState → Option ToyLoopState
  | [], x => some x
  | j :: js, x =>
    match toyStep cfg scanpoint toyDataSet x j with
    | none => none
    | some y => toyLoop cfg scanpoint toyDataSet js y

/-- The function `MethodPluginScan::computePvalue1d(plhScan, chi2minGlobal, t, id, f, pb)`
on the state `st`. A failed `assert` and a null dereference have no defined result
(`none`). The derived theory values that the tree also stores are left out. -/
def computePvalue1d (cfg : PluginConfig) (plhScan : RooSlimFitResult) (chi2minGlobal : ℚ)
    (id : Int) (st : ScanState) : Option ScanState :=
  match findVar (plhScan.floatParsFinal ++ plhScan.constPars) cfg.scanVar1 with
  | none => none
  | some _ =>
    let frCache : FitResultCache :=
      { parsAtFunctionCall := st.w.pars, parsAtGlobalMin := [], parsRoundRobin := [] }
    let frCache := frCache.initRoundRobinDB st.w.pars
    let w : RooWorkspace :=
      { st.w with
        pars := setParameters st.w.pars (plhScan.floatParsFinal ++ plhScan.constPars) }
    let frCache : FitResultCache := { frCache with parsAtGlobalMin := w.pars }
    match findVar w.pars cfg.scanVar1 with
    | none => none
    | some par =>
      let w : RooWorkspace := { w with pars := setConstant w.pars cfg.scanVar1 true }
      let scanpoint := par.val
      let t : ToyStore :=
        { st.t with
          branches :=
            { st.t.branches with
              scanpoint := scanpoint
              id := (id : ℚ)
              parsPll := w.pars
              chi2min := plhScan.minNll
              chi2minGlobal := chi2minGlobal } }
      let nActualToys := actualToys cfg t.branches.chi2min t.branches.chi2minGlobal
      let pb := if cfg.importance then st.pb.skipSteps (cfg.nToys - nActualToys) else st.pb
      match generateToys cfg w st.genCalls nActualToys with
      | none => none
      | some g =>
        match toyLoop cfg scanpoint g.dataset (List.range nActualToys.toNat)
            { st := { w := g.w, t := t, f := st.f, pb := pb, genCalls := g.genCalls }
              frCache := frCache } with
        | none => none
        | some x =>
          some
            { x.st with
              w :=
                { pars := setParameters x.st.w.pars x.frCache.parsAtFunctionCall
                  obs := setParameters x.st.w.obs cfg.obsDataset } }

/-- A configuration with two toys per point and without importance sampling, whose
optimizer always converges at test statistic `3` and whose sampler gives toy `j` the
value `j` for every observable. The observed data is `obs = 7`. -/
def twoToys : PluginConfig :=
  { scanVar1 := "g"
    nToys := 2
    importance := false
    obsDataset := [{ name := "obs", val := 7, isConstant := false, min := 0, max := 10 }]
    prob := fun _ => 1
    minimize := fun _ _ => { pars := [], chi2 := 3, status := 0 }
    sample := fun _ _ j _ => (j : ℚ)
    gaus := fun _ mean => mean }

/-- A record with every branch at zero. -/
def emptyRecord : ToyRecord :=
  { nrun := 0, scanpoint := 0, id := 0, chi2min := 0, chi2minGlobal := 0, chi2minToy := 0
    chi2minGlobalToy := 0, statusScan := 0, statusFree := 0, scanbest := 0
    parsPll := [], parsScan := [], parsFree := [], observables := [] }

/-- A scan state before the first point: the scan parameter `g` at `1` and the nuisance
parameter `x` at `2`, the observable at the observed value, nothing stored, fitted,
counted or drawn yet. `gConstant` is the held-constant flag of the scan parameter. -/
def startState (gConstant : Bool) : ScanState :=
  { w :=
      { pars :=
          [{ name := "g", val := 1, isConstant := gConstant, min := 0, max := 2 },
           { name := "x", val := 2, isConstant := false, min := 0, max := 10 }]
        obs := [{ name := "obs", val := 7, isConstant := false, min := 0, max := 10 }] }
    t := { branches := emptyRecord, rows := [] }
    f := { startparsFirstFit := [], startparsSecondFit := [], chi2 := 0, status := 0, calls := [] }
    pb := { nSteps := 0 }
    genCalls := [] }

/-- The names of the variables of a set, in order. -/
def varNames (set : RooArgSet) : List String := set.map fun v => v.name

/-- The outcome of the last optimizer call of the fitter, if it made one. -/
def Fitter.lastOutcome (cfg : PluginConfig) (f : Fitter) : Option FitOutcome :=
  match f.calls.getLast? with
  | none => none
  | some call => some (cfg.minimize (f.calls.length - 1) call)

/-- The parameters of the workspace at the point where `computePvalue1d` generates the
toys: the values of `plhScan` loaded, the scan parameter held constant. -/
def pointPars (cfg : PluginConfig) (plhScan : RooSlimFitResult) (st : ScanState) : RooArgSet :=
  setConstant
    (setParameters st.w.pars (plhScan.floatParsFinal ++ plhScan.constPars)) cfg.scanVar1 true

/-- The call of `computePvalue1d` meets no failed `assert` and no null pointer: `plhScan`
and the workspace have the scan parameter, at least the two toys that `generateToys`
inspects are drawn, and the parameters that a regeneration changes exist if an
observable is subject to it. -/
def CallDefined (cfg : PluginConfig) (plhScan : RooSlimFitResult) (chi2minGlobal : ℚ)
    (st : ScanState) : Prop :=
  cfg.scanVar1 ∈ varNames (plhScan.floatParsFinal ++ plhScan.constPars)
    ∧ cfg.scanVar1 ∈ varNames st.w.pars
    ∧ 2 ≤ actualToys cfg plhScan.minNll chi2minGlobal
    ∧ ((∀ o ∈ st.w.obs, containsSubstr o.name "kD_k3pi_obs" = false)
        ∨ ("kD_k3pi" ∈ varNames st.w.pars ∧ "dD_k3pi" ∈ varNames st.w.pars))

instance (cfg : PluginConfig) (plhScan : RooSlimFitResult) (chi2minGlobal : ℚ)
    (st : ScanState) : Decidable (CallDefined cfg plhScan chi2minGlobal st) := by
  unfold CallDefined; infer_instance

/-- Toy `j` of the batch that the sampler draws at its `k`-th call. -/
def toyOf (cfg : PluginConfig) (k : Nat) (w : RooWorkspace) (nEvents : Int) (j : Nat) :
    RooArgSet :=
  w.obs.map fun o =>
    { o with val := cfg.sample k { pars := w.pars, nEvents := nEvents } j o.name }

/-- The fitter and the workspace after the scan fit of the toy `toyData`. -/
def scanned (cfg : PluginConfig) (scanpoint : ℚ) (x : ToyLoopState) (toyData : RooArgSet) :
    Fitter × RooWorkspace :=
  scanFit cfg scanpoint x.frCache x.st.f { x.st.w with obs := setParameters x.st.w.obs toyData }

/-- The fitter and the workspace after the free fit of the toy `toyData`. -/
def freed (cfg : PluginConfig) (scanpoint : ℚ) (x : ToyLoopState) (toyData : RooArgSet) :
    Fitter × RooWorkspace :=
  freeFit cfg (scanned cfg scanpoint x toyData).1 (scanned cfg scanpoint x toyData).2

/-- The record that the toy loop fills for the toy `toyData`, given the best-fit value
`scanbest` of the scan parameter. -/
def toyRecord (cfg : PluginConfig) (scanpoint : ℚ) (x : ToyLoopState) (toyData : RooArgSet)
    (scanbest : ℚ) : ToyRecord :=
  { x.st.t.branches with
    observables := setParameters x.st.w.obs toyData
    chi2minToy := (scanned cfg scanpoint x toyData).1.chi2
    statusScan := ((scanned cfg scanpoint x toyData).1.status : ℚ)
    parsScan := (scanned cfg scanpoint x toyData).2.pars
    chi2minGlobalToy := (freed cfg scanpoint x toyData).1.chi2
    statusFree := ((freed cfg scanpoint x toyData).1.status : ℚ)
    scanbest := scanbest
    parsFree := (freed cfg scanpoint x toyData).2.pars }

/-- The set without its values: names, held-constant flags and ranges. -/
def shape (set : RooArgSet) : RooArgSet := set.map fun v => { v with val := 0 }

/-- The names and the ranges of the variables of a set, in order. -/
def ranges (set : RooArgSet) : List (String × ℚ × ℚ) := set.map fun v => (v.name, v.min, v.max)

/-- Every variable called `name` of the set has the value `x` and is held constant. -/
def HeldAt (set : RooArgSet) (name : String) (x : ℚ) : Prop :=
  ∀ p ∈ set, p.name = name → p.val = x ∧ p.isConstant = true

/-- The branches of a record that are set once per scan point. -/
def ToyRecord.point (r : ToyRecord) : ℚ × ℚ × ℚ × ℚ × RooArgSet :=
  (r.scanpoint, r.id, r.chi2min, r.chi2minGlobal, r.parsPll)

/-- The state of the toy loop after toy `toyData`, with `scanbest` read. -/
def stepped (cfg : PluginConfig) (sp : ℚ) (x : ToyLoopState) (toyData : RooArgSet)
    (scanbest : ℚ) : ToyLoopState :=
  { st :=
      { x.st with
        w := (freed cfg sp x toyData).2
        t :=
          { branches := toyRecord cfg sp x toyData scanbest
            rows := x.st.t.rows ++ [toyRecord cfg sp x toyData scanbest] }
        f := (freed cfg sp x toyData).1
        pb := x.st.pb.progress }
    frCache :=
      if ((freed cfg sp x toyData).1.status : ℚ) = 0 then
        x.frCache.storeParsRoundRobin (freed cfg sp x toyData).2.pars
      else x.frCache }

/-- The state in which `computePvalue1d` enters its toy loop: `scanpoint` is the value
read back from the scan parameter, `g` what `generateToys` gave. -/
def loopEntry (cfg : PluginConfig) (plhScan : RooSlimFitResult) (chi2minGlobal : ℚ)
    (id : Int) (st : ScanState) (scanpoint : ℚ) (g : Generated) : ToyLoopState :=
  { st :=
      { w := g.w
        t :=
          { st.t with
            branches :=
              { st.t.branches with
                scanpoint := scanpoint
                id := (id : ℚ)
                parsPll := pointPars cfg plhScan st
                chi2min := plhScan.minNll
                chi2minGlobal := chi2minGlobal } }
        f := st.f
        pb :=
          if cfg.importance then
            st.pb.skipSteps (cfg.nToys - actualToys cfg plhScan.minNll chi2minGlobal)
          else st.pb
        genCalls := g.genCalls }
    frCache :=
      { parsAtFunctionCall := st.w.pars
        parsAtGlobalMin :=
          setParameters st.w.pars (plhScan.floatParsFinal ++ plhScan.constPars)
        parsRoundRobin := List.replicate roundRobinSize st.w.pars } }

/-- What `computePvalue1d` returns when its toy loop ends in the state `x`: the
parameters are set back to the values at function call, the observables to the observed
data. -/
def cleanedUp (cfg : PluginConfig) (x : ToyLoopState) : ScanState :=
  { x.st with
    w :=
      { pars := setParameters x.st.w.pars x.frCache.parsAtFunctionCall
        obs := setParameters x.st.w.obs cfg.obsDataset } }

/-- A configuration with importance sampling: one hundred toys per point, an expected
p-value of `1/2` at every point (importance `1/20`, so five toys are drawn), the
optimizer and the sampler of `twoToys`. -/
def importanceToys : PluginConfig :=
  { twoToys with
    nToys := 100
    importance := true
    prob := fun _ => 1 / 2 }

/-- A configuration with two toys per point whose optimizer fails (status `1`) at its
calls number `0` and `1`, the two attempts of the first scan fit, and converges at
every later call. -/
def failingFirst : PluginConfig :=
  { twoToys with
    minimize := fun k _ => { pars := [], chi2 := 3, status := if k < 2 then 1 else 0 } }

/-- A toy-loop state at the start of a point, over `startState`. -/
def startLoopState : ToyLoopState :=
  { st := startState false
    frCache :=
      { parsAtFunctionCall := [], parsAtGlobalMin := [], parsRoundRobin := [] } }

/-- A batch of two toys of the observable `obs`. -/
def twoToyBatch : RooDataSet :=
  { entries :=
      [[{ name := "obs", val := 0, isConstant := false, min := 0, max := 10 }],
       [{ name := "obs", val := 1, isConstant := false, min := 0, max := 10 }]] }

/-! ## `scan1d` -/

/-- ROOT's `TH1::GetBinWidth(bin)` for a fixed-width axis. -/
def TH1F.GetBinWidth (h : TH1F) (_bin : Nat) : ℚ :=
  if h.fNbins = 0 then 0 else (h.fXmax - h.fXmin) / (h.fNbins : ℚ)

/-- The members of the scanner that `scan1d` reads: the configuration, the CL histogram
`hCL`, the number `nPoints1d` of scan points, the parameter evolution `parevolPLH`, the
value `profileLH->getChi2minGlobal()`, and what `combiner->loadParameterLimits()` does
to the parameters of the workspace. -/
structure PluginScanner where
  cfg : PluginConfig
  hCL : TH1F
  nPoints1d : Int
  parevolPLH : MethodProbScan
  chi2minGlobal : ℚ
  loadParameterLimits : RooArgSet → RooArgSet

/-- The state of the loop of `scan1d`: the scan state, and the printout of
`getParevolPoint` kept as two logs, the coordinates it was called with and those at
which it warned. -/
structure Scan1dState where
  st : ScanState
  lookups : List ℚ
  warnings : List ℚ

/-- The coordinate `scanpoint` of the loop of `scan1d` at the index `i`. -/
def scanCoordinate (s : PluginScanner) (i : Nat) : ℚ :=
  s.hCL.fXmin + (s.hCL.fXmax - s.hCL.fXmin) * (i : ℚ) / (s.nPoints1d : ℚ)
    + s.hCL.GetBinWidth 1 / 2

/-- One pass through the body of the loop of `scan1d`, at the index `i`;
`parsAtFunctionCall` is the snapshot that `scan1d` took of the parameters. A scan
parameter that the workspace does not have is a null pointer (`none`). -/
def scan1dStep (s : PluginScanner) (parsAtFunctionCall : RooArgSet) (x : Scan1dState)
    (i : Nat) : Option (Outcome Scan1dState) :=
  let scanpoint := scanCoordinate s i
  let st : ScanState :=
    { x.st with t := { x.st.t with branches := { x.st.t.branches with scanpoint := scanpoint } } }
  match findVar st.w.pars s.cfg.scanVar1 with
  | none => none
  | some par =>
    if scanpoint < par.min ∨ scanpoint > par.max then
      some (Outcome.returned { x with st := st })
    else
      match getParevolPoint s.cfg.scanVar1 s.parevolPLH scanpoint with
      | none => none
      | some (Outcome.exited code) => some (Outcome.exited code)
      | some (Outcome.returned plhScan) =>
        match computePvalue1d s.cfg plhScan.result s.chi2minGlobal (i : Int) st with
        | none => none
        | some st =>
          some (Outcome.returned
            { st :=
                { st with
                  w :=
                    { pars := setParameters st.w.pars parsAtFunctionCall
                      obs := setParameters st.w.obs s.cfg.obsDataset } }
              lookups := x.lookups ++ [scanpoint]
              warnings := if plhScan.warned then x.warnings ++ [scanpoint] else x.warnings })

/-- The loop of `scan1d` over the indices `is`, in order. -/
def scan1dLoop (s : PluginScanner) (parsAtFunctionCall : RooArgSet) :
    List Nat → Scan1dState → Option (Outcome Scan1dState)
  | [], x => some (Outcome.returned x)
  | i :: is, x =>
    match scan1dStep s parsAtFunctionCall x i with
    | none => none
    | some (Outcome.exited code) => some (Outcome.exited code)
    | some (Outcome.returned y) => scan1dLoop s parsAtFunctionCall is y

/-- Modelled from the spec: a new `Fitter` (its class is not in the sources): no start
points, no fit made. -/
def Fitter.new : Fitter :=
  { startparsFirstFit := [], startparsSecondFit := [], chi2 := 0, status := 0, calls := [] }

/-- The function `MethodPluginScan::scan1d(int nRun)` on the workspace `w`, up to the end
of its loop; `t` is the toy tree after `t.init()`. What follows the loop writes the rows
of the returned state to the file of the run and reads them back. -/
def scan1d (s : PluginScanner) (nRun : Int) (w : RooWorkspace) (t : ToyStore) :
    Option (Outcome Scan1dState) :=
  let w : RooWorkspace := { w with pars := s.loadParameterLimits w.pars }
  let t : ToyStore := { t with branches := { t.branches with nrun := (nRun : ℚ) } }
  scan1dLoop s w.pars (List.range s.nPoints1d.toNat)
    { st := { w := w, t := t, f := Fitter.new, pb := { nSteps := 0 }, genCalls := [] }
      lookups := []
      warnings := [] }

/-- The number of toys that `scan1d` draws at the index `i`, when the lookup of the
evolution point returns. -/
def toysAt (s : PluginScanner) (i : Nat) : Nat :=
  match getParevolPoint s.cfg.scanVar1 s.parevolPLH (scanCoordinate s i) with
  | some (Outcome.returned plhScan) =>
    (actualToys s.cfg plhScan.result.minNll s.chi2minGlobal).toNat
  | _ => 0

/-- A scanner with one scan point over `[0, 2]`, at the coordinate `1`, whose parameter
evolution stores `storedResult`, the scan parameter at `1/2`, for that point. -/
def driftScanner : PluginScanner :=
  { cfg := twoToys
    hCL := TH1F.create 1 0 2
    nPoints1d := 1
    parevolPLH := { hCL := TH1F.create 1 0 2, curveResults := [some storedResult] }
    chi2minGlobal := 0
    loadParameterLimits := fun pars => pars }

/-- A scanner with four scan points over `[0, 4]`, at `1/2`, `3/2`, `5/2` and `7/2`, of
which the last two lie above the range `[0, 2]` of the scan parameter of `startState`;
its parameter evolution stores `storedResult` for every point. -/
def clippedScanner : PluginScanner :=
  { cfg := twoToys
    hCL := TH1F.create 4 0 4
    nPoints1d := 4
    parevolPLH :=
      { hCL := TH1F.create 4 0 4
        curveResults := [some storedResult, some storedResult, none, none] }
    chi2minGlobal := 0
    loadParameterLimits := fun pars => pars }
/-- The scan state with the coordinate `c` written into the `scanpoint` branch. -/
def atCoordinate (st : ScanState) (c : ℚ) : ScanState :=
  { st with t := { st.t with branches := { st.t.branches with scanpoint := c } } }

/-- The scan state after the reset that ends a pass of the loop of `scan1d`. -/
def resetTo (s : PluginScanner) (parsAtFunctionCall : RooArgSet) (st : ScanState) :
    ScanState :=
  { st with
    w :=
      { pars := setParameters st.w.pars parsAtFunctionCall
        obs := setParameters st.w.obs s.cfg.obsDataset } }

/-- The workspace of the state has the names and ranges of the parameters and the names
of the observables of `w`. -/
def SameFrame (w : RooWorkspace) (st : ScanState) : Prop :=
  varNames st.w.pars = varNames w.pars ∧ ranges st.w.pars = ranges w.pars
    ∧ shape st.w.obs = shape w.obs

/-! ## `PDF_Abs::buildCov` -/

/-- The helpers of `buildCov` that are not in the sources, as parameters:
`buildCorMatrix` (adds the diagonal and symmetrizes a correlation matrix),
`buildCovMatrix` (the covariance matrix of a correlation matrix and the errors),
`isPosDef`, and the square root `sqrt` of the arithmetic. -/
structure MatrixUtils (n : Nat) where
  buildCorMatrix : Matrix (Fin n) (Fin n) ℚ → Matrix (Fin n) (Fin n) ℚ
  buildCovMatrix : Matrix (Fin n) (Fin n) ℚ → (Fin n → ℚ) → Matrix (Fin n) (Fin n) ℚ
  isPosDef : Matrix (Fin n) (Fin n) ℚ → Bool
  sqrt : ℚ → ℚ

/-- The members of a `PDF_Abs` with `nObs = n` observables that `buildCov` reads and
writes: the four matrices, the errors, and the RooFit errors of the observables, in the
order of the list `observables`. -/
structure PDF_Abs (n : Nat) where
  covMatrix : Matrix (Fin n) (Fin n) ℚ
  corMatrix : Matrix (Fin n) (Fin n) ℚ
  corStatMatrix : Matrix (Fin n) (Fin n) ℚ
  corSystMatrix : Matrix (Fin n) (Fin n) ℚ
  StatErr : Fin n → ℚ
  SystErr : Fin n → ℚ
  obsError : List ℚ

/-- The loop of `storeErrorsInObs` over the indices `is`. An observable that the list
does not have is a null pointer (`none`). -/
def storeErrorsLoop {n : Nat} (u : MatrixUtils n) :
    List (Fin n) → PDF_Abs n → Option (PDF_Abs n)
  | [], pdf => some pdf
  | i :: is, pdf =>
    if i.val < pdf.obsError.length then
      storeErrorsLoop u is
        { pdf with obsError := pdf.obsError.set i.val (u.sqrt (pdf.covMatrix i i)) }
    else none

/-- The function `PDF_Abs::storeErrorsInObs()`. The test `covMatrix==0` holds when every
element of the matrix is zero. -/
def storeErrorsInObs {n : Nat} (u : MatrixUtils n) (pdf : PDF_Abs n) : Option (PDF_Abs n) :=
  if ∀ i j, pdf.covMatrix i j = 0 then some pdf
  else storeErrorsLoop u (List.finRange n) pdf

/-- The function `PDF_Abs::buildCov()`: the members after the call, and the `TString`
that was thrown, if one was. -/
def buildCov {n : Nat} (u : MatrixUtils n) (pdf : PDF_Abs n) :
    Option (PDF_Abs n × Option String) :=
  let pdf : PDF_Abs n := { pdf with corStatMatrix := u.buildCorMatrix pdf.corStatMatrix }
  let pdf : PDF_Abs n := { pdf with corSystMatrix := u.buildCorMatrix pdf.corSystMatrix }
  let covStat := u.buildCovMatrix pdf.corStatMatrix pdf.StatErr
  let covSyst := u.buildCovMatrix pdf.corSystMatrix pdf.SystErr
  let pdf : PDF_Abs n := { pdf with covMatrix := covStat + covSyst }
  if pdf.covMatrix.det = 0 then some (pdf, some "need help")
  else
    let pdf : PDF_Abs n :=
      { pdf with
        corMatrix := fun i j =>
          pdf.covMatrix i j / u.sqrt (pdf.covMatrix i i) / u.sqrt (pdf.covMatrix j j) }
    if ¬ u.isPosDef pdf.corMatrix then some (pdf, some "need help")
    else
      match storeErrorsInObs u pdf with
      | none => none
      | some pdf => some (pdf, none)

/-- The total covariance matrix that `buildCov` makes. -/
def totalCov {n : Nat} (u : MatrixUtils n) (pdf : PDF_Abs n) : Matrix (Fin n) (Fin n) ℚ :=
  u.buildCovMatrix (u.buildCorMatrix pdf.corStatMatrix) pdf.StatErr
    + u.buildCovMatrix (u.buildCorMatrix pdf.corSystMatrix) pdf.SystErr

/-- The total correlation matrix that `buildCov` makes. -/
def totalCor {n : Nat} (u : MatrixUtils n) (pdf : PDF_Abs n) : Matrix (Fin n) (Fin n) ℚ :=
  fun i j => totalCov u pdf i j / u.sqrt (totalCov u pdf i i) / u.sqrt (totalCov u pdf j j)

/-- The members after `buildCov` has made the total covariance matrix. -/
def afterCov {n : Nat} (u : MatrixUtils n) (pdf : PDF_Abs n) : PDF_Abs n :=
  { pdf with
    corStatMatrix := u.buildCorMatrix pdf.corStatMatrix
    corSystMatrix := u.buildCorMatrix pdf.corSystMatrix
    covMatrix := totalCov u pdf }

/-- The members after `buildCov` has made the total correlation matrix. -/
def afterCor {n : Nat} (u : MatrixUtils n) (pdf : PDF_Abs n) : PDF_Abs n :=
  { afterCov u pdf with corMatrix := totalCor u pdf }

/-- Helpers for two observables: correlation matrices are taken as they are, the
covariance is `err i * cor i j * err j`, a matrix counts as positive definite when its
first element and its determinant are positive, and the square root is exact on the
squares of rationals. -/
def twoObsUtils : MatrixUtils 2 :=
  { buildCorMatrix := fun m => m
    buildCovMatrix := fun cor err i j => err i * cor i j * err j
    isPosDef := fun m => decide (0 < m 0 0 ∧ 0 < m 0 0 * m 1 1 - m 0 1 * m 1 0)
    sqrt := Rat.sqrt }

/-- Two uncorrelated observables with statistical errors `2` and `3`, no systematic
errors, and no RooFit errors stored yet. -/
def twoObsPdf : PDF_Abs 2 :=
  { covMatrix := 0
    corMatrix := 0
    corStatMatrix := 1
    corSystMatrix := 1
    StatErr := ![2, 3]
    SystErr := ![0, 0]
    obsError := [0, 0] }

/-- The PDF `twoObsPdf` with the statistical error of the first observable at `0`: its
total covariance matrix is singular. -/
def singularPdf : PDF_Abs 2 :=
  { twoObsPdf with StatErr := ![0, 3] }

/-- The configuration `importanceToys` with two toys per point: at the importance `1/20`
of its expected p-value no toy is left. -/
def fewToys : PluginConfig :=
  { importanceToys with nToys := 2 }

/-- The configuration `importanceToys` at an expected p-value of `1/1000000` at every
point, below the cut-off of `importance`: all of its one hundred toys are skipped. -/
def skippedToys : PluginConfig :=
  { importanceToys with prob := fun _ => 1 / 1000000 }

/-- The configuration `twoToys` with one toy per point. -/
def oneToy : PluginConfig :=
  { twoToys with nToys := 1 }

/-- The two start points that an optimizer call was given. -/
def FitCall.seeds (c : FitCall) : RooArgSet × RooArgSet :=
  (c.startparsFirstFit, c.startparsSecondFit)

/-- What the optimizer sees when the fitter `f` fits the workspace `w`. -/
def Fitter.callOf (f : Fitter) (w : RooWorkspace) : FitCall :=
  { pars := w.pars
    obs := w.obs
    startparsFirstFit := f.startparsFirstFit
    startparsSecondFit := f.startparsSecondFit }

/-- The toys `0` and `1` of the batch are degenerate: both hold a fragile observable, at
the same value. -/
def Degenerate (toy0 toy1 : RooArgSet) : Prop :=
  ∃ v, lastK3piValue toy0 = some v ∧ lastK3piValue toy1 = some v

/-- A workspace with the fragile observable `kD_k3pi_obs` and the two parameters that a
regeneration perturbs. -/
def k3piWorkspace : RooWorkspace :=
  { pars :=
      [{ name := "kD_k3pi", val := 1, isConstant := false, min := 0, max := 10 },
       { name := "dD_k3pi", val := 2, isConstant := false, min := 0, max := 10 }]
    obs := [{ name := "kD_k3pi_obs", val := 0, isConstant := false, min := 0, max := 10 }] }

/-- A configuration whose sampler gives every observable of every toy the value `1`, and
whose Gaussian draw number `k` adds `k + 1` to the mean. -/
def stuckSampler : PluginConfig :=
  { twoToys with
    sample := fun _ _ _ _ => 1
    gaus := fun k mean => mean + (k : ℚ) + 1 }

/-- Toys of two batch ids at one scan point: of the three toys with id `0`, one failed,
one is physical and one is background; the toy with id `7` is physical. -/
def mixedIdToys : ToyTree :=
  { entries := [failedRow, physicalRow, backgroundRow, { physicalRow with id := 7 }]
    scanpointMin := 0
    scanpointMax := 0
    scanpointN := 1 }

/-- ROOT's `TH1::GetBinCenter(bin)` for a fixed-width axis. -/
def TH1F.GetBinCenter (h : TH1F) (bin : Nat) : ℚ :=
  h.fXmin + ((bin : ℚ) - 1) * h.GetBinWidth bin + h.GetBinWidth bin / 2

/-! ## `ParameterCache::cacheParameters` -/

/-- The members of the scanner (`MethodAbsScan`) that `cacheParameters` reads: the
solutions, the 1D and 2D CL histograms and curve results (a slot being a null pointer
when no result is stored), the numbers of 2D scan points, and the options
`savenuisances1d`, `savenuisances2dx` and `savenuisances2dy` of `arg`. -/
structure MethodAbsScan where
  solutions : List RooSlimFitResult
  hCL : TH1F
  curveResults : List (Option RooSlimFitResult)
  hCL2d : TH2F
  curveResults2d : List (List (Option RooSlimFitResult))
  nPoints2dx : Int
  nPoints2dy : Int
  savenuisances1d : List ℚ
  savenuisances2dx : List ℚ
  savenuisances2dy : List ℚ

/-- What the headline of a cached point says: a solution, or a requested 1D or 2D
point. -/
inductive CacheLabel where
  | solution
  | at1d (x : ℚ)
  | at2d (x y : ℚ)

/-- One point written to the parameter file: its number (`totalCachedPoints` at the time
of writing), its headline and the fit result printed under it. -/
structure CacheEntry where
  index : Nat
  label : CacheLabel
  result : RooSlimFitResult

/-- The element `v[i]` of a `std::vector`; outside the vector the read has no defined
result (`none`). -/
def vectorAt {α : Type} (v : List α) (i : Int) : Option α :=
  if i < 0 then none else v[i.toNat]?

/-- The loop of `cacheParameters` over the requested 1D points: the points written, and
whether the function returned from inside the loop. -/
def cachePoints1d (scanner : MethodAbsScan) :
    List ℚ → List CacheEntry → Option (List CacheEntry × Bool)
  | [], out => some (out, false)
  | p :: ps, out =>
    let iBin : Int := (scanner.hCL.FindBin p : Int)
    match vectorAt scanner.curveResults (iBin - 1) with
    | none => none
    | some none => some (out, true)
    | some (some r) =>
      cachePoints1d scanner ps
        (out ++ [{ index := out.length, label := CacheLabel.at1d p, result := r }])

/-- The loop of `cacheParameters` over the requested 2D points. -/
def cachePoints2d (scanner : MethodAbsScan) :
    List (ℚ × ℚ) → List CacheEntry → Option (List CacheEntry × Bool)
  | [], out => some (out, false)
  | (x, y) :: ps, out =>
    let xBin : Int := (scanner.hCL2d.fXaxis.FindBin x : Int)
    let yBin : Int := (scanner.hCL2d.fXaxis.FindBin y : Int)
    if xBin < 1 ∨ xBin > scanner.nPoints2dx ∨ yBin < 1 ∨ yBin > scanner.nPoints2dy then
      cachePoints2d scanner ps out
    else
      match vectorAt scanner.curveResults2d (xBin - 1) with
      | none => none
      | some row =>
        match vectorAt row (yBin - 1) with
        | none => none
        | some none => some (out, true)
        | some (some r) =>
          cachePoints2d scanner ps
            (out ++ [{ index := out.length, label := CacheLabel.at2d x y, result := r }])

/-- The solutions as `cacheParameters` writes them, numbered from `k`. -/
def cacheSolutions : List RooSlimFitResult → Nat → List CacheEntry
  | [], _ => []
  | r :: rs, k =>
    { index := k, label := CacheLabel.solution, result := r } :: cacheSolutions rs (k + 1)

/-- The function `ParameterCache::cacheParameters(MethodAbsScan *scanner)`: the points
written to the file, in order; `some none` when no file is written because the basename
is empty. The header lines of the file are left out. -/
def cacheParameters (basename : String) (scanner : MethodAbsScan) :
    Option (Option (List CacheEntry)) :=
  if basename = "" then some none
  else
    let out := cacheSolutions scanner.solutions 0
    let after1d : Option (List CacheEntry × Bool) :=
      if scanner.savenuisances1d.length > 0 then
        cachePoints1d scanner scanner.savenuisances1d out
      else some (out, false)
    match after1d with
    | none => none
    | some (out, true) => some (some out)
    | some (out, false) =>
      if scanner.savenuisances2dx.length > 0 then
        if scanner.savenuisances2dx.length ≠ scanner.savenuisances2dy.length then
          some (some out)
        else
          match cachePoints2d scanner
              (scanner.savenuisances2dx.zip scanner.savenuisances2dy) out with
          | none => none
          | some (out, _) => some (some out)
      else some (some out)

/-- A fit result marked by its test statistic. -/
def resultMarked (mark : ℚ) : RooSlimFitResult :=
  { floatParsFinal := [], constPars := [], minNll := mark }

/-- A 2D scan of `2 x 2` points whose axes differ, `[0, 2]` in x and `[0, 20]` in y,
with the result marked `10 i + j` stored at `curveResults2d[i][j]`, and the one
requested point `(1/2, 3/2)`, which lies in the x bin `1` and in the y bin `1`. -/
def skewScan : MethodAbsScan :=
  { solutions := []
    hCL := TH1F.create 2 0 2
    curveResults := []
    hCL2d :=
      { fXaxis := { fNbins := 2, fXmin := 0, fXmax := 2 }
        fYaxis := { fNbins := 2, fXmin := 0, fXmax := 20 }
        fArray := fun _ => 0
        fSumw2 := fun _ => 0
        fEntries := 0 }
    curveResults2d :=
      [[some (resultMarked 0), some (resultMarked 1)],
       [some (resultMarked 10), some (resultMarked 11)]]
    nPoints2dx := 2
    nPoints2dy := 2
    savenuisances1d := []
    savenuisances2dx := [1 / 2]
    savenuisances2dy := [3 / 2] }

/-! ## `PDF_Abs::setObservablesToy` -/

/-- The members of a `PDF_Abs` that `setObservablesToy` reads and writes: whether the
pdf is built (`pdf != 0`), the observables, `nObs`, the pregenerated toys
(`toyObservables`, a null pointer at first), `nToyObs`, `iToyObs` and `obsValSource`;
and, as a record of what the calls did, for each call whether it generated a batch and
the toy index that it used. -/
structure ToyObsState where
  pdfBuilt : Bool
  observables : RooArgSet
  nObs : Int
  toyObservables : Option RooDataSet
  nToyObs : Int
  iToyObs : Int
  obsValSource : String
  generated : List Bool
  reads : List Int

/-- The constructor `PDF_Abs::PDF_Abs(int nObs)`, as far as `setObservablesToy` is
concerned, followed by the initialisation of the observables, of the pdf and of the
batch size that a derived class or the caller makes. -/
def ToyObsState.fresh (observables : RooArgSet) (nObs : Int) (nToyObs : Int) : ToyObsState :=
  { pdfBuilt := true
    observables := observables
    nObs := nObs
    toyObservables := none
    nToyObs := nToyObs
    iToyObs := 0
    obsValSource := "n/a"
    generated := []
    reads := [] }

/-- The call `pdf->generate(observables, nToyObs)` of the model sampler: `sample b j name`
is the value of the observable `name` in toy `j` of batch number `b`. -/
def generateObs (sample : Nat → Nat → String → ℚ) (b : Nat) (observables : RooArgSet)
    (nToyObs : Int) : RooDataSet :=
  { entries := (List.range nToyObs.toNat).map fun j =>
      observables.map fun o => { o with val := sample b j o.name } }

/-- The loop of `setObservablesToy` over the observables `i`: observable `i` takes the
value that the toy holds under its name. An observable that the list does not have, a
toy outside the batch and a name that the toy does not have are null pointers
(`none`). -/
def loadToyObs (toy : Option RooArgSet) : List Nat → RooArgSet → Option RooArgSet
  | [], observables => some observables
  | i :: is, observables =>
    match observables[i]?, toy with
    | some pObs, some toyData =>
      match findVar toyData pObs.name with
      | some v => loadToyObs toy is (observables.set i { pObs with val := v.val })
      | none => none
    | _, _ => none

/-- The function `PDF_Abs::setObservablesToy()`. -/
def setObservablesToy (sample : Nat → Nat → String → ℚ) (p : ToyObsState) :
    Option (Outcome ToyObsState) :=
  let p : ToyObsState := { p with obsValSource := "toy" }
  if ¬ p.pdfBuilt then some (Outcome.exited 1)
  else
    let regenerate : Bool := p.toyObservables.isNone || decide (p.iToyObs = p.nToyObs)
    let p : ToyObsState :=
      if regenerate then
        { p with
          toyObservables :=
            some (generateObs sample (p.generated.count true) p.observables p.nToyObs)
          iToyObs := 0 }
      else p
    let toy : Option RooArgSet :=
      match p.toyObservables with
      | some toys => if p.iToyObs < 0 then none else toys.get p.iToyObs.toNat
      | none => none
    match loadToyObs toy (List.range p.nObs.toNat) p.observables with
    | none => none
    | some observables =>
      some (Outcome.returned
        { p with
          observables := observables
          iToyObs := wrapInt (p.iToyObs + 1)
          generated := p.generated ++ [regenerate]
          reads := p.reads ++ [p.iToyObs] })

/-- The state after `k` calls of `setObservablesToy` in a row. -/
def setObservablesToyTimes (sample : Nat → Nat → String → ℚ) :
    Nat → ToyObsState → Option (Outcome ToyObsState)
  | 0, p => some (Outcome.returned p)
  | k + 1, p =>
    match setObservablesToyTimes sample k p with
    | some (Outcome.returned q) => setObservablesToy sample q
    | other => other

/-- What holds after `k` calls of `setObservablesToy` on a fresh PDF with the observables
`names` and a batch size `n`. -/
def ToyObsInv (names : List String) (n k : Nat) (p : ToyObsState) : Prop :=
  p.pdfBuilt = true ∧ p.nToyObs = (n : Int) ∧ p.nObs = (names.length : Int)
    ∧ varNames p.observables = names
    ∧ p.generated = (List.range k).map (fun c => decide (c % n = 0))
    ∧ p.reads = (List.range k).map (fun c => ((c % n : Nat) : Int))
    ∧ (k = 0 → p.toyObservables = none ∧ p.iToyObs = 0)
    ∧ (0 < k → p.iToyObs = (((k - 1) % n : Nat) : Int) + 1
        ∧ ∃ toys, p.toyObservables = some toys ∧ toys.entries.length = n
            ∧ ∀ toy ∈ toys.entries, varNames toy = names)

/-- An observable `obs` at the value `5`. -/
def oneObservable : RooArgSet :=
  [{ name := "obs", val := 5, isConstant := false, min := 0, max := 10 }]

/-! ## `PDF_Abs::uniquify` and `PDF_Abs::getBaseName` -/

/-- The scan of `TString::ReplaceAll(s1, s2)` over the characters that are left: `skip`
characters of an occurrence that was just replaced are still to be passed over; then, at
every position, an occurrence of `s1` that starts there is replaced by `s2` and the
search goes on behind it. -/
def replaceGo (s1 s2 : List Char) : Nat → List Char → List Char
  | _, [] => []
  | skip + 1, _ :: t => replaceGo s1 s2 skip t
  | 0, c :: t =>
    if s1.isPrefixOf (c :: t) then s2 ++ replaceGo s1 s2 (s1.length - 1) t
    else c :: replaceGo s1 s2 0 t

/-- The call `s.ReplaceAll(s1, s2)`: every occurrence of `s1`, found from left to right
and not overlapping an earlier one, becomes `s2`; an empty `s1` changes nothing. -/
def replaceAll (s s1 s2 : String) : String :=
  if s1 = "" then s else ⟨replaceGo s1.toList s2.toList 0 s.toList⟩

/-- The members of a `PDF_Abs` that `uniquify` and `getBaseName` use: the name, the
unique ID, the name of the `pdf` object (`none`: the `pdf` pointer is null), the names of
the observables and of the theory parameters, and the cross-correlation flag. -/
structure PdfNames where
  name : String
  uniqueID : String
  pdfName : Option String
  observables : List String
  theory : List String
  m_isCrossCorPdf : Bool

/-- The names after the constructor `PDF_Abs::PDF_Abs` (unique ID `UID0`, no
cross-correlation PDF) and after a derived class has set the name, built the pdf and
filled the observables and the theory parameters. -/
def PdfNames.create (name pdfName : String) (observables theory : List String)
    (isCrossCorPdf : Bool) : PdfNames :=
  { name := name
    uniqueID := "UID0"
    pdfName := some pdfName
    observables := observables
    theory := theory
    m_isCrossCorPdf := isCrossCorPdf }

/-- The function `PDF_Abs::getBaseName`: the name with every occurrence of the unique ID
removed. -/
def getBaseName (p : PdfNames) : String :=
  replaceAll p.name p.uniqueID ""

/-- The function `PDF_Abs::uniquifyThisString`: `Form("UID%i", uID)` replaces the current
unique ID where the string contains it, and is appended otherwise. -/
def uniquifyThisString (p : PdfNames) (s : String) (uID : Int) : String :=
  let newUniqueID := "UID" ++ toString uID
  if containsSubstr s p.uniqueID then replaceAll s p.uniqueID newUniqueID
  else s ++ newUniqueID

/-- The function `PDF_Abs::uniquify`: it exits with code 1 when the unique ID is empty;
it uniquifies the name and the name of the pdf (no result when the `pdf` pointer is
null), then, unless this is a cross-correlation PDF, the names of the observables and of
the theory parameters, and at last stores the new unique ID. -/
def uniquify (uID : Int) (p : PdfNames) : Option (Outcome PdfNames) :=
  if p.uniqueID = "" then some (Outcome.exited 1)
  else
    match p.pdfName with
    | none => none
    | some pdfName =>
      let p1 := { p with name := uniquifyThisString p p.name uID }
      let p2 := { p1 with pdfName := some (uniquifyThisString p1 pdfName uID) }
      let p3 :=
        if ¬ p2.m_isCrossCorPdf then
          let p2a := { p2 with
            observables := p2.observables.map fun o => uniquifyThisString p2 o uID }
          { p2a with theory := p2a.theory.map fun t => uniquifyThisString p2a t uID }
        else p2
      some (Outcome.returned { p3 with uniqueID := uniquifyThisString p3 "" uID })

/-! ## `ParameterCache::loadPoints` -/

/-- The test `boost::starts_with(line, pat)`. -/
def startsWith (line pat : String) : Bool :=
  pat.toList.isPrefixOf line.toList

/-- The tokens that `boost::split(els, line, is_any_of(" "), token_compress_on)` finds in
the characters that are left: `cur` holds the characters of the token being read, last
one first, and `inDelim` tells that the character before was a blank, so that a run of
blanks separates two tokens only. -/
def splitGo : List Char → Bool → List Char → List String
  | cur, _, [] => [String.mk cur.reverse]
  | cur, inDelim, c :: t =>
    if c = ' ' then
      if inDelim then splitGo [] true t
      else String.mk cur.reverse :: splitGo [] true t
    else splitGo (c :: cur) false t

/-- The vector `els` after `boost::split` of a line at blanks, with runs of blanks
compressed. -/
def splitCompress (line : String) : List String :=
  splitGo [] false line.toList

/-- One point of `startingValues`, a `map<TString,double>`, as the list of its entries;
no two entries have the same name, and the order of the entries is that of insertion. -/
abbrev Point := List (String × ℚ)

/-- The call `map.insert(make_pair(name, val))`: an entry is added unless the map already
has one with that name. -/
def mapInsert (m : Point) (name : String) (val : ℚ) : Point :=
  if m.any (fun e => e.1 == name) then m else m ++ [(name, val)]

/-- The members of a `ParameterCache` that `loadPoints` writes. -/
structure ParameterCache where
  startingValues : List Point
  parametersLoaded : Bool
deriving DecidableEq

/-- One pass of the `getline` loop of `loadPoints`, on the counter `nSolutions` and the
vector `startingValues`. There is no result when the line has no second token (`els[1]`
is read outside the vector), when `lexical_cast<double>` throws (`parseDouble` gives
`none`), or when `startingValues[nSolutions-1]` is outside the vector. -/
def loadLine (parseDouble : String → Option ℚ) (st : Int × List Point) (line : String) :
    Option (Int × List Point) :=
  if line = "" then some st
  else if startsWith line "#" then some st
  else if startsWith line "----" then some (wrapInt (st.1 + 1), st.2 ++ [[]])
  else
    let els := splitCompress line
    match els[0]?, els[1]? with
    | some name, some tok =>
      match parseDouble tok with
      | none => none
      | some val =>
        if st.1 - 1 < 0 then none
        else
          match st.2[(st.1 - 1).toNat]? with
          | none => none
          | some point =>
            some (st.1, st.2.set (st.1 - 1).toNat (mapInsert point name val))
    | _, _ => none

/-- The `getline` loop of `loadPoints` over the lines of the file. -/
def loadLines (parseDouble : String → Option ℚ) :
    List String → Int × List Point → Option (Int × List Point)
  | [], st => some st
  | line :: rest, st =>
    match loadLine parseDouble st line with
    | none => none
    | some st' => loadLines parseDouble rest st'

/-- The function `ParameterCache::loadPoints`. The file system is `files` (the lines of a
file, or `none` when the file cannot be opened), `defaultFileName` is the result of
`getDefaultFileName()`. The result is the returned flag and the cache. -/
def loadPoints (files : String → Option (List String)) (parseDouble : String → Option ℚ)
    (defaultFileName : String) (fileName : String) (c : ParameterCache) :
    Option (Bool × ParameterCache) :=
  let c := { c with startingValues := [] }
  let fileName := if fileName = "default" then defaultFileName else fileName
  match files fileName with
  | none => some (false, c)
  | some lines =>
    match loadLines parseDouble lines (0, c.startingValues) with
    | none => none
    | some (_, points) => some (true, { startingValues := points, parametersLoaded := true })

/-- The function `ParameterCache::getNPoints`. -/
def getNPoints (c : ParameterCache) : Int :=
  wrapInt c.startingValues.length

/-- The value that a point holds for a name. -/
def Point.lookup (m : Point) (name : String) : Option ℚ :=
  (m.find? fun e => e.1 == name).map Prod.snd

/-- A line that is neither empty, nor a comment, nor the start of a solution. -/
def parameterLine (line : String) : Bool :=
  !(decide (line = "")) && !(startsWith line "#") && !(startsWith line "----")

/-- A `lexical_cast<double>` that knows the numerals `1` and `2`. -/
def parseDigit (tok : String) : Option ℚ :=
  if tok = "1" then some 1 else if tok = "2" then some 2 else none

/-- A file system with the one file `par.dat`: a solution with two lines for `x`. -/
def twiceX (fileName : String) : Option (List String) :=
  if fileName = "par.dat" then some ["----", "x 1", "x 2"] else none

/-- A file system with the one file `par.dat`: a comment, an empty line, and a solution
with the lines `x 1` and `y  2`. -/
def oneSolution (fileName : String) : Option (List String) :=
  if fileName = "par.dat" then some ["# cache", "", "----", "x 1", "y  2"] else none

/-! ## Theorems -/

/-! ### `importance` -/

/-- C1: for every expected p-value `p`, `importance p` is `0` if `p < 1e-5` and otherwise
`(1-p)/p/30` clamped to `[0.05, 1]`; in particular every result is `0` or lies in
`[0.05, 1]`. -/
theorem importance_eq_clamp (p : ℚ) :
    importance p
        = (if p < 1 / 100000 then 0 else max (5 / 100) (min ((1 - p) / p / 30) 1))
      ∧ (importance p = 0 ∨ (5 / 100 ≤ importance p ∧ importance p ≤ 1)) := by
  constructor
  · simp only [importance]
    by_cases h : p < 1 / 100000
    · rw [if_pos h, if_pos h]
    · rw [if_neg h, if_neg h]
      by_cases h1 : (1 - p) / p / 30 > 1
      · rw [if_pos h1, min_eq_right h1.le]
        norm_num
      · rw [if_neg h1, min_eq_left (not_lt.mp h1)]
        by_cases h2 : (1 - p) / p / 30 < 5 / 100
        · rw [if_pos h2, max_eq_left h2.le]
        · rw [if_neg h2, max_eq_right (not_lt.mp h2)]
  · simp only [importance]
    by_cases h : p < 1 / 100000
    · left
      rw [if_pos h]
    · right
      rw [if_neg h]
      split_ifs with h1 h2
      · norm_num
      · norm_num
      · exact ⟨not_lt.mp h2, not_lt.mp h1⟩

/-- C2: for all `p1 ≤ p2` with `p1 ≥ 1e-5`, `importance p1 ≥ importance p2`: the toy
fraction does not increase as the expected p-value grows. -/
theorem importance_antitone (p1 p2 : ℚ) (hco : 1 / 100000 ≤ p1) (hle : p1 ≤ p2) :
    importance p2 ≤ importance p1 := by
  have hp1 : 0 < p1 := lt_of_lt_of_le (by norm_num) hco
  have hp2 : 0 < p2 := lt_of_lt_of_le hp1 hle
  have hf : (1 - p2) / p2 / 30 ≤ (1 - p1) / p1 / 30 := by
    apply div_le_div_of_nonneg_right _ (by norm_num : (0 : ℚ) ≤ 30)
    rw [div_le_div_iff₀ hp2 hp1]
    nlinarith
  simp only [importance]
  rw [if_neg (not_lt.mpr hco), if_neg (not_lt.mpr (hco.trans hle))]
  split_ifs <;> linarith

/-- The witness of C2: at `p1 = 0.1` and `p2 = 0.9` the fractions are `0.3` and `0.05`. -/
theorem importance_antitone_witness :
    (1 : ℚ) / 100000 ≤ 1 / 10 ∧ (1 : ℚ) / 10 ≤ 9 / 10
      ∧ importance (1 / 10) = 3 / 10 ∧ importance (9 / 10) = 5 / 100
      ∧ importance (9 / 10) ≤ importance (1 / 10) :=
  ⟨by norm_num, by norm_num, by norm_num [importance], by norm_num [importance],
    importance_antitone (1 / 10) (9 / 10) (by norm_num) (by norm_num)⟩

/-! ### `analyseToys` -/

theorem analyseEntry_of_not_selected (s : Scanner) (id : Int) (st : AnalyseState) (r : ToyRow)
    (h : ¬ selected id r) : analyseEntry s id st r = st := by
  unfold selected at h
  unfold analyseEntry
  rw [if_pos (not_not.mp h)]

theorem analyseEntry_of_not_passesCuts (s : Scanner) (id : Int) (st : AnalyseState)
    (r : ToyRow) (h : selected id r) (hc : ¬ passesCuts r) :
    analyseEntry s id st r =
      { st with ntoysid := st.ntoysid + 1, nfailed := st.nfailed + 1 } := by
  unfold selected at h
  unfold passesCuts at hc
  unfold analyseEntry
  rw [if_neg h]
  simp only []
  rw [if_pos hc]

theorem analyseEntry_of_binned (s : Scanner) (id : Int) (st : AnalyseState)
    (r : ToyRow) (h : binned s id r) :
    analyseEntry s id st r =
      { h_better :=
          if inPhysicalRegion r ∧ isBetter s r then st.h_better.Fill r.scanpoint
          else st.h_better
        h_all := if inPhysicalRegion r then st.h_all.Fill r.scanpoint else st.h_all
        h_background :=
          if ¬ inPhysicalRegion r then st.h_background.Fill r.scanpoint else st.h_background
        h_gof :=
          if inPhysicalRegion r ∧ r.chi2minGlobalToy > r.chi2minGlobal then
            st.h_gof.Fill r.scanpoint
          else st.h_gof
        nfailed := st.nfailed
        nwrongrun :=
          if id ≠ -1 ∧ ¬ (abs (r.chi2minGlobal - s.chi2minGlobal) < 2 / 10) then
            st.nwrongrun + 1
          else st.nwrongrun
        ntoysid := st.ntoysid + 1 } := by
  obtain ⟨h1, h2, h3⟩ := h
  unfold selected at h1
  unfold passesCuts at h2
  unfold inPlotRange at h3
  unfold analyseEntry inPhysicalRegion isBetter chi2minUsed
  rw [if_neg h1]
  simp only []
  rw [if_neg (not_not.mpr h2), if_neg h3]
  have key : ∀ (st0 : AnalyseState),
      (let chi2min := if s.arg.pluginext then s.profileLHgetChi2min r.scanpoint else r.chi2min
        let inPhysicalRegion : Bool := decide (r.chi2minToy - r.chi2minGlobalToy > 0)
        let st :=
          if inPhysicalRegion
              ∧ r.chi2minToy - r.chi2minGlobalToy > chi2min - r.chi2minGlobal then
            { st0 with h_better := st0.h_better.Fill r.scanpoint }
          else st0
        let st :=
          if inPhysicalRegion ∧ r.chi2minGlobalToy > r.chi2minGlobal then
            { st with h_gof := st.h_gof.Fill r.scanpoint }
          else st
        let st :=
          if inPhysicalRegion then { st with h_all := st.h_all.Fill r.scanpoint }
          else st
        if ¬ inPhysicalRegion then
          { st with h_background := st.h_background.Fill r.scanpoint }
        else st) =
      { h_better :=
          if r.chi2minToy - r.chi2minGlobalToy > 0 ∧ r.chi2minToy - r.chi2minGlobalToy >
              (if s.arg.pluginext then s.profileLHgetChi2min r.scanpoint else r.chi2min)
                - r.chi2minGlobal then st0.h_better.Fill r.scanpoint
          else st0.h_better
        h_all :=
          if r.chi2minToy - r.chi2minGlobalToy > 0 then st0.h_all.Fill r.scanpoint
          else st0.h_all
        h_background :=
          if ¬ r.chi2minToy - r.chi2minGlobalToy > 0 then st0.h_background.Fill r.scanpoint
          else st0.h_background
        h_gof :=
          if r.chi2minToy - r.chi2minGlobalToy > 0 ∧ r.chi2minGlobalToy > r.chi2minGlobal then
            st0.h_gof.Fill r.scanpoint
          else st0.h_gof
        nfailed := st0.nfailed
        nwrongrun := st0.nwrongrun
        ntoysid := st0.ntoysid } := by
    intro st0
    by_cases hp : r.chi2minToy - r.chi2minGlobalToy > 0
    · by_cases hb : r.chi2minToy - r.chi2minGlobalToy >
          (if s.arg.pluginext then s.profileLHgetChi2min r.scanpoint else r.chi2min)
            - r.chi2minGlobal
      · by_cases hg : r.chi2minGlobalToy > r.chi2minGlobal <;> simp [hp, hb, hg]
      · by_cases hg : r.chi2minGlobalToy > r.chi2minGlobal <;> simp [hp, hb, hg]
    · simp [hp]
  rw [key]
  by_cases hw : id ≠ -1 ∧ ¬ (abs (r.chi2minGlobal - s.chi2minGlobal) < 2 / 10)
  · rw [if_pos hw, if_pos hw]
  · rw [if_neg hw, if_neg hw]

theorem analyseEntry_of_not_inPlotRange (s : Scanner) (id : Int) (st : AnalyseState)
    (r : ToyRow) (h : selected id r) (hc : passesCuts r) (hr : ¬ inPlotRange s.arg r) :
    analyseEntry s id st r =
      { st with
        ntoysid := st.ntoysid + 1
        nwrongrun :=
          if id ≠ -1 ∧ ¬ (abs (r.chi2minGlobal - s.chi2minGlobal) < 2 / 10) then
            st.nwrongrun + 1
          else st.nwrongrun } := by
  unfold selected at h
  unfold passesCuts at hc
  unfold inPlotRange at hr
  unfold analyseEntry
  rw [if_neg h]
  simp only []
  rw [if_neg (not_not.mpr hc), if_pos (not_not.mp hr)]
  by_cases hw : id ≠ -1 ∧ ¬ (abs (r.chi2minGlobal - s.chi2minGlobal) < 2 / 10)
  · rw [if_pos hw, if_pos hw]
  · rw [if_neg hw, if_neg hw]

namespace TH1F

theorem FindBin_Fill (h : TH1F) (y x : ℚ) : (h.Fill y).FindBin x = h.FindBin x := rfl

theorem fArray_Fill (h : TH1F) (y : ℚ) (b : Nat) :
    (h.Fill y).fArray b = h.fArray b + if h.FindBin y = b then 1 else 0 := by
  unfold Fill
  by_cases hb : h.FindBin y = b
  · subst hb; simp
  · have hne : b ≠ h.FindBin y := fun e => hb e.symm
    simp [Function.update_noteq hne, hb]

theorem fEntries_Fill (h : TH1F) (y : ℚ) : (h.Fill y).fEntries = h.fEntries + 1 := rfl

end TH1F

theorem FilledWhen.findBin {s : Scanner} {id : Int} {proj : AnalyseState → TH1F}
    {c : ToyRow → Prop} [DecidablePred c] (hf : FilledWhen s id proj c)
    (rows : List ToyRow) (st : AnalyseState) (x : ℚ) :
    (proj (rows.foldl (analyseEntry s id) st)).FindBin x = (proj st).FindBin x := by
  induction rows generalizing st with
  | nil => rfl
  | cons r rows ih =>
    rw [List.foldl_cons, ih, hf]
    split_ifs
    · rfl
    · rfl

theorem FilledWhen.fArray {s : Scanner} {id : Int} {proj : AnalyseState → TH1F}
    {c : ToyRow → Prop} [DecidablePred c] (hf : FilledWhen s id proj c)
    (rows : List ToyRow) (st : AnalyseState) (b : Nat) :
    (proj (rows.foldl (analyseEntry s id) st)).fArray b =
      (proj st).fArray b
        + (rows.countP (fun r => decide (c r ∧ (proj st).FindBin r.scanpoint = b)) : ℚ) := by
  induction rows generalizing st with
  | nil => simp
  | cons r rows ih =>
    rw [List.foldl_cons, ih, List.countP_cons]
    have hfb : ∀ x, (proj (analyseEntry s id st r)).FindBin x = (proj st).FindBin x := by
      intro x
      rw [hf]; split_ifs <;> rfl
    simp only [hfb]
    rw [hf]
    by_cases hc : c r
    · rw [if_pos hc, TH1F.fArray_Fill]
      by_cases hb : (proj st).FindBin r.scanpoint = b
      · simp [hc, hb]; ring
      · simp [hc, hb]
    · rw [if_neg hc]
      simp [hc]

theorem FilledWhen.fEntries {s : Scanner} {id : Int} {proj : AnalyseState → TH1F}
    {c : ToyRow → Prop} [DecidablePred c] (hf : FilledWhen s id proj c)
    (rows : List ToyRow) (st : AnalyseState) :
    (proj (rows.foldl (analyseEntry s id) st)).fEntries =
      (proj st).fEntries + rows.countP (fun r => decide (c r)) := by
  induction rows generalizing st with
  | nil => simp
  | cons r rows ih =>
    rw [List.foldl_cons, ih, List.countP_cons, hf]
    by_cases hc : c r
    · rw [if_pos hc, TH1F.fEntries_Fill]
      simp [hc]; ring
    · rw [if_neg hc]
      simp [hc]

theorem filledWhen_h_all (s : Scanner) (id : Int) :
    FilledWhen s id AnalyseState.h_all (fun r => binned s id r ∧ inPhysicalRegion r) := by
  intro st r
  by_cases hb : binned s id r
  · rw [analyseEntry_of_binned s id st r hb]
    simp only [hb, true_and]
  · rw [if_neg (fun h => hb h.1)]
    by_cases h1 : selected id r
    · by_cases h2 : passesCuts r
      · have h3 : ¬ inPlotRange s.arg r := fun h3 => hb ⟨h1, h2, h3⟩
        rw [analyseEntry_of_not_inPlotRange s id st r h1 h2 h3]
      · rw [analyseEntry_of_not_passesCuts s id st r h1 h2]
    · rw [analyseEntry_of_not_selected s id st r h1]

theorem filledWhen_h_better (s : Scanner) (id : Int) :
    FilledWhen s id AnalyseState.h_better
      (fun r => binned s id r ∧ inPhysicalRegion r ∧ isBetter s r) := by
  intro st r
  by_cases hb : binned s id r
  · rw [analyseEntry_of_binned s id st r hb]
    simp only [hb, true_and]
  · rw [if_neg (fun h => hb h.1)]
    by_cases h1 : selected id r
    · by_cases h2 : passesCuts r
      · have h3 : ¬ inPlotRange s.arg r := fun h3 => hb ⟨h1, h2, h3⟩
        rw [analyseEntry_of_not_inPlotRange s id st r h1 h2 h3]
      · rw [analyseEntry_of_not_passesCuts s id st r h1 h2]
    · rw [analyseEntry_of_not_selected s id st r h1]

theorem filledWhen_h_background (s : Scanner) (id : Int) :
    FilledWhen s id AnalyseState.h_background
      (fun r => binned s id r ∧ ¬ inPhysicalRegion r) := by
  intro st r
  by_cases hb : binned s id r
  · rw [analyseEntry_of_binned s id st r hb]
    simp only [hb, true_and]
  · rw [if_neg (fun h => hb h.1)]
    by_cases h1 : selected id r
    · by_cases h2 : passesCuts r
      · have h3 : ¬ inPlotRange s.arg r := fun h3 => hb ⟨h1, h2, h3⟩
        rw [analyseEntry_of_not_inPlotRange s id st r h1 h2 h3]
      · rw [analyseEntry_of_not_passesCuts s id st r h1 h2]
    · rw [analyseEntry_of_not_selected s id st r h1]

theorem filledWhen_h_gof (s : Scanner) (id : Int) :
    FilledWhen s id AnalyseState.h_gof
      (fun r => binned s id r ∧ inPhysicalRegion r ∧ r.chi2minGlobalToy > r.chi2minGlobal) := by
  intro st r
  by_cases hb : binned s id r
  · rw [analyseEntry_of_binned s id st r hb]
    simp only [hb, true_and]
  · rw [if_neg (fun h => hb h.1)]
    by_cases h1 : selected id r
    · by_cases h2 : passesCuts r
      · have h3 : ¬ inPlotRange s.arg r := fun h3 => hb ⟨h1, h2, h3⟩
        rw [analyseEntry_of_not_inPlotRange s id st r h1 h2 h3]
      · rw [analyseEntry_of_not_passesCuts s id st r h1 h2]
    · rw [analyseEntry_of_not_selected s id st r h1]

theorem FilledWhen.fNbins {s : Scanner} {id : Int} {proj : AnalyseState → TH1F}
    {c : ToyRow → Prop} [DecidablePred c] (hf : FilledWhen s id proj c)
    (rows : List ToyRow) (st : AnalyseState) :
    (proj (rows.foldl (analyseEntry s id) st)).fNbins = (proj st).fNbins := by
  induction rows generalizing st with
  | nil => rfl
  | cons r rows ih =>
    rw [List.foldl_cons, ih, hf]
    split_ifs
    · rfl
    · rfl

theorem analyseEntry_nfailed (s : Scanner) (id : Int) (st : AnalyseState) (r : ToyRow) :
    (analyseEntry s id st r).nfailed =
      if selected id r ∧ ¬ passesCuts r then st.nfailed + 1 else st.nfailed := by
  by_cases h1 : selected id r
  · by_cases h2 : passesCuts r
    · rw [if_neg (fun h => h.2 h2)]
      by_cases h3 : inPlotRange s.arg r
      · rw [analyseEntry_of_binned s id st r ⟨h1, h2, h3⟩]
      · rw [analyseEntry_of_not_inPlotRange s id st r h1 h2 h3]
    · rw [if_pos ⟨h1, h2⟩, analyseEntry_of_not_passesCuts s id st r h1 h2]
  · rw [if_neg (fun h => h1 h.1), analyseEntry_of_not_selected s id st r h1]

theorem analyseEntry_nwrongrun (s : Scanner) (id : Int) (st : AnalyseState) (r : ToyRow) :
    (analyseEntry s id st r).nwrongrun =
      if selected id r ∧ passesCuts r ∧ id ≠ -1
          ∧ ¬ (abs (r.chi2minGlobal - s.chi2minGlobal) < 2 / 10) then st.nwrongrun + 1
      else st.nwrongrun := by
  by_cases h1 : selected id r
  · by_cases h2 : passesCuts r
    · by_cases h3 : inPlotRange s.arg r
      · rw [analyseEntry_of_binned s id st r ⟨h1, h2, h3⟩]
        simp only [h1, h2, true_and]
      · rw [analyseEntry_of_not_inPlotRange s id st r h1 h2 h3]
        simp only [h1, h2, true_and]
    · rw [if_neg (fun h => h2 h.2.1), analyseEntry_of_not_passesCuts s id st r h1 h2]
  · rw [if_neg (fun h => h1 h.1), analyseEntry_of_not_selected s id st r h1]

theorem foldl_nfailed (s : Scanner) (id : Int) (rows : List ToyRow) (st : AnalyseState) :
    (rows.foldl (analyseEntry s id) st).nfailed =
      st.nfailed + rows.countP (fun r => decide (selected id r ∧ ¬ passesCuts r)) := by
  induction rows generalizing st with
  | nil => simp
  | cons r rows ih =>
    rw [List.foldl_cons, ih, List.countP_cons, analyseEntry_nfailed]
    by_cases hc : selected id r ∧ ¬ passesCuts r
    · rw [if_pos hc]
      simp only [hc, and_self, not_false_eq_true, decide_True, if_true]
      omega
    · rw [if_neg hc]
      simp only [hc, decide_False, Bool.false_eq_true, if_false]
      omega

theorem foldl_nwrongrun_all (s : Scanner) (rows : List ToyRow) (st : AnalyseState) :
    (rows.foldl (analyseEntry s (-1)) st).nwrongrun = st.nwrongrun := by
  induction rows generalizing st with
  | nil => rfl
  | cons r rows ih =>
    rw [List.foldl_cons, ih, analyseEntry_nwrongrun]
    rw [if_neg (fun h => h.2.2.1 rfl)]

theorem setPvalue_fArray (s : Scanner) (st : AnalyseState) (hCL : TH1F) (j i : Nat) :
    (setPvalue s st hCL j).fArray i =
      if j = i ∧ st.h_all.GetBinContent i ≠ 0 then pvalueAt s st i else hCL.fArray i := by
  unfold setPvalue pvalueAt
  by_cases hz : st.h_all.GetBinContent j = 0
  · simp only [hz, if_true]
    rw [if_neg]
    rintro ⟨rfl, h⟩
    exact h hz
  · simp only [hz, if_false]
    by_cases hji : j = i
    · subst hji
      simp [TH1F.SetBinContent, TH1F.SetBinError2, hz]
    · have hne : i ≠ j := fun e => hji e.symm
      simp [TH1F.SetBinContent, TH1F.SetBinError2, hji, Function.update_noteq hne]

theorem setPvalue_fSumw2 (s : Scanner) (st : AnalyseState) (hCL : TH1F) (j i : Nat) :
    (setPvalue s st hCL j).fSumw2 i =
      if j = i ∧ st.h_all.GetBinContent i ≠ 0 then
        pvalueAt s st i * (1 - pvalueAt s st i) / st.h_all.GetBinContent i
      else hCL.fSumw2 i := by
  unfold setPvalue pvalueAt
  by_cases hz : st.h_all.GetBinContent j = 0
  · simp only [hz, if_true]
    rw [if_neg]
    rintro ⟨rfl, h⟩
    exact h hz
  · simp only [hz, if_false]
    by_cases hji : j = i
    · subst hji
      simp [TH1F.SetBinContent, TH1F.SetBinError2, hz]
    · have hne : i ≠ j := fun e => hji e.symm
      simp [TH1F.SetBinContent, TH1F.SetBinError2, hji, Function.update_noteq hne]

theorem foldl_setPvalue_fArray (s : Scanner) (st : AnalyseState) (l : List Nat) (hCL : TH1F)
    (i : Nat) :
    (l.foldl (setPvalue s st) hCL).fArray i =
      if i ∈ l ∧ st.h_all.GetBinContent i ≠ 0 then pvalueAt s st i else hCL.fArray i := by
  induction l generalizing hCL with
  | nil => simp
  | cons j l ih =>
    rw [List.foldl_cons, ih, setPvalue_fArray]
    by_cases hz : st.h_all.GetBinContent i ≠ 0
    · by_cases hl : i ∈ l
      · simp [hl, hz]
      · by_cases hji : j = i
        · simp [hji, hz]
        · have hne : ¬ i = j := fun e => hji e.symm
          simp [hl, hji, hne]
    · simp [hz]

theorem foldl_setPvalue_fSumw2 (s : Scanner) (st : AnalyseState) (l : List Nat) (hCL : TH1F)
    (i : Nat) :
    (l.foldl (setPvalue s st) hCL).fSumw2 i =
      if i ∈ l ∧ st.h_all.GetBinContent i ≠ 0 then
        pvalueAt s st i * (1 - pvalueAt s st i) / st.h_all.GetBinContent i
      else hCL.fSumw2 i := by
  induction l generalizing hCL with
  | nil => simp
  | cons j l ih =>
    rw [List.foldl_cons, ih, setPvalue_fSumw2]
    by_cases hz : st.h_all.GetBinContent i ≠ 0
    · by_cases hl : i ∈ l
      · simp [hl, hz]
      · by_cases hji : j = i
        · simp [hji, hz]
        · have hne : ¬ i = j := fun e => hji e.symm
          simp [hl, hji, hne]
    · simp [hz]

theorem newHCL_fArray (t : ToyTree) (b : Nat) : (newHCL t).fArray b = 0 := rfl

theorem newHCL_fSumw2 (t : ToyTree) (b : Nat) : (newHCL t).fSumw2 b = 0 := rfl

theorem analyseLoop_h_all (s : Scanner) (t : ToyTree) (id : Int) (b : Nat) :
    (analyseLoop s t id).h_all.GetBinContent b =
      (t.entries.countP (fun r => decide ((binned s id r ∧ inPhysicalRegion r)
        ∧ (newHCL t).FindBin r.scanpoint = b)) : ℚ) := by
  unfold analyseLoop TH1F.GetBinContent
  rw [(filledWhen_h_all s id).fArray]
  simp [analyseInit, newHCL_fArray]

theorem analyseLoop_h_better (s : Scanner) (t : ToyTree) (id : Int) (b : Nat) :
    (analyseLoop s t id).h_better.GetBinContent b =
      (t.entries.countP (fun r => decide ((binned s id r ∧ inPhysicalRegion r ∧ isBetter s r)
        ∧ (newHCL t).FindBin r.scanpoint = b)) : ℚ) := by
  unfold analyseLoop TH1F.GetBinContent
  rw [(filledWhen_h_better s id).fArray]
  simp [analyseInit, newHCL_fArray]

theorem analyseLoop_h_background (s : Scanner) (t : ToyTree) (id : Int) (b : Nat) :
    (analyseLoop s t id).h_background.GetBinContent b =
      (t.entries.countP (fun r => decide ((binned s id r ∧ ¬ inPhysicalRegion r)
        ∧ (newHCL t).FindBin r.scanpoint = b)) : ℚ) := by
  unfold analyseLoop TH1F.GetBinContent
  rw [(filledWhen_h_background s id).fArray]
  simp [analyseInit, newHCL_fArray]

theorem analyseLoop_nbins (s : Scanner) (t : ToyTree) (id : Int) :
    (analyseLoop s t id).h_better.GetNbinsX = (newHCL t).GetNbinsX := by
  unfold analyseLoop TH1F.GetNbinsX
  rw [(filledWhen_h_better s id).fNbins]
  rfl

theorem analyseLoop_better_le_all (s : Scanner) (t : ToyTree) (id : Int) (b : Nat) :
    (analyseLoop s t id).h_better.GetBinContent b
      ≤ (analyseLoop s t id).h_all.GetBinContent b := by
  rw [analyseLoop_h_better, analyseLoop_h_all]
  have h := List.countP_mono_left
    (l := t.entries)
    (p := fun r => decide ((binned s id r ∧ inPhysicalRegion r ∧ isBetter s r)
        ∧ (newHCL t).FindBin r.scanpoint = b))
    (q := fun r => decide ((binned s id r ∧ inPhysicalRegion r)
        ∧ (newHCL t).FindBin r.scanpoint = b))
    (by
      intro x _ hx
      simp only [decide_eq_true_eq] at hx ⊢
      exact ⟨⟨hx.1.1, hx.1.2.1⟩, hx.2⟩)
  exact_mod_cast h

theorem analyseLoop_better_nonneg (s : Scanner) (t : ToyTree) (id : Int) (b : Nat) :
    0 ≤ (analyseLoop s t id).h_better.GetBinContent b := by
  rw [analyseLoop_h_better]
  exact Nat.cast_nonneg _

theorem analyseToys_GetBinContent (s : Scanner) (t : ToyTree) (id : Int) (i : Nat) :
    (analyseToys s t id).GetBinContent i =
      if (1 ≤ i ∧ i ≤ (newHCL t).GetNbinsX) ∧ (analyseLoop s t id).h_all.GetBinContent i ≠ 0
      then pvalueAt s (analyseLoop s t id) i else 0 := by
  unfold analyseToys
  rw [TH1F.GetBinContent, foldl_setPvalue_fArray, analyseLoop_nbins, newHCL_fArray]
  simp only [List.mem_range'_1]
  have : (1 ≤ i ∧ i < 1 + (newHCL t).GetNbinsX) ↔ (1 ≤ i ∧ i ≤ (newHCL t).GetNbinsX) := by
    constructor <;> rintro ⟨h1, h2⟩ <;> exact ⟨h1, by omega⟩
  simp only [this]

theorem analyseToys_GetBinError2 (s : Scanner) (t : ToyTree) (id : Int) (i : Nat) :
    (analyseToys s t id).GetBinError2 i =
      if (1 ≤ i ∧ i ≤ (newHCL t).GetNbinsX) ∧ (analyseLoop s t id).h_all.GetBinContent i ≠ 0
      then pvalueAt s (analyseLoop s t id) i * (1 - pvalueAt s (analyseLoop s t id) i)
            / (analyseLoop s t id).h_all.GetBinContent i
      else 0 := by
  unfold analyseToys
  rw [TH1F.GetBinError2, foldl_setPvalue_fSumw2, analyseLoop_nbins, newHCL_fSumw2]
  simp only [List.mem_range'_1]
  have : (1 ≤ i ∧ i < 1 + (newHCL t).GetNbinsX) ↔ (1 ≤ i ∧ i ≤ (newHCL t).GetNbinsX) := by
    constructor <;> rintro ⟨h1, h2⟩ <;> exact ⟨h1, by omega⟩
  simp only [this]

theorem unit_fraction_bounds (b a : ℚ) (hb : 0 ≤ b) (hba : b ≤ a) (ha : 0 < a) :
    0 ≤ b / a ∧ b / a ≤ 1 ∧ 0 ≤ b / a * (1 - b / a) / a := by
  have h0 : 0 ≤ b / a := div_nonneg hb ha.le
  have h1 : b / a ≤ 1 := (div_le_one ha).mpr hba
  refine ⟨h0, h1, ?_⟩
  apply div_nonneg _ ha.le
  exact mul_nonneg h0 (by linarith)

/-- C3: for every list of toy rows, with no coverage corrector, in every bin `i` whose
`total` counter (`h_all`) is positive the `better` counter is at most the `total` counter,
so the p-value `better/total` lies in `[0, 1]` and the quantity under the square root of
the error, `p(1-p)/total`, is non-negative; the same bounds hold for the content and
the squared error that the returned histogram holds in that bin. -/
theorem analyseToys_pvalue_bounds (s : Scanner) (t : ToyTree) (id : Int)
    (hcorr : s.pvalueCorrectorSet = false) (i : Nat)
    (htot : 0 < (analyseLoop s t id).h_all.GetBinContent i) :
    (analyseLoop s t id).h_better.GetBinContent i ≤ (analyseLoop s t id).h_all.GetBinContent i
      ∧ 0 ≤ (analyseLoop s t id).h_better.GetBinContent i
              / (analyseLoop s t id).h_all.GetBinContent i
      ∧ (analyseLoop s t id).h_better.GetBinContent i
              / (analyseLoop s t id).h_all.GetBinContent i ≤ 1
      ∧ 0 ≤ (analyseLoop s t id).h_better.GetBinContent i
              / (analyseLoop s t id).h_all.GetBinContent i
            * (1 - (analyseLoop s t id).h_better.GetBinContent i
              / (analyseLoop s t id).h_all.GetBinContent i)
            / (analyseLoop s t id).h_all.GetBinContent i
      ∧ 0 ≤ (analyseToys s t id).GetBinContent i
      ∧ (analyseToys s t id).GetBinContent i ≤ 1
      ∧ 0 ≤ (analyseToys s t id).GetBinError2 i := by
  have hle := analyseLoop_better_le_all s t id i
  have hnn := analyseLoop_better_nonneg s t id i
  obtain ⟨h0, h1, h2⟩ := unit_fraction_bounds _ _ hnn hle htot
  refine ⟨hle, h0, h1, h2, ?_, ?_, ?_⟩
  · rw [analyseToys_GetBinContent]
    split_ifs
    · simpa [pvalueAt, hcorr] using h0
    · exact le_refl 0
  · rw [analyseToys_GetBinContent]
    split_ifs
    · simpa [pvalueAt, hcorr] using h1
    · exact zero_le_one
  · rw [analyseToys_GetBinError2]
    split_ifs
    · simpa [pvalueAt, hcorr] using h2
    · exact le_refl 0

/-- C4: for every bin `i = 1 .. GetNbinsX` with `total > 0`, with no coverage corrector,
the content of the returned histogram is exactly `better/total` and its squared error is
`p(1-p)/total`, where `total` counts the entries of the bin that pass the id filter, the
quality cut and the plot-range clip and are physical, and `better` counts those of them
whose toy delta `chi2minToy - chi2minGlobalToy` is strictly greater than the data delta
`chi2min - chi2minGlobal`. -/
theorem analyseToys_bin_content (s : Scanner) (t : ToyTree) (id : Int)
    (hcorr : s.pvalueCorrectorSet = false) (i : Nat)
    (hlo : 1 ≤ i) (hhi : i ≤ (newHCL t).GetNbinsX)
    (htot : 0 < (analyseLoop s t id).h_all.GetBinContent i) :
    (analyseToys s t id).GetBinContent i
        = (analyseLoop s t id).h_better.GetBinContent i
            / (analyseLoop s t id).h_all.GetBinContent i
      ∧ (analyseToys s t id).GetBinError2 i
        = (analyseToys s t id).GetBinContent i * (1 - (analyseToys s t id).GetBinContent i)
            / (analyseLoop s t id).h_all.GetBinContent i
      ∧ (analyseLoop s t id).h_better.GetBinContent i
        = (t.entries.countP (fun r => decide (
            (selected id r ∧ passesCuts r ∧ inPlotRange s.arg r)
            ∧ r.chi2minToy - r.chi2minGlobalToy > 0
            ∧ r.chi2minToy - r.chi2minGlobalToy > chi2minUsed s r - r.chi2minGlobal
            ∧ (newHCL t).FindBin r.scanpoint = i)) : ℚ)
      ∧ (analyseLoop s t id).h_all.GetBinContent i
        = (t.entries.countP (fun r => decide (
            (selected id r ∧ passesCuts r ∧ inPlotRange s.arg r)
            ∧ r.chi2minToy - r.chi2minGlobalToy > 0
            ∧ (newHCL t).FindBin r.scanpoint = i)) : ℚ) := by
  have hne : (analyseLoop s t id).h_all.GetBinContent i ≠ 0 := ne_of_gt htot
  have hc : (analyseToys s t id).GetBinContent i
        = (analyseLoop s t id).h_better.GetBinContent i
            / (analyseLoop s t id).h_all.GetBinContent i := by
    rw [analyseToys_GetBinContent, if_pos ⟨⟨hlo, hhi⟩, hne⟩]
    simp [pvalueAt, hcorr]
  refine ⟨hc, ?_, ?_, ?_⟩
  · rw [hc, analyseToys_GetBinError2, if_pos ⟨⟨hlo, hhi⟩, hne⟩]
    simp [pvalueAt, hcorr]
  · rw [analyseLoop_h_better]
    congr 2
    funext r
    simp only [binned, inPhysicalRegion, isBetter, and_assoc]
  · rw [analyseLoop_h_all]
    congr 2
    funext r
    simp only [binned, inPhysicalRegion, and_assoc]

theorem hundredToys_h_all :
    (analyseLoop plainScanner hundredToys (-1)).h_all.GetBinContent 1 = 95 := by
  rw [analyseLoop_h_all]
  simp only [hundredToys, List.countP_append, List.countP_replicate]
  norm_num [binned, selected, passesCuts, inPlotRange, inPhysicalRegion, newHCL, TH1F.create,
    TH1F.FindBin, failedRow, physicalRow, betterRow, plainScanner]

/-- The witness of C3: bin 1 of the 100-toy example. -/
theorem analyseToys_pvalue_bounds_witness :
    0 < (analyseLoop plainScanner hundredToys (-1)).h_all.GetBinContent 1
      ∧ (analyseLoop plainScanner hundredToys (-1)).h_better.GetBinContent 1
          ≤ (analyseLoop plainScanner hundredToys (-1)).h_all.GetBinContent 1
      ∧ 0 ≤ (analyseToys plainScanner hundredToys (-1)).GetBinContent 1
      ∧ (analyseToys plainScanner hundredToys (-1)).GetBinContent 1 ≤ 1
      ∧ 0 ≤ (analyseToys plainScanner hundredToys (-1)).GetBinError2 1 := by
  have h0 : 0 < (analyseLoop plainScanner hundredToys (-1)).h_all.GetBinContent 1 := by
    rw [hundredToys_h_all]
    norm_num
  obtain ⟨h1, -, -, -, h5, h6, h7⟩ :=
    analyseToys_pvalue_bounds plainScanner hundredToys (-1) rfl 1 h0
  exact ⟨h0, h1, h5, h6, h7⟩

/-- The witness of C4: the example of the specification, 100 toys of which 5 failed, 95
are physical and 7 are better, gives `p = 7/95`. -/
theorem analyseToys_bin_content_witness :
    (analyseToys plainScanner hundredToys (-1)).GetBinContent 1 = 7 / 95 
    ∧ (analyseToys plainScanner hundredToys (-1)).GetBinError2 1 = 7 / 95 * (1 - 7 / 95) / 95 := by
  have hall := hundredToys_h_all
  obtain ⟨h1, h2, h3, -⟩ := analyseToys_bin_content plainScanner hundredToys (-1) rfl 1
    (le_refl 1) (by decide) (by rw [hall]; norm_num)
  have hb : (analyseLoop plainScanner hundredToys (-1)).h_better.GetBinContent 1 = 7 := by
    rw [h3]
    simp only [hundredToys, List.countP_append, List.countP_replicate]
    norm_num [selected, passesCuts, inPlotRange, newHCL, TH1F.create, chi2minUsed,
      TH1F.FindBin, failedRow, physicalRow, betterRow, plainScanner]
  rw [h2, h1, hb, hall]
  norm_num

theorem toNat_two : Int.toNat 2 = 2 := rfl

theorem TH1F.eq_of_fields (a b : TH1F) (h1 : a.fNbins = b.fNbins) (h2 : a.fXmin = b.fXmin)
    (h3 : a.fXmax = b.fXmax) (h4 : ∀ i, a.fArray i = b.fArray i)
    (h5 : ∀ i, a.fSumw2 i = b.fSumw2 i) (h6 : a.fEntries = b.fEntries) : a = b := by
  cases a
  cases b
  simp only [TH1F.mk.injEq]
  exact ⟨h1, h2, h3, funext h4, funext h5, h6⟩

theorem setPvalue_axis (s : Scanner) (st : AnalyseState) (hCL : TH1F) (j : Nat) :
    (setPvalue s st hCL j).fNbins = hCL.fNbins ∧ (setPvalue s st hCL j).fXmin = hCL.fXmin
      ∧ (setPvalue s st hCL j).fXmax = hCL.fXmax := by
  unfold setPvalue
  by_cases hz : st.h_all.GetBinContent j = 0
  · simp only [hz, if_true, and_self]
  · simp only [hz, if_false]
    exact ⟨rfl, rfl, rfl⟩

theorem setPvalue_fEntries (s : Scanner) (st : AnalyseState) (hCL : TH1F) (j : Nat) :
    (setPvalue s st hCL j).fEntries =
      hCL.fEntries + if st.h_all.GetBinContent j ≠ 0 then 1 else 0 := by
  unfold setPvalue
  by_cases hz : st.h_all.GetBinContent j = 0
  · simp only [hz, if_true, ne_eq, not_true_eq_false, if_false, add_zero]
  · simp only [hz, if_false, ne_eq, not_false_eq_true, if_true]
    rfl

theorem foldl_setPvalue_axis (s : Scanner) (st : AnalyseState) (l : List Nat) (hCL : TH1F) :
    (l.foldl (setPvalue s st) hCL).fNbins = hCL.fNbins
      ∧ (l.foldl (setPvalue s st) hCL).fXmin = hCL.fXmin
      ∧ (l.foldl (setPvalue s st) hCL).fXmax = hCL.fXmax := by
  induction l generalizing hCL with
  | nil => exact ⟨rfl, rfl, rfl⟩
  | cons j l ih =>
    rw [List.foldl_cons]
    obtain ⟨a1, a2, a3⟩ := ih (setPvalue s st hCL j)
    obtain ⟨b1, b2, b3⟩ := setPvalue_axis s st hCL j
    exact ⟨a1.trans b1, a2.trans b2, a3.trans b3⟩

theorem foldl_setPvalue_fEntries (s : Scanner) (st : AnalyseState) (l : List Nat)
    (hCL : TH1F) :
    (l.foldl (setPvalue s st) hCL).fEntries =
      hCL.fEntries + l.countP (fun j => decide (st.h_all.GetBinContent j ≠ 0)) := by
  induction l generalizing hCL with
  | nil => simp
  | cons j l ih =>
    rw [List.foldl_cons, ih, setPvalue_fEntries, List.countP_cons]
    by_cases hz : st.h_all.GetBinContent j ≠ 0
    · have hd : decide (st.h_all.GetBinContent j ≠ 0) = true := decide_eq_true hz
      rw [if_pos hz, hd, if_pos rfl]
      omega
    · have hd : decide (st.h_all.GetBinContent j ≠ 0) = false := decide_eq_false hz
      rw [if_neg hz, hd, if_neg Bool.false_ne_true]
      omega

theorem firstBinEmpty_h_all (b : Nat) :
    (analyseLoop plainScanner firstBinEmpty (-1)).h_all.GetBinContent b
      = if b = 2 then 1 else 0 := by
  rw [analyseLoop_h_all]
  by_cases hb : b = 2
  · subst hb
    norm_num [firstBinEmpty, binned, selected, passesCuts, inPlotRange, inPhysicalRegion,
      newHCL, TH1F.create, TH1F.FindBin, backgroundRow, physicalRow, plainScanner, toNat_two]
  · have hb' : ¬ 2 = b := fun e => hb e.symm
    norm_num [firstBinEmpty, binned, selected, passesCuts, inPlotRange, inPhysicalRegion,
      newHCL, TH1F.create, TH1F.FindBin, backgroundRow, physicalRow, plainScanner, toNat_two,
      hb, hb']

theorem secondBinEmpty_h_all (b : Nat) :
    (analyseLoop plainScanner secondBinEmpty (-1)).h_all.GetBinContent b
      = if b = 1 then 1 else 0 := by
  rw [analyseLoop_h_all]
  by_cases hb : b = 1
  · subst hb
    norm_num [secondBinEmpty, binned, selected, passesCuts, inPlotRange, inPhysicalRegion,
      newHCL, TH1F.create, TH1F.FindBin, backgroundRow, physicalRow, plainScanner, toNat_two]
  · have hb' : ¬ 1 = b := fun e => hb e.symm
    norm_num [secondBinEmpty, binned, selected, passesCuts, inPlotRange, inPhysicalRegion,
      newHCL, TH1F.create, TH1F.FindBin, backgroundRow, physicalRow, plainScanner, toNat_two,
      hb, hb']

theorem firstBinEmpty_h_better (b : Nat) :
    (analyseLoop plainScanner firstBinEmpty (-1)).h_better.GetBinContent b = 0 := by
  rw [analyseLoop_h_better]
  norm_num [firstBinEmpty, binned, selected, passesCuts, inPlotRange, inPhysicalRegion,
    isBetter, chi2minUsed, backgroundRow, physicalRow, plainScanner]

theorem secondBinEmpty_h_better (b : Nat) :
    (analyseLoop plainScanner secondBinEmpty (-1)).h_better.GetBinContent b = 0 := by
  rw [analyseLoop_h_better]
  norm_num [secondBinEmpty, binned, selected, passesCuts, inPlotRange, inPhysicalRegion,
    isBetter, chi2minUsed, backgroundRow, physicalRow, plainScanner]

theorem analyseToys_fields (s : Scanner) (t : ToyTree) (id : Int) :
    (analyseToys s t id).fNbins = (newHCL t).fNbins
      ∧ (analyseToys s t id).fXmin = (newHCL t).fXmin
      ∧ (analyseToys s t id).fXmax = (newHCL t).fXmax
      ∧ (analyseToys s t id).fEntries =
          (List.range' 1 (newHCL t).GetNbinsX).countP
            (fun j => decide ((analyseLoop s t id).h_all.GetBinContent j ≠ 0)) := by
  unfold analyseToys
  obtain ⟨a1, a2, a3⟩ := foldl_setPvalue_axis s (analyseLoop s t id)
    (List.range' 1 (analyseLoop s t id).h_better.GetNbinsX) (newHCL t)
  refine ⟨a1, a2, a3, ?_⟩
  rw [foldl_setPvalue_fEntries, analyseLoop_nbins]
  simp [newHCL, TH1F.create]

theorem pvalueAt_plainScanner (st : AnalyseState) (i : Nat) :
    pvalueAt plainScanner st i = st.h_better.GetBinContent i / st.h_all.GetBinContent i := rfl

/-- C5 (amended): a bin that received no accepted toy (`total = 0`) is skipped by the
p-value loop, so in the returned histogram its content and its error are `0`, the values
of the freshly created histogram. -/
theorem analyseToys_empty_bin_zero (s : Scanner) (t : ToyTree) (id : Int) (i : Nat)
    (hzero : (analyseLoop s t id).h_all.GetBinContent i = 0) :
    (analyseToys s t id).GetBinContent i = 0 ∧ (analyseToys s t id).GetBinError2 i = 0 := by
  constructor
  · rw [analyseToys_GetBinContent, if_neg (fun h => h.2 hzero)]
  · rw [analyseToys_GetBinError2, if_neg (fun h => h.2 hzero)]

theorem analyseToys_empty_bin_zero_witness :
    (analyseLoop plainScanner firstBinEmpty (-1)).h_all.GetBinContent 1 = 0
      ∧ (analyseToys plainScanner firstBinEmpty (-1)).GetBinContent 1 = 0
      ∧ (analyseToys plainScanner firstBinEmpty (-1)).GetBinError2 1 = 0 :=
  ⟨by rw [firstBinEmpty_h_all]; rfl,
   analyseToys_empty_bin_zero plainScanner firstBinEmpty (-1) 1
     (by rw [firstBinEmpty_h_all]; rfl)⟩

/-- C5 (counterexample): in `firstBinEmpty` bin 1 has no accepted toy, in
`secondBinEmpty` bin 1 has one accepted toy and p-value `0/1 = 0`; yet `analyseToys`
returns the same histogram for both, so a bin without a p-value cannot be told from a
bin whose p-value is 0. -/
theorem analyseToys_empty_bin_indistinguishable :
    (analyseLoop plainScanner firstBinEmpty (-1)).h_all.GetBinContent 1 = 0
      ∧ (analyseLoop plainScanner secondBinEmpty (-1)).h_all.GetBinContent 1 = 1
      ∧ (analyseLoop plainScanner secondBinEmpty (-1)).h_better.GetBinContent 1 = 0
      ∧ (analyseToys plainScanner secondBinEmpty (-1)).GetBinContent 1 = 0
      ∧ analyseToys plainScanner firstBinEmpty (-1)
          = analyseToys plainScanner secondBinEmpty (-1) := by
  have hA : ∀ i, (analyseToys plainScanner firstBinEmpty (-1)).fArray i = 0 := by
    intro i
    have h := analyseToys_GetBinContent plainScanner firstBinEmpty (-1) i
    rw [TH1F.GetBinContent] at h
    rw [h]
    simp [pvalueAt_plainScanner, firstBinEmpty_h_better]
  have hB : ∀ i, (analyseToys plainScanner secondBinEmpty (-1)).fArray i = 0 := by
    intro i
    have h := analyseToys_GetBinContent plainScanner secondBinEmpty (-1) i
    rw [TH1F.GetBinContent] at h
    rw [h]
    simp [pvalueAt_plainScanner, secondBinEmpty_h_better]
  have hA2 : ∀ i, (analyseToys plainScanner firstBinEmpty (-1)).fSumw2 i = 0 := by
    intro i
    have h := analyseToys_GetBinError2 plainScanner firstBinEmpty (-1) i
    rw [TH1F.GetBinError2] at h
    rw [h]
    simp [pvalueAt_plainScanner, firstBinEmpty_h_better]
  have hB2 : ∀ i, (analyseToys plainScanner secondBinEmpty (-1)).fSumw2 i = 0 := by
    intro i
    have h := analyseToys_GetBinError2 plainScanner secondBinEmpty (-1) i
    rw [TH1F.GetBinError2] at h
    rw [h]
    simp [pvalueAt_plainScanner, secondBinEmpty_h_better]
  obtain ⟨a1, a2, a3, a4⟩ := analyseToys_fields plainScanner firstBinEmpty (-1)
  obtain ⟨b1, b2, b3, b4⟩ := analyseToys_fields plainScanner secondBinEmpty (-1)
  refine ⟨by rw [firstBinEmpty_h_all]; rfl, by rw [secondBinEmpty_h_all]; rfl,
    secondBinEmpty_h_better 1, hB 1, ?_⟩
  apply TH1F.eq_of_fields
  · rw [a1, b1]; rfl
  · rw [a2, b2]; rfl
  · rw [a3, b3]; rfl
  · intro i; rw [hA, hB]
  · intro i; rw [hA2, hB2]
  · rw [a4, b4]
    have hn1 : (newHCL firstBinEmpty).GetNbinsX = 2 := rfl
    have hn2 : (newHCL secondBinEmpty).GetNbinsX = 2 := rfl
    rw [hn1, hn2]
    simp [List.range', firstBinEmpty_h_all, secondBinEmpty_h_all]

theorem countP_three_way {α : Type} (l : List α) (p q r : α → Bool)
    (h : ∀ x ∈ l, (p x = true ∧ q x = false ∧ r x = false)
      ∨ (p x = false ∧ q x = true ∧ r x = false)
      ∨ (p x = false ∧ q x = false ∧ r x = true)) :
    l.countP p + l.countP q + l.countP r = l.length := by
  induction l with
  | nil => rfl
  | cons a l ih =>
    have iha := ih (fun x hx => h x (List.mem_cons_of_mem a hx))
    rw [List.countP_cons, List.countP_cons, List.countP_cons, List.length_cons]
    rcases h a (List.mem_cons_self a l) with ⟨h1, h2, h3⟩ | ⟨h1, h2, h3⟩ | ⟨h1, h2, h3⟩ <;>
      simp only [h1, h2, h3, if_true, if_false, Bool.false_eq_true] <;> omega

theorem analyseLoop_nfailed (s : Scanner) (t : ToyTree) (id : Int) :
    (analyseLoop s t id).nfailed =
      t.entries.countP (fun r => decide (selected id r ∧ ¬ passesCuts r)) := by
  unfold analyseLoop
  rw [foldl_nfailed]
  simp [analyseInit]

/-- C6 (amended): for the toys of one scan point `x`, all of them selected by the id
filter and `x` not removed by the plot-range clip, the `total` counter of the bin of `x`
plus the `background` counter of that bin plus the number of failed toys equals the
number of toys drawn for the point. -/
theorem analyseToys_point_partition (s : Scanner) (t : ToyTree) (id : Int) (x : ℚ)
    (hpoint : ∀ r ∈ t.entries, r.scanpoint = x)
    (hsel : id = -1 ∨ ∀ r ∈ t.entries, abs (r.id - (id : ℚ)) ≤ 1 / 1000)
    (hclip : s.arg.pluginPlotRangeMin = s.arg.pluginPlotRangeMax
      ∨ (s.arg.pluginPlotRangeMin < x ∧ x < s.arg.pluginPlotRangeMax)) :
    (analyseLoop s t id).h_all.GetBinContent ((newHCL t).FindBin x)
      + (analyseLoop s t id).h_background.GetBinContent ((newHCL t).FindBin x)
      + ((analyseLoop s t id).nfailed : ℚ) = (t.entries.length : ℚ) := by
  rw [analyseLoop_h_all, analyseLoop_h_background, analyseLoop_nfailed]
  have key := countP_three_way t.entries
    (fun r => decide ((binned s id r ∧ inPhysicalRegion r)
        ∧ (newHCL t).FindBin r.scanpoint = (newHCL t).FindBin x))
    (fun r => decide ((binned s id r ∧ ¬ inPhysicalRegion r)
        ∧ (newHCL t).FindBin r.scanpoint = (newHCL t).FindBin x))
    (fun r => decide (selected id r ∧ ¬ passesCuts r))
    (by
      intro r hr
      have hx : r.scanpoint = x := hpoint r hr
      have hs : selected id r := by
        unfold selected
        rintro ⟨h1, h2⟩
        rcases hsel with h | h
        · exact h1 h
        · exact absurd (h r hr) (not_le.mpr h2)
      have hc : inPlotRange s.arg r := by
        unfold inPlotRange
        rintro ⟨h1, h2⟩
        rcases hclip with h | h
        · exact h1 h
        · exact h2 (by rw [hx]; exact h)
      by_cases hq : passesCuts r
      · by_cases hp : inPhysicalRegion r
        · left
          simp [binned, hs, hc, hq, hp, hx]
        · right; left
          simp [binned, hs, hc, hq, hp, hx]
      · right; right
        simp [binned, hs, hq])
  exact_mod_cast key

theorem analyseToys_point_partition_witness :
    (analyseLoop plainScanner hundredToys (-1)).h_all.GetBinContent
        ((newHCL hundredToys).FindBin 0)
      + (analyseLoop plainScanner hundredToys (-1)).h_background.GetBinContent
        ((newHCL hundredToys).FindBin 0)
      + ((analyseLoop plainScanner hundredToys (-1)).nfailed : ℚ)
      = (hundredToys.entries.length : ℚ) :=
  analyseToys_point_partition plainScanner hundredToys (-1) 0
    (by
      intro r hr
      simp only [hundredToys, List.mem_append, List.mem_replicate] at hr
      rcases hr with (⟨-, rfl⟩ | ⟨-, rfl⟩) | ⟨-, rfl⟩ <;> rfl)
    (Or.inl rfl) (Or.inl rfl)

/-- C6 (counterexample): one toy is drawn at scan point `0`; it passes the quality cut
but is unphysical, so it is neither accepted (`total` counter `0`) nor failed
(`nfailed = 0`): accepted plus failed is `0`, not `1`. -/
theorem analyseToys_accepted_plus_failed_counterexample :
    (newHCL oneBackgroundToy).FindBin backgroundRow.scanpoint = 1
      ∧ oneBackgroundToy.entries.length = 1
      ∧ (analyseLoop plainScanner oneBackgroundToy (-1)).h_all.GetBinContent 1 = 0
      ∧ (analyseLoop plainScanner oneBackgroundToy (-1)).nfailed = 0
      ∧ (analyseLoop plainScanner oneBackgroundToy (-1)).h_all.GetBinContent 1
          + ((analyseLoop plainScanner oneBackgroundToy (-1)).nfailed : ℚ)
          ≠ (oneBackgroundToy.entries.length : ℚ) := by
  have h1 : (analyseLoop plainScanner oneBackgroundToy (-1)).h_all.GetBinContent 1 = 0 := by
    rw [analyseLoop_h_all]
    norm_num [oneBackgroundToy, binned, selected, passesCuts, inPlotRange, inPhysicalRegion,
      backgroundRow, plainScanner]
  have h2 : (analyseLoop plainScanner oneBackgroundToy (-1)).nfailed = 0 := by
    rw [analyseLoop_nfailed]
    norm_num [oneBackgroundToy, selected, passesCuts, backgroundRow]
  refine ⟨?_, rfl, h1, h2, ?_⟩
  · norm_num [oneBackgroundToy, newHCL, TH1F.create, TH1F.FindBin, backgroundRow]
  · rw [h1, h2]
    norm_num [oneBackgroundToy]

/-- C7: in the loop body of `analyseToys`, an entry selected by the id filter is counted
as failed and leaves the better, total, background and goodness-of-fit histograms
untouched if and only if it is not the case that `|chi2minToy| < 500`,
`|chi2minGlobalToy| < 500`, `statusScan = 0` and `statusFree = 0`; an entry that the id
filter rejects (`id ≠ -1` and `|row.id - id| > 0.001`) changes nothing at all. -/
theorem analyseEntry_failed_iff (s : Scanner) (id : Int) (st : AnalyseState) (r : ToyRow) :
    ((id = -1 ∨ abs (r.id - (id : ℚ)) ≤ 1 / 1000) →
      (((analyseEntry s id st r).nfailed = st.nfailed + 1
          ∧ (analyseEntry s id st r).h_better = st.h_better
          ∧ (analyseEntry s id st r).h_all = st.h_all
          ∧ (analyseEntry s id st r).h_background = st.h_background
          ∧ (analyseEntry s id st r).h_gof = st.h_gof)
        ↔ ¬ (abs r.chi2minToy < 500 ∧ abs r.chi2minGlobalToy < 500
              ∧ r.statusScan = 0 ∧ r.statusFree = 0)))
      ∧ ((id ≠ -1 ∧ abs (r.id - (id : ℚ)) > 1 / 1000) → analyseEntry s id st r = st) := by
  constructor
  · intro hsel
    have hs : selected id r := by
      unfold selected
      rintro ⟨h1, h2⟩
      rcases hsel with h | h
      · exact h1 h
      · exact absurd h (not_le.mpr h2)
    have hcuts : passesCuts r ↔ (abs r.chi2minToy < 500 ∧ abs r.chi2minGlobalToy < 500
        ∧ r.statusScan = 0 ∧ r.statusFree = 0) := by
      unfold passesCuts
      constructor
      · rintro ⟨a, b, c, d⟩
        exact ⟨a, b, d, c⟩
      · rintro ⟨a, b, c, d⟩
        exact ⟨a, b, d, c⟩
    rw [← hcuts]
    constructor
    · rintro ⟨hf, -⟩ hq
      rw [analyseEntry_nfailed, if_neg (fun h => h.2 hq)] at hf
      omega
    · intro hq
      rw [analyseEntry_of_not_passesCuts s id st r hs hq]
      exact ⟨rfl, rfl, rfl, rfl, rfl⟩
  · intro h
    exact analyseEntry_of_not_selected s id st r (fun hs => hs h)

/-- The witness of C7: a toy whose free fit did not converge is counted as failed and
fills no histogram. -/
theorem analyseEntry_failed_iff_witness :
    (analyseEntry plainScanner (-1) (analyseInit hundredToys) failedRow).nfailed
        = (analyseInit hundredToys).nfailed + 1
      ∧ (analyseEntry plainScanner (-1) (analyseInit hundredToys) failedRow).h_better
        = (analyseInit hundredToys).h_better
      ∧ (analyseEntry plainScanner (-1) (analyseInit hundredToys) failedRow).h_all
        = (analyseInit hundredToys).h_all
      ∧ (analyseEntry plainScanner (-1) (analyseInit hundredToys) failedRow).h_background
        = (analyseInit hundredToys).h_background
      ∧ (analyseEntry plainScanner (-1) (analyseInit hundredToys) failedRow).h_gof
        = (analyseInit hundredToys).h_gof :=
  ((analyseEntry_failed_iff plainScanner (-1) (analyseInit hundredToys) failedRow).1
    (Or.inl rfl)).mpr (by norm_num [failedRow])

/-- C8 (amended): every entry that passes the id filter, the quality cut and the
plot-range clip and whose toy test statistic `chi2minToy - chi2minGlobalToy` is strictly
positive is in the physical region: it is filled into the `total` histogram, whose bin
content goes up by one, and not into the `background` histogram. -/
theorem analyseEntry_physical (s : Scanner) (id : Int) (st : AnalyseState) (r : ToyRow)
    (hsel : id = -1 ∨ abs (r.id - (id : ℚ)) ≤ 1 / 1000)
    (hcuts : abs r.chi2minToy < 500 ∧ abs r.chi2minGlobalToy < 500
      ∧ r.statusFree = 0 ∧ r.statusScan = 0)
    (hclip : s.arg.pluginPlotRangeMin = s.arg.pluginPlotRangeMax
      ∨ (s.arg.pluginPlotRangeMin < r.scanpoint ∧ r.scanpoint < s.arg.pluginPlotRangeMax))
    (hpos : r.chi2minToy - r.chi2minGlobalToy > 0) :
    (analyseEntry s id st r).h_all = st.h_all.Fill r.scanpoint
      ∧ (analyseEntry s id st r).h_all.GetBinContent (st.h_all.FindBin r.scanpoint)
          = st.h_all.GetBinContent (st.h_all.FindBin r.scanpoint) + 1
      ∧ (analyseEntry s id st r).h_background = st.h_background := by
  have hs : selected id r := by
    unfold selected
    rintro ⟨h1, h2⟩
    rcases hsel with h | h
    · exact h1 h
    · exact absurd h (not_le.mpr h2)
  have hc : inPlotRange s.arg r := by
    unfold inPlotRange
    rintro ⟨h1, h2⟩
    rcases hclip with h | h
    · exact h1 h
    · exact h2 h
  have hp : inPhysicalRegion r := hpos
  have hall : (analyseEntry s id st r).h_all = st.h_all.Fill r.scanpoint := by
    rw [filledWhen_h_all s id st r, if_pos ⟨⟨hs, hcuts, hc⟩, hp⟩]
  refine ⟨hall, ?_, ?_⟩
  · rw [hall, TH1F.GetBinContent, TH1F.fArray_Fill, if_pos rfl]
    rfl
  · rw [filledWhen_h_background s id st r, if_neg (fun h => h.2 hp)]

theorem analyseEntry_physical_witness :
    (analyseEntry plainScanner (-1) (analyseInit hundredToys) physicalRow).h_all.GetBinContent 1
        = 1
      ∧ (analyseEntry plainScanner (-1) (analyseInit hundredToys) physicalRow).h_background
        = (analyseInit hundredToys).h_background := by
  obtain ⟨-, h2, h3⟩ := analyseEntry_physical plainScanner (-1) (analyseInit hundredToys)
    physicalRow (Or.inl rfl) (by norm_num [physicalRow]) (Or.inl rfl)
    (by norm_num [physicalRow])
  refine ⟨?_, h3⟩
  have hb : (analyseInit hundredToys).h_all.FindBin physicalRow.scanpoint = 1 := by
    norm_num [analyseInit, hundredToys, newHCL, TH1F.create, TH1F.FindBin, physicalRow]
  rw [hb] at h2
  rw [h2]
  norm_num [analyseInit, TH1F.GetBinContent, newHCL_fArray]

/-- C8 (counterexample): a toy that passes the quality cut, with no plot-range clip, whose
toy test statistic is exactly `0` (non-negative) is not counted in the `total` counter of
its bin but in the `background` counter. -/
theorem analyseToys_zero_delta_is_background :
    (abs zeroDeltaRow.chi2minToy < 500 ∧ abs zeroDeltaRow.chi2minGlobalToy < 500
        ∧ zeroDeltaRow.statusFree = 0 ∧ zeroDeltaRow.statusScan = 0)
      ∧ plainScanner.arg.pluginPlotRangeMin = plainScanner.arg.pluginPlotRangeMax
      ∧ 0 ≤ zeroDeltaRow.chi2minToy - zeroDeltaRow.chi2minGlobalToy
      ∧ (newHCL oneZeroDeltaToy).FindBin zeroDeltaRow.scanpoint = 1
      ∧ (analyseLoop plainScanner oneZeroDeltaToy (-1)).h_all.GetBinContent 1 = 0
      ∧ (analyseLoop plainScanner oneZeroDeltaToy (-1)).h_background.GetBinContent 1 = 1 := by
  refine ⟨by norm_num [zeroDeltaRow], rfl, by norm_num [zeroDeltaRow], ?_, ?_, ?_⟩
  · norm_num [oneZeroDeltaToy, newHCL, TH1F.create, TH1F.FindBin, zeroDeltaRow]
  · rw [analyseLoop_h_all]
    norm_num [oneZeroDeltaToy, binned, selected, passesCuts, inPlotRange, inPhysicalRegion,
      zeroDeltaRow, plainScanner]
  · rw [analyseLoop_h_background]
    norm_num [oneZeroDeltaToy, binned, selected, passesCuts, inPlotRange, inPhysicalRegion,
      zeroDeltaRow, plainScanner, newHCL, TH1F.create, TH1F.FindBin]

theorem analyseLoop_nwrongrun_all (s : Scanner) (t : ToyTree) :
    (analyseLoop s t (-1)).nwrongrun = 0 := by
  unfold analyseLoop
  rw [foldl_nwrongrun_all]
  rfl

/-- C9 (the code at the failing input): with `id = -1`, a toy that passes the quality cut
and whose `chi2minGlobal = 10` differs from the active `chi2minGlobal = 0` by more than
the tolerance `0.2` is binned (`total` counter `1`), but it is not counted as a wrong-run
toy (`nwrongrun = 0`) and no wrong-run warning is printed. -/
theorem analyseToys_wrong_run_not_reported :
    (abs physicalRow.chi2minToy < 500 ∧ abs physicalRow.chi2minGlobalToy < 500
        ∧ physicalRow.statusFree = 0 ∧ physicalRow.statusScan = 0)
      ∧ ¬ (abs ((10 : ℚ) - plainScanner.chi2minGlobal) < 2 / 10)
      ∧ (analyseLoop plainScanner wrongRunToys (-1)).nwrongrun = 0
      ∧ wrongRunWarning plainScanner wrongRunToys (-1) = none
      ∧ (analyseLoop plainScanner wrongRunToys (-1)).h_all.GetBinContent 1 = 1 := by
  have h0 := analyseLoop_nwrongrun_all plainScanner wrongRunToys
  refine ⟨by norm_num [physicalRow], by norm_num [plainScanner], h0, ?_, ?_⟩
  · unfold wrongRunWarning
    simp only [h0]
    rw [if_neg (fun h => absurd h.2 (lt_irrefl 0))]
  · rw [analyseLoop_h_all]
    norm_num [wrongRunToys, binned, selected, passesCuts, inPlotRange, inPhysicalRegion,
      physicalRow, plainScanner, newHCL, TH1F.create, TH1F.FindBin]

theorem wrapInt_eq_self (x : Int) (h1 : -2147483648 ≤ x) (h2 : x ≤ 2147483647) :
    wrapInt x = x := by
  unfold wrapInt
  omega

theorem mem_runsFrom (n : Nat) (i x : Int) : x ∈ runsFrom i n ↔ i ≤ x ∧ x < i + n := by
  induction n generalizing i with
  | zero => simp [runsFrom]
  | succ n ih =>
    simp only [runsFrom, List.mem_cons, ih]
    push_cast
    omega

theorem readFilesLoop_spec (files : ResultFiles) (runMax : Int) (hmax : runMax < 2147483647)
    (n : Nat) : ∀ (fuel : Nat) (i : Int) (st : ChainState),
      n < fuel → -2147483648 ≤ i → (runMax + 1 - i).toNat = n →
      0 ≤ st.nFilesRead → 0 ≤ st.nFilesMissing →
      st.nFilesRead + st.nFilesMissing + n ≤ 2147483647 →
      ∃ st', readFilesLoop files runMax fuel i st = some st'
        ∧ st'.c = st.c ++ (runsFrom i n).filter (fun j => (files j).isSome)
        ∧ st'.nFilesRead = st.nFilesRead
            + (((runsFrom i n).filter (fun j => (files j).isSome)).length : Int)
        ∧ st'.nFilesRead + st'.nFilesMissing = st.nFilesRead + st.nFilesMissing + n := by
  induction n with
  | zero =>
    intro fuel i st hfuel _ hn _ _ _
    obtain ⟨fuel, rfl⟩ : ∃ k, fuel = k + 1 := ⟨fuel - 1, by omega⟩
    have hi : ¬ i ≤ runMax := by omega
    refine ⟨st, ?_, ?_, ?_, ?_⟩
    · rw [readFilesLoop, if_neg hi]
    · simp [runsFrom]
    · simp [runsFrom]
    · simp
  | succ n ih =>
    intro fuel i st hfuel hlo hn hr hm hsum
    obtain ⟨fuel, rfl⟩ : ∃ k, fuel = k + 1 := ⟨fuel - 1, by omega⟩
    have hi : i ≤ runMax := by omega
    have hw : wrapInt (i + 1) = i + 1 := wrapInt_eq_self _ (by omega) (by omega)
    rw [readFilesLoop, if_pos hi, hw]
    by_cases hf : (files i).isNone = true
    · rw [if_pos hf]
      have hw2 : wrapInt (st.nFilesMissing + 1) = st.nFilesMissing + 1 :=
        wrapInt_eq_self _ (by omega) (by push_cast at hsum; omega)
      rw [hw2]
      obtain ⟨st', h1, h2, h3, h4⟩ := ih fuel (i + 1)
        { st with nFilesMissing := st.nFilesMissing + 1 } (by omega) (by omega) (by omega)
        hr (by show 0 ≤ st.nFilesMissing + 1; omega)
        (by show st.nFilesRead + (st.nFilesMissing + 1) + (n : Int) ≤ 2147483647
            push_cast at hsum; omega)
      have hsome : (files i).isSome = false := by
        cases hfi : files i with
        | none => rfl
        | some v => rw [hfi] at hf; simp at hf
      refine ⟨st', h1, ?_, ?_, ?_⟩
      · rw [h2]; simp [runsFrom, List.filter_cons, hsome]
      · rw [h3]; simp [runsFrom, List.filter_cons, hsome]
      · rw [h4]; push_cast; show st.nFilesRead + (st.nFilesMissing + 1) + (n : Int) = _; ring
    · rw [if_neg hf]
      have hw2 : wrapInt (st.nFilesRead + 1) = st.nFilesRead + 1 :=
        wrapInt_eq_self _ (by omega) (by push_cast at hsum; omega)
      rw [hw2]
      obtain ⟨st', h1, h2, h3, h4⟩ := ih fuel (i + 1)
        { st with c := st.c ++ [i], nFilesRead := st.nFilesRead + 1 } (by omega) (by omega)
        (by omega) (by show 0 ≤ st.nFilesRead + 1; omega) hm
        (by show (st.nFilesRead + 1) + st.nFilesMissing + (n : Int) ≤ 2147483647
            push_cast at hsum; omega)
      have hsome : (files i).isSome = true := by
        cases hfi : files i with
        | none => rw [hfi] at hf; simp at hf
        | some v => rfl
      refine ⟨st', h1, ?_, ?_, ?_⟩
      · rw [h2]; simp [runsFrom, List.filter_cons, hsome]
      · rw [h3]; simp [runsFrom, List.filter_cons, hsome]; ring
      · rw [h4]; push_cast; show (st.nFilesRead + 1) + st.nFilesMissing + (n : Int) = _; ring

theorem presentRuns_eq_nil_iff (files : ResultFiles) (runMin runMax : Int) :
    presentRuns files runMin runMax = [] ↔
      ∀ i, runMin ≤ i → i ≤ runMax → files i = none := by
  unfold presentRuns
  rw [List.filter_eq_nil_iff]
  constructor
  · intro h i h1 h2
    have hm : i ∈ runsFrom runMin (runMax + 1 - runMin).toNat := by
      rw [mem_runsFrom]
      omega
    have := h i hm
    cases hfi : files i with
    | none => rfl
    | some v => rw [hfi] at this; simp at this
  · intro h i hi
    rw [mem_runsFrom] at hi
    rw [h i hi.1 (by omega)]
    simp

/-- C10: for every range `[runMin, runMax]` of `int` run numbers on which the loop
counter and the file counters do not overflow, with enough fuel for the file loop,
`readScan1dTrees` ends: it exits with code 1 if and only if no result file of the range
exists (also when `runMin > runMax`); otherwise it returns, having chained exactly the
files present, in increasing order, and analysed their rows with `id = -1`, and for
`runMin ≤ runMax` the counts satisfy `nFilesRead + nFilesMissing = runMax - runMin + 1`. -/
theorem readScan1dTrees_fatal_iff_no_file (s : Scanner)
    (scanpoints : List ToyRow → ℚ × ℚ × Int) (files : ResultFiles) (runMin runMax : Int)
    (hmin : -2147483648 ≤ runMin) (hmax : runMax < 2147483647)
    (hcount : runMax - runMin < 2147483647)
    (fuel : Nat) (hfuel : (runMax + 1 - runMin).toNat < fuel) :
    ∃ out, readScan1dTrees s scanpoints files fuel runMin runMax = some out
      ∧ (out = Outcome.exited 1 ↔ ∀ i, runMin ≤ i → i ≤ runMax → files i = none)
      ∧ ((∃ i, runMin ≤ i ∧ i ≤ runMax ∧ files i ≠ none) →
          ∃ r, out = Outcome.returned r
            ∧ r.c = presentRuns files runMin runMax
            ∧ r.nFilesRead = ((presentRuns files runMin runMax).length : Int)
            ∧ r.hCL = analyseToys s
                (chainTree scanpoints files (presentRuns files runMin runMax)) (-1)
            ∧ (runMin ≤ runMax → r.nFilesRead + r.nFilesMissing = runMax - runMin + 1)) := by
  obtain ⟨st, h1, h2, h3, h4⟩ := readFilesLoop_spec files runMax hmax
    (runMax + 1 - runMin).toNat fuel runMin { c := [], nFilesMissing := 0, nFilesRead := 0 }
    hfuel hmin rfl (le_refl 0) (le_refl 0) (by show (0 : Int) + 0 + _ ≤ _; omega)
  have hc : st.c = presentRuns files runMin runMax := by
    rw [h2]; rfl
  have hn : st.nFilesRead = ((presentRuns files runMin runMax).length : Int) := by
    rw [h3]; show (0 : Int) + _ = _; rw [zero_add]; rfl
  have hzero : st.nFilesRead = 0 ↔ ∀ i, runMin ≤ i → i ≤ runMax → files i = none := by
    rw [hn, ← presentRuns_eq_nil_iff]
    constructor
    · intro h
      exact List.length_eq_zero.mp (by exact_mod_cast h)
    · intro h
      rw [h]; rfl
  unfold readScan1dTrees
  rw [h1]
  by_cases hz : st.nFilesRead = 0
  · refine ⟨Outcome.exited 1, ?_, ?_, ?_⟩
    · simp only [hz, if_true]
    · exact ⟨fun _ => hzero.mp hz, fun _ => rfl⟩
    · rintro ⟨i, ha, hb, hne⟩
      exact absurd (hzero.mp hz i ha hb) hne
  · refine ⟨Outcome.returned
      { nFilesRead := st.nFilesRead
        nFilesMissing := st.nFilesMissing
        c := st.c
        hCL := analyseToys s (chainTree scanpoints files st.c) (-1) }, ?_, ?_, ?_⟩
    · simp only [hz, if_false]
    · constructor
      · intro h
        cases h
      · intro h
        exact absurd (hzero.mpr h) hz
    · intro _
      refine ⟨_, rfl, hc, hn, ?_, ?_⟩
      · show analyseToys s (chainTree scanpoints files st.c) (-1) = _
        rw [hc]
      · intro hle
        show st.nFilesRead + st.nFilesMissing = _
        rw [h4]
        show (0 : Int) + 0 + _ = _
        rw [Int.toNat_of_nonneg (by omega)]
        ring

theorem readScan1dTrees_fatal_iff_no_file_witness :
    readFilesLoop onlyRunTwo 3 4 1 { c := [], nFilesMissing := 0, nFilesRead := 0 }
        = some { c := [2], nFilesMissing := 2, nFilesRead := 1 }
      ∧ ∃ out, readScan1dTrees plainScanner (fun _ => (0, 0, 1)) onlyRunTwo 4 1 3 = some out
        ∧ (out = Outcome.exited 1 ↔ ∀ i, (1 : Int) ≤ i → i ≤ 3 → onlyRunTwo i = none)
        ∧ ((∃ i, (1 : Int) ≤ i ∧ i ≤ 3 ∧ onlyRunTwo i ≠ none) →
            ∃ r, out = Outcome.returned r
              ∧ r.c = presentRuns onlyRunTwo 1 3
              ∧ r.nFilesRead = ((presentRuns onlyRunTwo 1 3).length : Int)
              ∧ r.hCL = analyseToys plainScanner
                  (chainTree (fun _ => (0, 0, 1)) onlyRunTwo (presentRuns onlyRunTwo 1 3)) (-1)
              ∧ ((1 : Int) ≤ 3 → r.nFilesRead + r.nFilesMissing = 3 - 1 + 1)) :=
  ⟨by rfl,
   readScan1dTrees_fatal_iff_no_file plainScanner (fun _ => (0, 0, 1)) onlyRunTwo 1 3
    (by decide) (by decide) (by decide) 4 (by decide)⟩

/-! ### `readScan2dTrees` -/

theorem TAxis.FindBin_le (a : TAxis) (x : ℚ) : a.FindBin x ≤ a.fNbins + 1 := by
  unfold TAxis.FindBin
  split_ifs with h1 h2
  · omega
  · have hx : 0 ≤ x - a.fXmin := by linarith [not_lt.mp h1]
    have hlt : x < a.fXmax := h2
    have hd : 0 < a.fXmax - a.fXmin := by linarith [not_lt.mp h1]
    have hr : (x - a.fXmin) / (a.fXmax - a.fXmin) ≤ 1 := by
      rw [div_le_one hd]
      linarith
    have hN : (0 : ℚ) ≤ (a.fNbins : ℚ) := Nat.cast_nonneg _
    have hq : (a.fNbins : ℚ) * (x - a.fXmin) / (a.fXmax - a.fXmin) ≤ (a.fNbins : ℚ) := by
      rw [mul_div_assoc]
      calc (a.fNbins : ℚ) * ((x - a.fXmin) / (a.fXmax - a.fXmin))
          ≤ (a.fNbins : ℚ) * 1 := mul_le_mul_of_nonneg_left hr hN
        _ = (a.fNbins : ℚ) := mul_one _
    have hfl : Int.floor ((a.fNbins : ℚ) * (x - a.fXmin) / (a.fXmax - a.fXmin))
        ≤ (a.fNbins : Int) := by
      have := Int.floor_le ((a.fNbins : ℚ) * (x - a.fXmin) / (a.fXmax - a.fXmin))
      have h3 : ((Int.floor ((a.fNbins : ℚ) * (x - a.fXmin) / (a.fXmax - a.fXmin)) : Int) : ℚ)
          ≤ ((a.fNbins : Int) : ℚ) := by
        push_cast
        linarith
      exact_mod_cast h3
    omega
  · omega

theorem cell_injective (w a b a' b' : Nat) (ha : a < w) (ha' : a' < w)
    (h : b * w + a = b' * w + a') : a = a' ∧ b = b' := by
  have hw : 0 < w := by omega
  have h1 : (b * w + a) % w = a := by
    rw [Nat.add_comm, Nat.add_mul_mod_self_right, Nat.mod_eq_of_lt ha]
  have h2 : (b' * w + a') % w = a' := by
    rw [Nat.add_comm, Nat.add_mul_mod_self_right, Nat.mod_eq_of_lt ha']
  have h3 : (b * w + a) / w = b := by
    rw [Nat.add_comm, Nat.add_mul_div_right _ _ hw, Nat.div_eq_of_lt ha, Nat.zero_add]
  have h4 : (b' * w + a') / w = b' := by
    rw [Nat.add_comm, Nat.add_mul_div_right _ _ hw, Nat.div_eq_of_lt ha', Nat.zero_add]
  constructor
  · rw [← h1, ← h2, h]
  · rw [← h3, ← h4, h]

theorem cell_lt_ncells (nx ny a b : Nat) (ha : a ≤ nx + 1) (hb : b ≤ ny + 1) :
    b * (nx + 2) + a < (nx + 2) * (ny + 2) := by
  have h1 : b * (nx + 2) ≤ (ny + 1) * (nx + 2) := Nat.mul_le_mul_right _ hb
  have h2 : (nx + 2) * (ny + 2) = (ny + 1) * (nx + 2) + (nx + 2) := by ring
  omega
theorem TH2F.Fill_fst (h : TH2F) (x y : ℚ) :
    (h.Fill x y).1 =
      { h with
        fEntries := h.fEntries + 1
        fArray := Function.update h.fArray (h.cellOf x y) (h.fArray (h.cellOf x y) + 1) } := by
  unfold TH2F.Fill TH2F.cellOf
  simp only []
  split_ifs <;> rfl

theorem TH2F.Fill_snd (h : TH2F) (x y : ℚ) :
    (h.Fill x y).2 =
      if h.fXaxis.FindBin x = 0 ∨ h.fXaxis.FindBin x > h.fXaxis.fNbins
          ∨ h.fYaxis.FindBin y = 0 ∨ h.fYaxis.FindBin y > h.fYaxis.fNbins then -1
      else (h.cellOf x y : Int) := by
  unfold TH2F.Fill TH2F.cellOf
  simp only []
  split_ifs <;> rfl

theorem analyseEntry2d_of_not_accepted (s : Scanner2d) (st : Analyse2dState) (r : ToyRow2d)
    (h : ¬ accepted2d s r) :
    analyseEntry2d s st r = { st with nfailed := st.nfailed + 1 } := by
  unfold accepted2d at h
  unfold analyseEntry2d
  rw [if_pos h]

theorem analyseEntry2d_of_accepted (s : Scanner2d) (st : Analyse2dState) (r : ToyRow2d)
    (h : accepted2d s r) :
    analyseEntry2d s st r =
      { h_all := (st.h_all.Fill r.scanpoint1 r.scanpoint2).1
        h_better :=
          if isBetter2d s r then
            st.h_better.SetBinContent1 (st.h_all.Fill r.scanpoint1 r.scanpoint2).2
              (st.h_better.GetBinContent1 (st.h_all.Fill r.scanpoint1 r.scanpoint2).2 + 1)
          else st.h_better
        nfailed := st.nfailed } := by
  unfold accepted2d at h
  unfold analyseEntry2d isBetter2d chi2minUsed2d
  rw [if_neg (not_not.mpr h)]
  simp only []
  split_ifs <;> rfl

theorem TH2F.SetBinContent1_axes (h : TH2F) (bin : Int) (c : ℚ) :
    (h.SetBinContent1 bin c).fXaxis = h.fXaxis ∧ (h.SetBinContent1 bin c).fYaxis = h.fYaxis := by
  unfold TH2F.SetBinContent1
  split_ifs <;> exact ⟨rfl, rfl⟩

theorem analyseEntry2d_axes (s : Scanner2d) (st : Analyse2dState) (r : ToyRow2d) (h0 : TH2F)
    (hax : HasAxesOf st h0) : HasAxesOf (analyseEntry2d s st r) h0 := by
  obtain ⟨a1, a2, a3, a4⟩ := hax
  by_cases h : accepted2d s r
  · rw [analyseEntry2d_of_accepted s st r h]
    refine ⟨?_, ?_, ?_, ?_⟩
    · show (st.h_all.Fill r.scanpoint1 r.scanpoint2).1.fXaxis = _
      rw [TH2F.Fill_fst]; exact a1
    · show (st.h_all.Fill r.scanpoint1 r.scanpoint2).1.fYaxis = _
      rw [TH2F.Fill_fst]; exact a2
    · show (if isBetter2d s r then _ else st.h_better).fXaxis = _
      split_ifs
      · rw [(TH2F.SetBinContent1_axes _ _ _).1]; exact a3
      · exact a3
    · show (if isBetter2d s r then _ else st.h_better).fYaxis = _
      split_ifs
      · rw [(TH2F.SetBinContent1_axes _ _ _).2]; exact a4
      · exact a4
  · rw [analyseEntry2d_of_not_accepted s st r h]
    exact ⟨a1, a2, a3, a4⟩

theorem analyseEntry2d_h_all (s : Scanner2d) (st : Analyse2dState) (r : ToyRow2d) (g : Nat) :
    (analyseEntry2d s st r).h_all.fArray g =
      st.h_all.fArray g
        + if accepted2d s r ∧ st.h_all.cellOf r.scanpoint1 r.scanpoint2 = g then 1 else 0 := by
  by_cases h : accepted2d s r
  · rw [analyseEntry2d_of_accepted s st r h]
    show (st.h_all.Fill r.scanpoint1 r.scanpoint2).1.fArray g = _
    rw [TH2F.Fill_fst]
    by_cases hg : st.h_all.cellOf r.scanpoint1 r.scanpoint2 = g
    · subst hg
      simp [h]
    · have hne : g ≠ st.h_all.cellOf r.scanpoint1 r.scanpoint2 := fun e => hg e.symm
      simp [h, hg, Function.update_noteq hne]
  · rw [analyseEntry2d_of_not_accepted s st r h]
    simp [h]

theorem analyseEntry2d_h_better (s : Scanner2d) (st : Analyse2dState) (r : ToyRow2d)
    (h0 : TH2F) (hax : HasAxesOf st h0) (i j : Nat)
    (hi : 1 ≤ i ∧ i ≤ h0.fXaxis.fNbins) (hj : 1 ≤ j ∧ j ≤ h0.fYaxis.fNbins) :
    (analyseEntry2d s st r).h_better.fArray (j * (h0.fXaxis.fNbins + 2) + i) =
      st.h_better.fArray (j * (h0.fXaxis.fNbins + 2) + i)
        + if (accepted2d s r ∧ isBetter2d s r)
            ∧ h0.cellOf r.scanpoint1 r.scanpoint2 = j * (h0.fXaxis.fNbins + 2) + i
          then 1 else 0 := by
  obtain ⟨a1, a2, a3, a4⟩ := hax
  have hcell : st.h_all.cellOf r.scanpoint1 r.scanpoint2
      = h0.cellOf r.scanpoint1 r.scanpoint2 := by
    unfold TH2F.cellOf; rw [a1, a2]
  by_cases h : accepted2d s r
  · rw [analyseEntry2d_of_accepted s st r h]
    by_cases hb : isBetter2d s r
    · show (if isBetter2d s r then _ else st.h_better).fArray _ = _
      rw [if_pos hb, TH2F.Fill_snd, a1, a2, hcell]
      have hbx := TAxis.FindBin_le h0.fXaxis r.scanpoint1
      have hby := TAxis.FindBin_le h0.fYaxis r.scanpoint2
      by_cases hreg : h0.fXaxis.FindBin r.scanpoint1 = 0
          ∨ h0.fXaxis.FindBin r.scanpoint1 > h0.fXaxis.fNbins
          ∨ h0.fYaxis.FindBin r.scanpoint2 = 0
          ∨ h0.fYaxis.FindBin r.scanpoint2 > h0.fYaxis.fNbins
      · rw [if_pos hreg]
        have hne : ¬ h0.cellOf r.scanpoint1 r.scanpoint2
            = j * (h0.fXaxis.fNbins + 2) + i := by
          intro e
          unfold TH2F.cellOf at e
          obtain ⟨e1, e2⟩ := cell_injective _ _ _ _ _ (by omega) (by omega) e
          omega
        rw [if_neg (fun hh => hne hh.2)]
        unfold TH2F.SetBinContent1
        simp
      · rw [if_neg hreg]
        have hlt : h0.cellOf r.scanpoint1 r.scanpoint2 < st.h_better.fNcells := by
          unfold TH2F.fNcells TH2F.cellOf
          rw [a3, a4]
          exact cell_lt_ncells _ _ _ _ hbx hby
        unfold TH2F.SetBinContent1 TH2F.GetBinContent1
        have hnn : ¬ ((h0.cellOf r.scanpoint1 r.scanpoint2 : Int) < 0) := by omega
        have hnl : ¬ ((h0.cellOf r.scanpoint1 r.scanpoint2 : Int)
            ≥ (st.h_better.fNcells : Int)) := by omega
        rw [if_neg (not_or.mpr ⟨hnn, hnl⟩), if_neg hnn, if_neg hnl]
        simp only [Int.toNat_ofNat]
        by_cases hg : h0.cellOf r.scanpoint1 r.scanpoint2 = j * (h0.fXaxis.fNbins + 2) + i
        · rw [hg]
          simp [h, hb]
        · have hne : j * (h0.fXaxis.fNbins + 2) + i ≠ h0.cellOf r.scanpoint1 r.scanpoint2 :=
            fun e => hg e.symm
          simp [hg, Function.update_noteq hne]
    · show (if isBetter2d s r then _ else st.h_better).fArray _ = _
      rw [if_neg hb]
      simp [hb]
  · rw [analyseEntry2d_of_not_accepted s st r h]
    simp [h]
theorem foldl_analyseEntry2d_axes (s : Scanner2d) (h0 : TH2F) (rows : List ToyRow2d)
    (st : Analyse2dState) (hax : HasAxesOf st h0) :
    HasAxesOf (rows.foldl (analyseEntry2d s) st) h0 := by
  induction rows generalizing st with
  | nil => exact hax
  | cons r rows ih => exact ih _ (analyseEntry2d_axes s st r h0 hax)

theorem foldl_analyseEntry2d_h_all (s : Scanner2d) (h0 : TH2F) (rows : List ToyRow2d)
    (st : Analyse2dState) (hax : HasAxesOf st h0) (g : Nat) :
    (rows.foldl (analyseEntry2d s) st).h_all.fArray g =
      st.h_all.fArray g
        + (rows.countP (fun r => decide (accepted2d s r
            ∧ h0.cellOf r.scanpoint1 r.scanpoint2 = g)) : ℚ) := by
  induction rows generalizing st with
  | nil => simp
  | cons r rows ih =>
    rw [List.foldl_cons, ih _ (analyseEntry2d_axes s st r h0 hax), analyseEntry2d_h_all,
      List.countP_cons]
    have hcell : st.h_all.cellOf r.scanpoint1 r.scanpoint2
        = h0.cellOf r.scanpoint1 r.scanpoint2 := by
      unfold TH2F.cellOf; rw [hax.1, hax.2.1]
    rw [hcell]
    by_cases hc : accepted2d s r ∧ h0.cellOf r.scanpoint1 r.scanpoint2 = g
    · simp [hc]; ring
    · simp [hc]

theorem foldl_analyseEntry2d_h_better (s : Scanner2d) (h0 : TH2F) (rows : List ToyRow2d)
    (st : Analyse2dState) (hax : HasAxesOf st h0) (i j : Nat)
    (hi : 1 ≤ i ∧ i ≤ h0.fXaxis.fNbins) (hj : 1 ≤ j ∧ j ≤ h0.fYaxis.fNbins) :
    (rows.foldl (analyseEntry2d s) st).h_better.fArray (j * (h0.fXaxis.fNbins + 2) + i) =
      st.h_better.fArray (j * (h0.fXaxis.fNbins + 2) + i)
        + (rows.countP (fun r => decide ((accepted2d s r ∧ isBetter2d s r)
            ∧ h0.cellOf r.scanpoint1 r.scanpoint2 = j * (h0.fXaxis.fNbins + 2) + i)) : ℚ) := by
  induction rows generalizing st with
  | nil => simp
  | cons r rows ih =>
    rw [List.foldl_cons, ih _ (analyseEntry2d_axes s st r h0 hax),
      analyseEntry2d_h_better s st r h0 hax i j hi hj, List.countP_cons]
    by_cases hc : (accepted2d s r ∧ isBetter2d s r)
        ∧ h0.cellOf r.scanpoint1 r.scanpoint2 = j * (h0.fXaxis.fNbins + 2) + i
    · simp [hc]; ring
    · simp [hc]

theorem TH2F.GetBin_regular (h : TH2F) (i j : Nat) (hi : i ≤ h.fXaxis.fNbins + 1)
    (hj : j ≤ h.fYaxis.fNbins + 1) : h.GetBin i j = j * (h.fXaxis.fNbins + 2) + i := by
  unfold TH2F.GetBin
  rw [min_eq_left hi, min_eq_left hj]

theorem setPvalue2d_axes (st : Analyse2dState) (h : TH2F) (i j : Nat) :
    (setPvalue2d st h i j).fXaxis = h.fXaxis ∧ (setPvalue2d st h i j).fYaxis = h.fYaxis := by
  unfold setPvalue2d
  simp only []
  split_ifs <;> exact ⟨rfl, rfl⟩

theorem setPvalue2d_fArray (st : Analyse2dState) (h : TH2F) (i j g : Nat) :
    (setPvalue2d st h i j).fArray g =
      if h.GetBin i j = g ∧ st.h_all.GetBinContent i j ≠ 0 then pvalueAt2d st i j
      else h.fArray g := by
  unfold setPvalue2d pvalueAt2d
  simp only []
  by_cases hz : st.h_all.GetBinContent i j = 0
  · rw [if_pos hz, if_neg (fun hh => hh.2 hz)]
  · rw [if_neg hz]
    by_cases hg : h.GetBin i j = g
    · subst hg
      simp [TH2F.SetBinContent, TH2F.SetBinError2, hz]
    · have hne : g ≠ h.GetBin i j := fun e => hg e.symm
      simp [TH2F.SetBinContent, TH2F.SetBinError2, hg, Function.update_noteq hne]

theorem inner_setPvalue2d (st : Analyse2dState) (i : Nat) (lj : List Nat) (h : TH2F)
    (i0 j0 : Nat) (hi : i ≤ h.fXaxis.fNbins + 1) (hi0 : i0 ≤ h.fXaxis.fNbins + 1)
    (hj0 : j0 ≤ h.fYaxis.fNbins + 1) (hlj : ∀ j ∈ lj, j ≤ h.fYaxis.fNbins + 1) :
    ((lj.foldl (fun h j => setPvalue2d st h i j) h).fXaxis = h.fXaxis
      ∧ (lj.foldl (fun h j => setPvalue2d st h i j) h).fYaxis = h.fYaxis)
    ∧ (lj.foldl (fun h j => setPvalue2d st h i j) h).fArray (h.GetBin i0 j0) =
      if (i = i0 ∧ j0 ∈ lj) ∧ st.h_all.GetBinContent i0 j0 ≠ 0 then pvalueAt2d st i0 j0
      else h.fArray (h.GetBin i0 j0) := by
  induction lj generalizing h with
  | nil => simp
  | cons j lj ih =>
    rw [List.foldl_cons]
    obtain ⟨ax, ay⟩ := setPvalue2d_axes st h i j
    have hj : j ≤ h.fYaxis.fNbins + 1 := hlj j (List.mem_cons_self _ _)
    obtain ⟨⟨bx, by'⟩, hval⟩ := ih (setPvalue2d st h i j) (by rw [ax]; exact hi)
      (by rw [ax]; exact hi0) (by rw [ay]; exact hj0)
      (fun k hk => by rw [ay]; exact hlj k (List.mem_cons_of_mem _ hk))
    refine ⟨⟨bx.trans ax, by'.trans ay⟩, ?_⟩
    have hgb : (setPvalue2d st h i j).GetBin i0 j0 = h.GetBin i0 j0 := by
      unfold TH2F.GetBin; rw [ax, ay]
    rw [hgb] at hval
    rw [hval, setPvalue2d_fArray]
    have hinj : h.GetBin i j = h.GetBin i0 j0 ↔ (i = i0 ∧ j = j0) := by
      rw [TH2F.GetBin_regular h i j hi hj, TH2F.GetBin_regular h i0 j0 hi0 hj0]
      constructor
      · intro e
        exact cell_injective _ _ _ _ _ (by omega) (by omega) e
      · rintro ⟨rfl, rfl⟩; rfl
    by_cases hij : i = i0 ∧ j = j0
    · obtain ⟨rfl, rfl⟩ := hij
      by_cases hz : st.h_all.GetBinContent i j ≠ 0
      · simp [hz]
      · simp [hz]
    · have hset : (if h.GetBin i j = h.GetBin i0 j0 ∧ st.h_all.GetBinContent i j ≠ 0 then
            pvalueAt2d st i j else h.fArray (h.GetBin i0 j0)) = h.fArray (h.GetBin i0 j0) :=
        if_neg (fun hh => hij (hinj.mp hh.1))
      rw [hset]
      by_cases hii : i = i0
      · have hne : ¬ j0 = j := fun e => hij ⟨hii, e.symm⟩
        simp [hii, List.mem_cons, hne]
      · simp [hii]

theorem outer_setPvalue2d (st : Analyse2dState) (li lj : List Nat) (h : TH2F)
    (i0 j0 : Nat) (hi0 : i0 ≤ h.fXaxis.fNbins + 1) (hj0 : j0 ≤ h.fYaxis.fNbins + 1)
    (hli : ∀ i ∈ li, i ≤ h.fXaxis.fNbins + 1) (hlj : ∀ j ∈ lj, j ≤ h.fYaxis.fNbins + 1) :
    ((li.foldl (fun h i => lj.foldl (fun h j => setPvalue2d st h i j) h) h).fXaxis = h.fXaxis
      ∧ (li.foldl (fun h i => lj.foldl (fun h j => setPvalue2d st h i j) h) h).fYaxis
          = h.fYaxis)
    ∧ (li.foldl (fun h i => lj.foldl (fun h j => setPvalue2d st h i j) h) h).fArray
        (h.GetBin i0 j0) =
      if (i0 ∈ li ∧ j0 ∈ lj) ∧ st.h_all.GetBinContent i0 j0 ≠ 0 then pvalueAt2d st i0 j0
      else h.fArray (h.GetBin i0 j0) := by
  induction li generalizing h with
  | nil => simp
  | cons i li ih =>
    rw [List.foldl_cons]
    have hi : i ≤ h.fXaxis.fNbins + 1 := hli i (List.mem_cons_self _ _)
    obtain ⟨⟨ax, ay⟩, hin⟩ := inner_setPvalue2d st i lj h i0 j0 hi hi0 hj0 hlj
    obtain ⟨⟨bx, by'⟩, hval⟩ := ih (lj.foldl (fun h j => setPvalue2d st h i j) h)
      (by rw [ax]; exact hi0) (by rw [ay]; exact hj0)
      (fun k hk => by rw [ax]; exact hli k (List.mem_cons_of_mem _ hk))
      (fun k hk => by rw [ay]; exact hlj k hk)
    refine ⟨⟨bx.trans ax, by'.trans ay⟩, ?_⟩
    have hgb : (lj.foldl (fun h j => setPvalue2d st h i j) h).GetBin i0 j0 = h.GetBin i0 j0 := by
      unfold TH2F.GetBin; rw [ax, ay]
    rw [hgb] at hval
    rw [hval, hin]
    by_cases hii : i = i0
    · subst hii
      by_cases hz : st.h_all.GetBinContent i j0 ≠ 0
      · by_cases hl : j0 ∈ lj
        · simp [hl, hz]
        · simp [hl]
      · simp [hz]
    · have hne : ¬ i0 = i := fun e => hii e.symm
      simp [hii, List.mem_cons, hne]
theorem analyse2d_axes (s : Scanner2d) (h0 : TH2F) (rows : List ToyRow2d) :
    (analyse2d s h0 rows).fXaxis = h0.fXaxis ∧ (analyse2d s h0 rows).fYaxis = h0.fYaxis := by
  unfold analyse2d
  exact (outer_setPvalue2d _ _ _ h0 0 0 (by omega) (by omega)
    (fun i hi => by
      have hax := foldl_analyseEntry2d_axes s h0 rows
        { h_better := h0, h_all := h0, nfailed := 0 } ⟨rfl, rfl, rfl, rfl⟩
      have := List.mem_range'_1.mp hi
      unfold analyseLoop2d TH2F.GetNbinsX at this
      rw [hax.2.2.1] at this
      omega)
    (fun j hj => by
      have hax := foldl_analyseEntry2d_axes s h0 rows
        { h_better := h0, h_all := h0, nfailed := 0 } ⟨rfl, rfl, rfl, rfl⟩
      have := List.mem_range'_1.mp hj
      unfold analyseLoop2d TH2F.GetNbinsY at this
      rw [hax.2.2.2] at this
      omega)).1

theorem analyse2d_GetBinContent (s : Scanner2d) (h0 : TH2F) (rows : List ToyRow2d)
    (i j : Nat) (hi : 1 ≤ i ∧ i ≤ h0.GetNbinsX) (hj : 1 ≤ j ∧ j ≤ h0.GetNbinsY) :
    (analyse2d s h0 rows).GetBinContent i j =
      if h0.GetBinContent i j
          + (rows.countP (fun r => decide (accepted2d s r
              ∧ h0.cellOf r.scanpoint1 r.scanpoint2 = h0.GetBin i j)) : ℚ) ≠ 0
      then
        (h0.GetBinContent i j
          + (rows.countP (fun r => decide ((accepted2d s r ∧ isBetter2d s r)
              ∧ h0.cellOf r.scanpoint1 r.scanpoint2 = h0.GetBin i j)) : ℚ))
        / (h0.GetBinContent i j
          + (rows.countP (fun r => decide (accepted2d s r
              ∧ h0.cellOf r.scanpoint1 r.scanpoint2 = h0.GetBin i j)) : ℚ))
      else h0.GetBinContent i j := by
  have hax := foldl_analyseEntry2d_axes s h0 rows
    { h_better := h0, h_all := h0, nfailed := 0 } ⟨rfl, rfl, rfl, rfl⟩
  unfold TH2F.GetNbinsX at hi
  unfold TH2F.GetNbinsY at hj
  have hgb : h0.GetBin i j = j * (h0.fXaxis.fNbins + 2) + i :=
    TH2F.GetBin_regular h0 i j (by omega) (by omega)
  have hall : (analyseLoop2d s h0 rows).h_all.GetBinContent i j =
      h0.GetBinContent i j
        + (rows.countP (fun r => decide (accepted2d s r
            ∧ h0.cellOf r.scanpoint1 r.scanpoint2 = h0.GetBin i j)) : ℚ) := by
    unfold TH2F.GetBinContent analyseLoop2d
    have : (List.foldl (analyseEntry2d s) { h_better := h0, h_all := h0, nfailed := 0 }
        rows).h_all.GetBin i j = h0.GetBin i j := by
      unfold TH2F.GetBin; rw [hax.1, hax.2.1]
    rw [this, foldl_analyseEntry2d_h_all s h0 rows _ ⟨rfl, rfl, rfl, rfl⟩]
  have hbet : (analyseLoop2d s h0 rows).h_better.GetBinContent i j =
      h0.GetBinContent i j
        + (rows.countP (fun r => decide ((accepted2d s r ∧ isBetter2d s r)
            ∧ h0.cellOf r.scanpoint1 r.scanpoint2 = h0.GetBin i j)) : ℚ) := by
    unfold TH2F.GetBinContent analyseLoop2d
    have : (List.foldl (analyseEntry2d s) { h_better := h0, h_all := h0, nfailed := 0 }
        rows).h_better.GetBin i j = h0.GetBin i j := by
      unfold TH2F.GetBin; rw [hax.2.2.1, hax.2.2.2]
    rw [this, hgb, foldl_analyseEntry2d_h_better s h0 rows _ ⟨rfl, rfl, rfl, rfl⟩ i j hi hj]
  have houter := (outer_setPvalue2d (analyseLoop2d s h0 rows)
    (List.range' 1 (analyseLoop2d s h0 rows).h_better.GetNbinsX)
    (List.range' 1 (analyseLoop2d s h0 rows).h_better.GetNbinsY) h0 i j (by omega) (by omega)
    (fun k hk => by
      have := List.mem_range'_1.mp hk
      unfold analyseLoop2d TH2F.GetNbinsX at this
      rw [hax.2.2.1] at this
      omega)
    (fun k hk => by
      have := List.mem_range'_1.mp hk
      unfold analyseLoop2d TH2F.GetNbinsY at this
      rw [hax.2.2.2] at this
      omega)).2
  have hmi : i ∈ List.range' 1 (analyseLoop2d s h0 rows).h_better.GetNbinsX := by
    rw [List.mem_range'_1]
    unfold analyseLoop2d TH2F.GetNbinsX
    rw [hax.2.2.1]
    omega
  have hmj : j ∈ List.range' 1 (analyseLoop2d s h0 rows).h_better.GetNbinsY := by
    rw [List.mem_range'_1]
    unfold analyseLoop2d TH2F.GetNbinsY
    rw [hax.2.2.2]
    omega
  have hres : (analyse2d s h0 rows).GetBinContent i j
      = (analyse2d s h0 rows).fArray (h0.GetBin i j) := by
    unfold TH2F.GetBinContent TH2F.GetBin
    rw [(analyse2d_axes s h0 rows).1, (analyse2d_axes s h0 rows).2]
  rw [hres]
  unfold analyse2d
  simp only []
  rw [houter]
  simp only [hmi, hmj, and_self, true_and]
  rw [hall]
  unfold pvalueAt2d
  rw [hall, hbet]
  rfl

/-- C11 (the code at the failing input): no 2D result file exists for the runs 1 to 3;
`readScan2dTrees` counts three missing files and then returns with an empty chain instead
of exiting. -/
theorem readScan2dTrees_no_file_returns :
    (∀ i : Int, 1 ≤ i → i ≤ 3 → noFiles2d i = none)
      ∧ readScan2dTrees plainScanner2d emptyGrid noFiles2d 4 1 3
        = some (Outcome.returned
            { nFilesRead := 0
              nFilesMissing := 3
              c := []
              hCL2d := analyse2d plainScanner2d emptyGrid (chainEntries2d noFiles2d []) }) :=
  ⟨fun _ _ _ => rfl, rfl⟩

theorem toyRows2d_accepted_count (h0 : TH2F)
    (hx : h0.fXaxis = emptyGrid.fXaxis) (hy : h0.fYaxis = emptyGrid.fYaxis) :
    h0.GetBin 1 1 = 4
      ∧ [betterRow2d, physicalRow2d].countP (fun r => decide (accepted2d plainScanner2d r
          ∧ h0.cellOf r.scanpoint1 r.scanpoint2 = h0.GetBin 1 1)) = 2
      ∧ [betterRow2d, physicalRow2d].countP (fun r => decide ((accepted2d plainScanner2d r
            ∧ isBetter2d plainScanner2d r)
          ∧ h0.cellOf r.scanpoint1 r.scanpoint2 = h0.GetBin 1 1)) = 1 := by
  have hg : h0.GetBin 1 1 = 4 := by
    unfold TH2F.GetBin
    rw [hx, hy]
    rfl
  have hc : h0.cellOf 0 0 = 4 := by
    unfold TH2F.cellOf
    rw [hx, hy]
    norm_num [emptyGrid, TAxis.FindBin]
  refine ⟨hg, ?_, ?_⟩
  · rw [hg]
    norm_num [betterRow2d, physicalRow2d, accepted2d, plainScanner2d, fabsDivLt, hc]
  · rw [hg]
    norm_num [betterRow2d, physicalRow2d, accepted2d, isBetter2d, chi2minUsed2d, plainScanner2d,
      fabsDivLt, hc]

theorem analyse2d_first_call :
    (analyse2d plainScanner2d emptyGrid [betterRow2d, physicalRow2d]).GetBinContent 1 1
      = 1 / 2 := by
  obtain ⟨hg, h2, h1⟩ := toyRows2d_accepted_count emptyGrid rfl rfl
  rw [analyse2d_GetBinContent plainScanner2d emptyGrid _ 1 1 ⟨le_refl 1, le_refl 1⟩
    ⟨le_refl 1, le_refl 1⟩, h2, h1]
  have h0 : emptyGrid.GetBinContent 1 1 = 0 := rfl
  rw [h0]
  norm_num

theorem analyse2d_second_call :
    (analyse2d plainScanner2d
        (analyse2d plainScanner2d emptyGrid [betterRow2d, physicalRow2d])
        [betterRow2d, physicalRow2d]).GetBinContent 1 1 = 3 / 5 := by
  obtain ⟨ax, ay⟩ := analyse2d_axes plainScanner2d emptyGrid [betterRow2d, physicalRow2d]
  obtain ⟨hg, h2, h1⟩ := toyRows2d_accepted_count
    (analyse2d plainScanner2d emptyGrid [betterRow2d, physicalRow2d]) ax ay
  have hnx : (analyse2d plainScanner2d emptyGrid [betterRow2d, physicalRow2d]).GetNbinsX = 1 := by
    unfold TH2F.GetNbinsX; rw [ax]; rfl
  have hny : (analyse2d plainScanner2d emptyGrid [betterRow2d, physicalRow2d]).GetNbinsY = 1 := by
    unfold TH2F.GetNbinsY; rw [ay]; rfl
  rw [analyse2d_GetBinContent plainScanner2d _ _ 1 1 ⟨le_refl 1, by rw [hnx]⟩
    ⟨le_refl 1, by rw [hny]⟩, h2, h1, analyse2d_first_call]
  norm_num

/-- C19 (the code at the failing input): the 2D aggregation is run twice over the same
rows, two accepted toys in bin `(1, 1)` of which one is better. Starting from an empty
histogram the first call sets the bin to `1/2`; the second call starts its counters as
clones of that histogram and sets the bin to `(1/2 + 1) / (1/2 + 2) = 3/5`. -/
theorem readScan2dTrees_twice :
    ∃ r1 r2 : Scan2dRead,
      readScan2dTrees plainScanner2d emptyGrid oneFile2d 2 1 1 = some (Outcome.returned r1)
        ∧ r1.hCL2d.GetBinContent 1 1 = 1 / 2
        ∧ readScan2dTrees plainScanner2d r1.hCL2d oneFile2d 2 1 1 = some (Outcome.returned r2)
        ∧ r2.hCL2d.GetBinContent 1 1 = 3 / 5 :=
  ⟨{ nFilesRead := 1, nFilesMissing := 0, c := [1]
     hCL2d := analyse2d plainScanner2d emptyGrid [betterRow2d, physicalRow2d] },
   { nFilesRead := 1, nFilesMissing := 0, c := [1]
     hCL2d := analyse2d plainScanner2d
      (analyse2d plainScanner2d emptyGrid [betterRow2d, physicalRow2d])
      [betterRow2d, physicalRow2d] },
   rfl, analyse2d_first_call, rfl, analyse2d_second_call⟩

/-! ### `getParevolPoint` -/

/-- C12: for every scan coordinate whose bin has a slot in the evolution curve,
`getParevolPoint` exits with code 1 when the slot holds no result; when the slot holds a
result that contains the scan variable it returns exactly that result, and only the
warning flag depends on how far the stored value is from the coordinate. -/
theorem getParevolPoint_spec (scanVar1 : String) (parevolPLH : MethodProbScan)
    (scanpoint : ℚ)
    (hlo : 1 ≤ parevolPLH.hCL.FindBin scanpoint)
    (hhi : parevolPLH.hCL.FindBin scanpoint ≤ parevolPLH.curveResults.length) :
    (parevolPLH.curveResults.getD (parevolPLH.hCL.FindBin scanpoint - 1) none = none →
        getParevolPoint scanVar1 parevolPLH scanpoint = some (Outcome.exited 1))
      ∧ (∀ (r : RooSlimFitResult) (var : RooRealVar),
          parevolPLH.curveResults.getD (parevolPLH.hCL.FindBin scanpoint - 1) none = some r →
          findVar (r.floatParsFinal ++ r.constPars) scanVar1 = some var →
          ∃ warned : Bool,
            getParevolPoint scanVar1 parevolPLH scanpoint
              = some (Outcome.returned { result := r, warned := warned })) := by
  have hidx : ((parevolPLH.hCL.FindBin scanpoint : Int) - 1).toNat
      = parevolPLH.hCL.FindBin scanpoint - 1 := by omega
  have hin : ¬ ((parevolPLH.hCL.FindBin scanpoint : Int) - 1 < 0
      ∨ (parevolPLH.hCL.FindBin scanpoint : Int) - 1
          ≥ (parevolPLH.curveResults.length : Int)) := by omega
  constructor
  · intro hnone
    unfold getParevolPoint
    simp only []
    rw [if_neg hin, hidx, hnone]
  · intro r var hr hv
    refine ⟨decide (fabsDivGt (scanpoint - var.val) scanpoint (1 / 100)), ?_⟩
    unfold getParevolPoint
    simp only []
    rw [if_neg hin, hidx, hr]
    simp only []
    rw [hv]

/-- The witness of C12: in `twoBinEvolution` the coordinate `3/2` lies in the second
bin, which holds no result, and the coordinate `1/2` lies in the first bin, whose result
is returned. -/
theorem getParevolPoint_spec_witness :
    getParevolPoint "g" twoBinEvolution (3 / 2) = some (Outcome.exited 1)
      ∧ ∃ warned : Bool, getParevolPoint "g" twoBinEvolution (1 / 2)
          = some (Outcome.returned { result := storedResult, warned := warned }) := by
  have hb2 : twoBinEvolution.hCL.FindBin (3 / 2) = 2 := by
    norm_num [twoBinEvolution, TH1F.create, TH1F.FindBin, toNat_two]
  have hb1 : twoBinEvolution.hCL.FindBin (1 / 2) = 1 := by
    norm_num [twoBinEvolution, TH1F.create, TH1F.FindBin, toNat_two]
  constructor
  · exact (getParevolPoint_spec "g" twoBinEvolution (3 / 2) (by rw [hb2]; decide)
      (by rw [hb2]; decide)).1 (by rw [hb2]; rfl)
  · exact (getParevolPoint_spec "g" twoBinEvolution (1 / 2) (by rw [hb1])
      (by rw [hb1]; decide)).2 storedResult
      { name := "g", val := 1 / 2, isConstant := true, min := 0, max := 2 }
      (by rw [hb1]; rfl) (by rfl)

/-! ### Variables and sets -/

theorem findVar_eq_none_iff (set : RooArgSet) (name : String) :
    findVar set name = none ↔ name ∉ varNames set := by
  unfold findVar varNames
  rw [List.find?_eq_none]
  simp only [beq_iff_eq, List.mem_map, not_exists, not_and]

theorem findVar_isSome_of_mem (set : RooArgSet) (name : String) (h : name ∈ varNames set) :
    ∃ v, findVar set name = some v := by
  cases hf : findVar set name with
  | none => exact absurd h ((findVar_eq_none_iff set name).mp hf)
  | some v => exact ⟨v, rfl⟩

theorem findVar_name (set : RooArgSet) (name : String) (v : RooRealVar)
    (h : findVar set name = some v) : v.name = name := by
  unfold findVar at h
  have := List.find?_some h
  simpa using this

theorem varNames_setParameters (setMe values : RooArgSet) :
    varNames (setParameters setMe values) = varNames setMe := by
  unfold varNames setParameters
  rw [List.map_map]
  apply List.map_congr_left
  intro p _
  simp only [Function.comp]
  cases findVar values p.name <;> rfl

theorem varNames_setVal (set : RooArgSet) (name : String) (x : ℚ) :
    varNames (setVal set name x) = varNames set := by
  unfold varNames setVal
  rw [List.map_map]
  apply List.map_congr_left
  intro p _
  simp only [Function.comp]
  split_ifs <;> rfl

theorem varNames_setConstant (set : RooArgSet) (name : String) (c : Bool) :
    varNames (setConstant set name c) = varNames set := by
  unfold varNames setConstant
  rw [List.map_map]
  apply List.map_congr_left
  intro p _
  simp only [Function.comp]
  split_ifs <;> rfl

theorem Fitter.fit_obs (cfg : PluginConfig) (f : Fitter) (w : RooWorkspace) :
    (f.fit cfg w).2.obs = w.obs := rfl

theorem Fitter.fit_varNames (cfg : PluginConfig) (f : Fitter) (w : RooWorkspace) :
    varNames (f.fit cfg w).2.pars = varNames w.pars := by
  unfold Fitter.fit varNames
  simp only []
  rw [List.map_map]
  apply List.map_congr_left
  intro p _
  simp only [Function.comp]
  split_ifs
  · rfl
  · cases findVar _ p.name <;> rfl

theorem Fitter.fit_lastOutcome (cfg : PluginConfig) (f : Fitter) (w : RooWorkspace) :
    ∃ out, (f.fit cfg w).1.lastOutcome cfg = some out
      ∧ (f.fit cfg w).1.status = out.status ∧ (f.fit cfg w).1.chi2 = out.chi2 := by
  unfold Fitter.fit Fitter.lastOutcome
  simp

/-! ### `generateToys` -/

theorem generate_get (cfg : PluginConfig) (k : Nat) (w : RooWorkspace) (nEvents : Int)
    (j : Nat) :
    (generate cfg k w nEvents).get j
      = if j < nEvents.toNat then some (toyOf cfg k w nEvents j) else none := by
  unfold generate RooDataSet.get toyOf
  simp only [List.getElem?_map]
  by_cases hj : j < nEvents.toNat
  · rw [if_pos hj, List.getElem?_range hj]
    rfl
  · rw [if_neg hj, List.getElem?_eq_none (by simpa using hj)]
    rfl

theorem generate_length (cfg : PluginConfig) (k : Nat) (w : RooWorkspace) (nEvents : Int) :
    (generate cfg k w nEvents).entries.length = nEvents.toNat := by
  unfold generate
  simp

theorem varNames_toyOf (cfg : PluginConfig) (k : Nat) (w : RooWorkspace) (nEvents : Int)
    (j : Nat) : varNames (toyOf cfg k w nEvents j) = varNames w.obs := by
  unfold varNames toyOf
  rw [List.map_map]
  rfl

theorem foldl_lastK3pi_eq_none (set : RooArgSet) (acc : Option ℚ) :
    set.foldl (fun acc var =>
        if containsSubstr var.name "kD_k3pi_obs" then some var.val else acc) acc = none
      ↔ acc = none ∧ ∀ name ∈ varNames set, containsSubstr name "kD_k3pi_obs" = false := by
  induction set generalizing acc with
  | nil => simp [varNames]
  | cons v set ih =>
    rw [List.foldl_cons, ih]
    simp only [varNames, List.map_cons, List.mem_cons, forall_eq_or_imp]
    by_cases hc : containsSubstr v.name "kD_k3pi_obs" = true
    · simp [hc]
    · have hc' : containsSubstr v.name "kD_k3pi_obs" = false := by simpa using hc
      simp [hc']

theorem lastK3piValue_eq_none_iff (set : RooArgSet) :
    lastK3piValue set = none
      ↔ ∀ name ∈ varNames set, containsSubstr name "kD_k3pi_obs" = false := by
  unfold lastK3piValue
  rw [foldl_lastK3pi_eq_none]
  simp

theorem generateToys_defined (cfg : PluginConfig) (w : RooWorkspace) (genCalls : List GenCall)
    (n : Int) (hn : 2 ≤ n)
    (hk : (∀ o ∈ w.obs, containsSubstr o.name "kD_k3pi_obs" = false)
      ∨ ("kD_k3pi" ∈ varNames w.pars ∧ "dD_k3pi" ∈ varNames w.pars)) :
    ∃ g k, generateToys cfg w genCalls n = some g
      ∧ g.dataset = generate cfg k g.w n
      ∧ g.w.obs = w.obs
      ∧ varNames g.w.pars = varNames w.pars
      ∧ ∃ rest, g.genCalls = genCalls ++ { pars := w.pars, nEvents := n } :: rest
          ∧ rest.length ≤ 1 := by
  have h0 : (0 : Nat) < n.toNat := by omega
  have h1 : (1 : Nat) < n.toNat := by omega
  unfold generateToys
  simp only []
  rw [generate_get, generate_get, if_pos h0, if_pos h1]
  simp only []
  cases hv0 : lastK3piValue (toyOf cfg genCalls.length w n 0) with
  | none =>
    have hall := (lastK3piValue_eq_none_iff _).mp hv0
    rw [varNames_toyOf] at hall
    have hv1 : lastK3piValue (toyOf cfg genCalls.length w n 1) = none := by
      rw [lastK3piValue_eq_none_iff, varNames_toyOf]
      exact hall
    rw [hv1]
    exact ⟨_, genCalls.length, rfl, rfl, rfl, rfl, [], rfl, by simp⟩
  | some v0 =>
    cases hv1 : lastK3piValue (toyOf cfg genCalls.length w n 1) with
    | none =>
      have hall := (lastK3piValue_eq_none_iff _).mp hv1
      rw [varNames_toyOf] at hall
      have : lastK3piValue (toyOf cfg genCalls.length w n 0) = none := by
        rw [lastK3piValue_eq_none_iff, varNames_toyOf]
        exact hall
      rw [this] at hv0
      cases hv0
    | some v1 =>
      simp only []
      by_cases heq : v0 = v1
      · rw [if_pos heq]
        have hsome : ¬ (∀ o ∈ w.obs, containsSubstr o.name "kD_k3pi_obs" = false) := by
          intro hno
          have : lastK3piValue (toyOf cfg genCalls.length w n 0) = none := by
            rw [lastK3piValue_eq_none_iff, varNames_toyOf]
            intro name hname
            unfold varNames at hname
            obtain ⟨o, ho, rfl⟩ := List.mem_map.mp hname
            exact hno o ho
          rw [this] at hv0
          cases hv0
        obtain ⟨hkd, hdd⟩ := hk.resolve_left hsome
        obtain ⟨k, hk'⟩ := findVar_isSome_of_mem _ _ hkd
        obtain ⟨d, hd'⟩ := findVar_isSome_of_mem _ _ hdd
        rw [hk', hd']
        simp only []
        rw [generate_get, generate_get, if_pos h0, if_pos h1]
        simp only []
        refine ⟨_, _, rfl, rfl, rfl, ?_,
          [{ pars := setVal (setVal w.pars "kD_k3pi" (cfg.gaus 0 k.val)) "dD_k3pi"
              (cfg.gaus 1 d.val), nEvents := n }], ?_, by simp⟩
        rotate_left
        · show genCalls ++ [_] ++ [_] = genCalls ++ _ :: [_]
          rw [List.append_assoc]
          rfl
        show varNames (setVal (setVal w.pars "kD_k3pi" _) "dD_k3pi" _) = varNames w.pars
        rw [varNames_setVal, varNames_setVal]
      · rw [if_neg heq]
        exact ⟨_, genCalls.length, rfl, rfl, rfl, rfl, [], rfl, by simp⟩

/-! ### The toy loop of `computePvalue1d` -/

theorem scanFit_obs (cfg : PluginConfig) (sp : ℚ) (c : FitResultCache) (f : Fitter)
    (w : RooWorkspace) : (scanFit cfg sp c f w).2.obs = w.obs := by
  unfold scanFit
  simp only []
  split_ifs <;> rfl

theorem freeFit_obs (cfg : PluginConfig) (f : Fitter) (w : RooWorkspace) :
    (freeFit cfg f w).2.obs = w.obs := by
  unfold freeFit
  simp only []
  split_ifs <;> rfl

theorem scanFit_varNames (cfg : PluginConfig) (sp : ℚ) (c : FitResultCache) (f : Fitter)
    (w : RooWorkspace) : varNames (scanFit cfg sp c f w).2.pars = varNames w.pars := by
  unfold scanFit
  simp only []
  split_ifs
  · rw [Fitter.fit_varNames, Fitter.fit_varNames]
    show varNames (setConstant (setVal w.pars _ _) _ _) = _
    rw [varNames_setConstant, varNames_setVal]
  · rw [Fitter.fit_varNames]
    show varNames (setConstant (setVal w.pars _ _) _ _) = _
    rw [varNames_setConstant, varNames_setVal]

theorem freeFit_varNames (cfg : PluginConfig) (f : Fitter) (w : RooWorkspace) :
    varNames (freeFit cfg f w).2.pars = varNames w.pars := by
  unfold freeFit
  simp only []
  split_ifs
  · rw [Fitter.fit_varNames, Fitter.fit_varNames]
    show varNames (setConstant w.pars _ _) = _
    rw [varNames_setConstant]
  · rw [Fitter.fit_varNames]
    show varNames (setConstant w.pars _ _) = _
    rw [varNames_setConstant]

theorem scanFit_lastOutcome (cfg : PluginConfig) (sp : ℚ) (c : FitResultCache) (f : Fitter)
    (w : RooWorkspace) :
    ∃ out, (scanFit cfg sp c f w).1.lastOutcome cfg = some out
      ∧ (scanFit cfg sp c f w).1.status = out.status
      ∧ (scanFit cfg sp c f w).1.chi2 = out.chi2 := by
  unfold scanFit
  simp only []
  split_ifs
  · exact Fitter.fit_lastOutcome cfg _ _
  · exact Fitter.fit_lastOutcome cfg _ _

theorem freeFit_lastOutcome (cfg : PluginConfig) (f : Fitter) (w : RooWorkspace) :
    ∃ out, (freeFit cfg f w).1.lastOutcome cfg = some out
      ∧ (freeFit cfg f w).1.status = out.status
      ∧ (freeFit cfg f w).1.chi2 = out.chi2 := by
  unfold freeFit
  simp only []
  split_ifs
  · exact Fitter.fit_lastOutcome cfg _ _
  · exact Fitter.fit_lastOutcome cfg _ _

theorem toyStep_eq (cfg : PluginConfig) (sp : ℚ) (ds : RooDataSet) (x : ToyLoopState) (j : Nat)
    (toyData : RooArgSet) (best : RooRealVar) (hget : ds.get j = some toyData)
    (hbest : findVar (freed cfg sp x toyData).2.pars cfg.scanVar1 = some best) :
    toyStep cfg sp ds x j =
      some
        { st :=
            { x.st with
              w := (freed cfg sp x toyData).2
              t :=
                { branches := toyRecord cfg sp x toyData best.val
                  rows := x.st.t.rows ++ [toyRecord cfg sp x toyData best.val] }
              f := (freed cfg sp x toyData).1
              pb := x.st.pb.progress }
          frCache :=
            if ((freed cfg sp x toyData).1.status : ℚ) = 0 then
              x.frCache.storeParsRoundRobin (freed cfg sp x toyData).2.pars
            else x.frCache } := by
  unfold freed scanned at hbest
  unfold toyStep
  simp only []
  rw [hget]
  simp only []
  rw [hbest]
  rfl

theorem freed_varNames (cfg : PluginConfig) (sp : ℚ) (x : ToyLoopState) (toyData : RooArgSet) :
    varNames (freed cfg sp x toyData).2.pars = varNames x.st.w.pars := by
  unfold freed scanned
  rw [freeFit_varNames, scanFit_varNames]

theorem findVar_map (set : RooArgSet) (name : String) (f : RooRealVar → RooRealVar)
    (hf : ∀ p, (f p).name = p.name) :
    findVar (set.map f) name = (findVar set name).map f := by
  unfold findVar
  induction set with
  | nil => rfl
  | cons p set ih =>
    rw [List.map_cons, List.find?_cons, List.find?_cons, hf p]
    cases hp : (p.name == name)
    · exact ih
    · rfl

theorem findVar_setParameters (setMe values : RooArgSet) (name : String) (p v : RooRealVar)
    (hp : findVar (setParameters setMe values) name = some p)
    (hv : findVar values name = some v) : p.val = v.val := by
  unfold setParameters at hp
  rw [findVar_map] at hp
  · cases hq : findVar setMe name with
    | none => rw [hq] at hp; cases hp
    | some q =>
      rw [hq] at hp
      have hqn := findVar_name _ _ _ hq
      simp only [Option.map_some'] at hp
      rw [hqn, hv] at hp
      cases hp
      rfl
  · intro q
    cases findVar values q.name <;> rfl

theorem shape_setParameters (setMe values : RooArgSet) :
    shape (setParameters setMe values) = shape setMe := by
  unfold shape setParameters
  rw [List.map_map]
  apply List.map_congr_left
  intro p _
  simp only [Function.comp]
  cases findVar values p.name <;> rfl

theorem varNames_shape (set : RooArgSet) : varNames (shape set) = varNames set := by
  unfold varNames shape
  rw [List.map_map]
  rfl

theorem varNames_eq_of_shape (a b : RooArgSet) (h : shape a = shape b) :
    varNames a = varNames b := by
  rw [← varNames_shape a, ← varNames_shape b, h]

theorem setParameters_eq_map_shape (a c : RooArgSet)
    (hc : ∀ name ∈ varNames a, name ∈ varNames c) :
    setParameters a c
      = (shape a).map fun p =>
          match findVar c p.name with
          | some v => { p with val := v.val }
          | none => p := by
  unfold setParameters shape
  rw [List.map_map]
  apply List.map_congr_left
  intro p hp
  simp only [Function.comp]
  obtain ⟨v, hv⟩ := findVar_isSome_of_mem c p.name
    (hc _ (by unfold varNames; exact List.mem_map_of_mem _ hp))
  rw [hv]

theorem setParameters_congr_shape (a b c : RooArgSet) (h : shape a = shape b)
    (hc : ∀ name ∈ varNames a, name ∈ varNames c) :
    setParameters a c = setParameters b c := by
  rw [setParameters_eq_map_shape a c hc,
    setParameters_eq_map_shape b c (by rw [← varNames_eq_of_shape a b h]; exact hc), h]

theorem ranges_setParameters (setMe values : RooArgSet) :
    ranges (setParameters setMe values) = ranges setMe := by
  unfold ranges setParameters
  rw [List.map_map]
  apply List.map_congr_left
  intro p _
  simp only [Function.comp]
  cases findVar values p.name <;> rfl

theorem ranges_setVal (set : RooArgSet) (name : String) (x : ℚ) :
    ranges (setVal set name x) = ranges set := by
  unfold ranges setVal
  rw [List.map_map]
  apply List.map_congr_left
  intro p _
  simp only [Function.comp]
  split_ifs <;> rfl

theorem ranges_setConstant (set : RooArgSet) (name : String) (c : Bool) :
    ranges (setConstant set name c) = ranges set := by
  unfold ranges setConstant
  rw [List.map_map]
  apply List.map_congr_left
  intro p _
  simp only [Function.comp]
  split_ifs <;> rfl

theorem Fitter.fit_ranges (cfg : PluginConfig) (f : Fitter) (w : RooWorkspace) :
    ranges (f.fit cfg w).2.pars = ranges w.pars := by
  unfold Fitter.fit ranges
  simp only []
  rw [List.map_map]
  apply List.map_congr_left
  intro p _
  simp only [Function.comp]
  split_ifs
  · rfl
  · cases findVar _ p.name <;> rfl

theorem scanFit_ranges (cfg : PluginConfig) (sp : ℚ) (c : FitResultCache) (f : Fitter)
    (w : RooWorkspace) : ranges (scanFit cfg sp c f w).2.pars = ranges w.pars := by
  unfold scanFit
  simp only []
  split_ifs
  · rw [Fitter.fit_ranges, Fitter.fit_ranges]
    show ranges (setConstant (setVal w.pars _ _) _ _) = _
    rw [ranges_setConstant, ranges_setVal]
  · rw [Fitter.fit_ranges]
    show ranges (setConstant (setVal w.pars _ _) _ _) = _
    rw [ranges_setConstant, ranges_setVal]

theorem freeFit_ranges (cfg : PluginConfig) (f : Fitter) (w : RooWorkspace) :
    ranges (freeFit cfg f w).2.pars = ranges w.pars := by
  unfold freeFit
  simp only []
  split_ifs
  · rw [Fitter.fit_ranges, Fitter.fit_ranges]
    show ranges (setConstant w.pars _ _) = _
    rw [ranges_setConstant]
  · rw [Fitter.fit_ranges]
    show ranges (setConstant w.pars _ _) = _
    rw [ranges_setConstant]

theorem freed_ranges (cfg : PluginConfig) (sp : ℚ) (x : ToyLoopState) (toyData : RooArgSet) :
    ranges (freed cfg sp x toyData).2.pars = ranges x.st.w.pars := by
  unfold freed scanned
  rw [freeFit_ranges, scanFit_ranges]

theorem freed_obs (cfg : PluginConfig) (sp : ℚ) (x : ToyLoopState) (toyData : RooArgSet) :
    (freed cfg sp x toyData).2.obs = setParameters x.st.w.obs toyData := by
  unfold freed scanned
  rw [freeFit_obs, scanFit_obs]

theorem findVar_ranges (a b : RooArgSet) (name : String) (h : ranges a = ranges b) :
    (findVar a name).map (fun v => (v.min, v.max))
      = (findVar b name).map (fun v => (v.min, v.max)) := by
  unfold findVar
  induction a generalizing b with
  | nil =>
    cases b with
    | nil => rfl
    | cons q b => cases h
  | cons p a ih =>
    cases b with
    | nil => cases h
    | cons q b =>
      unfold ranges at h
      rw [List.map_cons, List.map_cons, List.cons.injEq] at h
      obtain ⟨hpq, hab⟩ := h
      rw [Prod.mk.injEq, Prod.mk.injEq] at hpq
      rw [List.find?_cons, List.find?_cons, ← hpq.1]
      cases hp : (p.name == name)
      · exact ih b hab
      · simp only [Option.map_some']
        rw [hpq.2.1, hpq.2.2]

theorem toyLoop_append (cfg : PluginConfig) (sp : ℚ) (ds : RooDataSet) :
    ∀ (a b : List Nat) (x : ToyLoopState),
      toyLoop cfg sp ds (a ++ b) x = (toyLoop cfg sp ds a x).bind (toyLoop cfg sp ds b) := by
  intro a
  induction a with
  | nil => intro b x; rfl
  | cons j a ih =>
    intro b x
    rw [List.cons_append, toyLoop, toyLoop]
    cases toyStep cfg sp ds x j with
    | none => rfl
    | some y => exact ih b y

theorem findVar_mem (set : RooArgSet) (name : String) (v : RooRealVar)
    (h : findVar set name = some v) : v ∈ set := by
  unfold findVar at h
  exact List.mem_of_find?_eq_some h

theorem heldAt_setConstant_setVal (set : RooArgSet) (name : String) (x : ℚ) :
    HeldAt (setConstant (setVal set name x) name true) name x := by
  intro p hp hname
  unfold setConstant setVal at hp
  rw [List.map_map] at hp
  obtain ⟨q, _, rfl⟩ := List.mem_map.mp hp
  simp only [Function.comp] at hname ⊢
  by_cases hq : (q.name == name) = true
  · simp [hq]
  · have hq' : (q.name == name) = false := by simpa using hq
    simp only [hq', Bool.false_eq_true, if_false] at hname ⊢
    rw [hname] at hq'
    simp at hq'

theorem Fitter.fit_heldAt (cfg : PluginConfig) (f : Fitter) (w : RooWorkspace) (name : String)
    (x : ℚ) (h : HeldAt w.pars name x) : HeldAt (f.fit cfg w).2.pars name x := by
  intro p hp hname
  unfold Fitter.fit at hp
  simp only [] at hp
  obtain ⟨q, hq, rfl⟩ := List.mem_map.mp hp
  by_cases hc : q.isConstant = true
  · rw [if_pos hc] at hname ⊢
    exact h q hq hname
  · have hc' : q.isConstant = false := by simpa using hc
    have hqn : q.name = name := by
      simp only [hc', Bool.false_eq_true, if_false] at hname
      cases hfv : findVar (cfg.minimize f.calls.length
          { pars := w.pars, obs := w.obs, startparsFirstFit := f.startparsFirstFit,
            startparsSecondFit := f.startparsSecondFit }).pars q.name with
      | none => rw [hfv] at hname; exact hname
      | some v => rw [hfv] at hname; exact hname
    have := (h q hq hqn).2
    rw [hc'] at this
    cases this

theorem scanFit_heldAt (cfg : PluginConfig) (sp : ℚ) (c : FitResultCache) (f : Fitter)
    (w : RooWorkspace) : HeldAt (scanFit cfg sp c f w).2.pars cfg.scanVar1 sp := by
  unfold scanFit
  simp only []
  split_ifs
  · apply Fitter.fit_heldAt
    apply Fitter.fit_heldAt
    exact heldAt_setConstant_setVal _ _ _
  · apply Fitter.fit_heldAt
    exact heldAt_setConstant_setVal _ _ _

theorem toyStep_defined_eq (cfg : PluginConfig) (sp : ℚ) (ds : RooDataSet) (x : ToyLoopState)
    (j : Nat) (hj : j < ds.entries.length) (hv : cfg.scanVar1 ∈ varNames x.st.w.pars) :
    ∃ toyData best, ds.get j = some toyData
      ∧ findVar (freed cfg sp x toyData).2.pars cfg.scanVar1 = some best
      ∧ toyStep cfg sp ds x j = some (stepped cfg sp x toyData best.val) := by
  obtain ⟨toyData, hget⟩ : ∃ td, ds.get j = some td := by
    unfold RooDataSet.get
    exact ⟨_, List.getElem?_eq_getElem hj⟩
  obtain ⟨best, hbest⟩ := findVar_isSome_of_mem (freed cfg sp x toyData).2.pars cfg.scanVar1
    (by rw [freed_varNames]; exact hv)
  exact ⟨toyData, best, hget, hbest, toyStep_eq cfg sp ds x j toyData best hget hbest⟩

theorem toyRecord_parsScan (cfg : PluginConfig) (sp : ℚ) (x : ToyLoopState)
    (toyData : RooArgSet) (scanbest : ℚ) (hv : cfg.scanVar1 ∈ varNames x.st.w.pars) :
    ∃ p, findVar (toyRecord cfg sp x toyData scanbest).parsScan cfg.scanVar1 = some p
      ∧ p.val = sp ∧ p.isConstant = true := by
  show ∃ p, findVar (scanned cfg sp x toyData).2.pars cfg.scanVar1 = some p ∧ _
  obtain ⟨p, hp⟩ := findVar_isSome_of_mem (scanned cfg sp x toyData).2.pars cfg.scanVar1
    (by unfold scanned; rw [scanFit_varNames]; exact hv)
  have hheld := scanFit_heldAt cfg sp x.frCache x.st.f
    { x.st.w with obs := setParameters x.st.w.obs toyData }
  have := hheld p (findVar_mem _ _ _ hp) (findVar_name _ _ _ hp)
  exact ⟨p, hp, this.1, this.2⟩

theorem toyLoop_spec (cfg : PluginConfig) (sp : ℚ) (ds : RooDataSet) :
    ∀ (js : List Nat) (x : ToyLoopState), (∀ j ∈ js, j < ds.entries.length) →
      cfg.scanVar1 ∈ varNames x.st.w.pars →
      ∃ y, toyLoop cfg sp ds js x = some y
        ∧ y.st.pb.nSteps = x.st.pb.nSteps + (js.length : Int)
        ∧ y.st.genCalls = x.st.genCalls
        ∧ y.frCache.parsAtFunctionCall = x.frCache.parsAtFunctionCall
        ∧ varNames y.st.w.pars = varNames x.st.w.pars
        ∧ ranges y.st.w.pars = ranges x.st.w.pars
        ∧ shape y.st.w.obs = shape x.st.w.obs
        ∧ y.st.t.branches.point = x.st.t.branches.point
        ∧ ∃ new, y.st.t.rows = x.st.t.rows ++ new ∧ new.length = js.length
            ∧ ∀ r ∈ new, r.point = x.st.t.branches.point
                ∧ ∃ p, findVar r.parsScan cfg.scanVar1 = some p ∧ p.val = sp
                    ∧ p.isConstant = true := by
  intro js
  induction js with
  | nil =>
    intro x _ _
    exact ⟨x, rfl, by simp, rfl, rfl, rfl, rfl, rfl, rfl, [], by simp, rfl, by simp⟩
  | cons j js ih =>
    intro x hjs hv
    obtain ⟨toyData, best, _, _, hstep⟩ := toyStep_defined_eq cfg sp ds x j
      (hjs j (List.mem_cons_self _ _)) hv
    obtain ⟨y, hy, h1, h2, h3, h4, h4r, h4s, h5, new, h6, h7, h8⟩ :=
      ih (stepped cfg sp x toyData best.val)
        (fun k hk => hjs k (List.mem_cons_of_mem _ hk))
        (show cfg.scanVar1 ∈ varNames (freed cfg sp x toyData).2.pars by
          rw [freed_varNames]; exact hv)
    refine ⟨y, ?_, ?_, ?_, ?_, ?_, ?_, ?_, ?_, toyRecord cfg sp x toyData best.val :: new,
      ?_, ?_, ?_⟩
    · rw [toyLoop, hstep]
      exact hy
    · rw [h1]
      show x.st.pb.nSteps + 1 + (js.length : Int) = _
      rw [List.length_cons]
      push_cast
      ring
    · rw [h2]
      rfl
    · rw [h3]
      show (if _ then _ else x.frCache).parsAtFunctionCall = _
      split_ifs <;> rfl
    · rw [h4]
      exact freed_varNames cfg sp x toyData
    · rw [h4r]
      exact freed_ranges cfg sp x toyData
    · rw [h4s]
      show shape (freed cfg sp x toyData).2.obs = _
      rw [freed_obs, shape_setParameters]
    · rw [h5]
      rfl
    · rw [h6]
      show x.st.t.rows ++ [_] ++ new = _
      rw [List.append_assoc]
      rfl
    · rw [List.length_cons, List.length_cons, h7]
    · intro r hr
      rcases List.mem_cons.mp hr with rfl | hr
      · exact ⟨rfl, toyRecord_parsScan cfg sp x toyData best.val hv⟩
      · exact h8 r hr

theorem toyLoop_range_rows (cfg : PluginConfig) (sp : ℚ) (ds : RooDataSet) (x : ToyLoopState)
    (hv : cfg.scanVar1 ∈ varNames x.st.w.pars) :
    ∀ n : Nat, n ≤ ds.entries.length →
      ∃ y new, toyLoop cfg sp ds (List.range n) x = some y
        ∧ y.st.t.rows = x.st.t.rows ++ new ∧ new.length = n
        ∧ ∀ j, j < n → ∃ xj toyData best,
            toyLoop cfg sp ds (List.range j) x = some xj
            ∧ ds.get j = some toyData
            ∧ findVar (freed cfg sp xj toyData).2.pars cfg.scanVar1 = some best
            ∧ shape xj.st.w.obs = shape x.st.w.obs
            ∧ new[j]? = some (toyRecord cfg sp xj toyData best.val) := by
  intro n
  induction n with
  | zero =>
    intro _
    exact ⟨x, [], rfl, by simp, rfl, fun j hj => absurd hj (Nat.not_lt_zero j)⟩
  | succ n ih =>
    intro hn
    obtain ⟨y, new, hy, hrows, hlen, hidx⟩ := ih (by omega)
    obtain ⟨y', hy', _, _, _, hyv, _, hys, _, _⟩ := toyLoop_spec cfg sp ds (List.range n) x
      (fun j hj => by have := List.mem_range.mp hj; omega) hv
    rw [hy] at hy'
    cases hy'
    obtain ⟨toyData, best, hget, hbest, hstep⟩ := toyStep_defined_eq cfg sp ds y n
      (by omega) (by rw [hyv]; exact hv)
    refine ⟨stepped cfg sp y toyData best.val, new ++ [toyRecord cfg sp y toyData best.val],
      ?_, ?_, ?_, ?_⟩
    · rw [List.range_succ, toyLoop_append, hy]
      show toyLoop cfg sp ds [n] y = _
      rw [toyLoop, hstep]
      rfl
    · show y.st.t.rows ++ [_] = _
      rw [hrows, List.append_assoc]
    · rw [List.length_append, hlen]
      rfl
    · intro j hj
      by_cases hjn : j < n
      · obtain ⟨xj, td, b, h1, h2, h3, h4, h5⟩ := hidx j hjn
        refine ⟨xj, td, b, h1, h2, h3, h4, ?_⟩
        rw [List.getElem?_append_left (by rw [hlen]; exact hjn)]
        exact h5
      · have hjeq : j = n := by omega
        subst hjeq
        refine ⟨y, toyData, best, hy, hget, hbest, hys, ?_⟩
        rw [List.getElem?_append_right (by rw [hlen]), hlen, Nat.sub_self]
        rfl

theorem mem_varNames_setParameters (setMe values : RooArgSet) (name : String)
    (h : name ∈ varNames setMe) : name ∈ varNames (setParameters setMe values) := by
  rw [varNames_setParameters]
  exact h

theorem computePvalue1d_eq (cfg : PluginConfig) (plhScan : RooSlimFitResult)
    (chi2minGlobal : ℚ) (id : Int) (st : ScanState)
    (h : CallDefined cfg plhScan chi2minGlobal st) :
    ∃ (stored par : RooRealVar) (g : Generated) (k : Nat) (x : ToyLoopState),
      findVar (plhScan.floatParsFinal ++ plhScan.constPars) cfg.scanVar1 = some stored
      ∧ par.val = stored.val
      ∧ generateToys cfg { pars := pointPars cfg plhScan st, obs := st.w.obs } st.genCalls
          (actualToys cfg plhScan.minNll chi2minGlobal) = some g
      ∧ g.dataset = generate cfg k g.w (actualToys cfg plhScan.minNll chi2minGlobal)
      ∧ g.w.obs = st.w.obs
      ∧ varNames g.w.pars = varNames st.w.pars
      ∧ (∃ rest, g.genCalls
            = st.genCalls ++ { pars := pointPars cfg plhScan st,
                               nEvents := actualToys cfg plhScan.minNll chi2minGlobal } :: rest
          ∧ rest.length ≤ 1)
      ∧ toyLoop cfg par.val g.dataset
          (List.range (actualToys cfg plhScan.minNll chi2minGlobal).toNat)
          (loopEntry cfg plhScan chi2minGlobal id st par.val g) = some x
      ∧ computePvalue1d cfg plhScan chi2minGlobal id st = some (cleanedUp cfg x) := by
  obtain ⟨hplh, hw, hn, hk⟩ := h
  obtain ⟨stored, hstored⟩ := findVar_isSome_of_mem _ _ hplh
  obtain ⟨par, hpar⟩ := findVar_isSome_of_mem
    (setParameters st.w.pars (plhScan.floatParsFinal ++ plhScan.constPars)) cfg.scanVar1
    (mem_varNames_setParameters _ _ _ hw)
  have hval := findVar_setParameters _ _ _ _ _ hpar hstored
  have hpp : varNames (pointPars cfg plhScan st) = varNames st.w.pars := by
    unfold pointPars
    rw [varNames_setConstant, varNames_setParameters]
  obtain ⟨g, k, hg, hds, hgobs, hgv, hcalls⟩ := generateToys_defined cfg
    { pars := pointPars cfg plhScan st, obs := st.w.obs } st.genCalls
    (actualToys cfg plhScan.minNll chi2minGlobal) hn
    (by
      rcases hk with hk | hk
      · exact Or.inl hk
      · exact Or.inr (by rw [hpp]; exact hk))
  have hlen : g.dataset.entries.length
      = (actualToys cfg plhScan.minNll chi2minGlobal).toNat := by
    rw [hds, generate_length]
  obtain ⟨x, hx, _⟩ := toyLoop_spec cfg par.val g.dataset
    (List.range (actualToys cfg plhScan.minNll chi2minGlobal).toNat)
    (loopEntry cfg plhScan chi2minGlobal id st par.val g)
    (fun j hj => by rw [hlen]; exact List.mem_range.mp hj)
    (show cfg.scanVar1 ∈ varNames g.w.pars by rw [hgv, hpp]; exact hw)
  refine ⟨stored, par, g, k, x, hstored, hval, hg, hds, hgobs, ?_, hcalls, hx, ?_⟩
  · rw [hgv, hpp]
  · unfold computePvalue1d
    rw [hstored]
    simp only []
    rw [hpar]
    simp only []
    have hg' : generateToys cfg
        { pars := setConstant
            (setParameters st.w.pars (plhScan.floatParsFinal ++ plhScan.constPars))
            cfg.scanVar1 true, obs := st.w.obs } st.genCalls
        (actualToys cfg plhScan.minNll chi2minGlobal) = some g := hg
    rw [hg']
    simp only []
    erw [hx]
    rfl

theorem generateToys_ranges (cfg : PluginConfig) (w : RooWorkspace) (genCalls : List GenCall)
    (n : Int) (g : Generated) (h : generateToys cfg w genCalls n = some g) :
    ranges g.w.pars = ranges w.pars := by
  unfold generateToys at h
  simp only [] at h
  repeat' split at h
  all_goals first
    | (cases h; done)
    | (cases h; rfl)
    | (cases h
       show ranges (setVal (setVal w.pars _ _) _ _) = _
       rw [ranges_setVal, ranges_setVal])

theorem forall_obs_iff_varNames (set : RooArgSet) (P : String → Prop) :
    (∀ o ∈ set, P o.name) ↔ ∀ name ∈ varNames set, P name := by
  unfold varNames
  simp only [List.mem_map, forall_exists_index, and_imp, forall_apply_eq_imp_iff₂]

theorem ranges_pointPars (cfg : PluginConfig) (plhScan : RooSlimFitResult) (st : ScanState) :
    ranges (pointPars cfg plhScan st) = ranges st.w.pars := by
  unfold pointPars
  rw [ranges_setConstant, ranges_setParameters]

theorem heldAt_pointPars (cfg : PluginConfig) (plhScan : RooSlimFitResult) (st : ScanState)
    (stored : RooRealVar)
    (hs : findVar (plhScan.floatParsFinal ++ plhScan.constPars) cfg.scanVar1 = some stored) :
    HeldAt (pointPars cfg plhScan st) cfg.scanVar1 stored.val := by
  intro p hp hname
  unfold pointPars setConstant setParameters at hp
  rw [List.map_map] at hp
  obtain ⟨q, _, rfl⟩ := List.mem_map.mp hp
  simp only [Function.comp] at hname ⊢
  have hq : ∀ r : RooRealVar,
      (match findVar (plhScan.floatParsFinal ++ plhScan.constPars) q.name with
        | some v => ({ q with val := v.val } : RooRealVar)
        | none => q) = r → r.name = q.name := by
    intro r hr
    rw [← hr]
    cases findVar (plhScan.floatParsFinal ++ plhScan.constPars) q.name <;> rfl
  have hqn : q.name = cfg.scanVar1 := by
    have h1 := hq _ rfl
    split_ifs at hname with hc
    · rw [← h1]
      simpa using hc
    · rw [← h1]
      exact hname
  rw [hqn, hs]
  simp

/-- What `computePvalue1d` does to the scan state, for a call that meets no failed
`assert` and no null pointer. -/
theorem computePvalue1d_summary (cfg : PluginConfig) (plhScan : RooSlimFitResult)
    (chi2minGlobal : ℚ) (id : Int) (st : ScanState)
    (h : CallDefined cfg plhScan chi2minGlobal st) :
    ∃ (stored : RooRealVar) (st' : ScanState),
      findVar (plhScan.floatParsFinal ++ plhScan.constPars) cfg.scanVar1 = some stored
      ∧ computePvalue1d cfg plhScan chi2minGlobal id st = some st'
      ∧ varNames st'.w.pars = varNames st.w.pars
      ∧ ranges st'.w.pars = ranges st.w.pars
      ∧ shape st'.w.obs = shape st.w.obs
      ∧ st'.pb.nSteps = st.pb.nSteps + cfg.nToys
      ∧ (∃ rest, st'.genCalls
            = st.genCalls ++ { pars := pointPars cfg plhScan st,
                               nEvents := actualToys cfg plhScan.minNll chi2minGlobal } :: rest
          ∧ rest.length ≤ 1)
      ∧ ∃ new, st'.t.rows = st.t.rows ++ new
          ∧ new.length = (actualToys cfg plhScan.minNll chi2minGlobal).toNat
          ∧ ∀ r ∈ new,
              r.point = (stored.val, (id : ℚ), plhScan.minNll, chi2minGlobal,
                pointPars cfg plhScan st)
              ∧ ∃ p, findVar r.parsScan cfg.scanVar1 = some p ∧ p.val = stored.val
                  ∧ p.isConstant = true := by
  obtain ⟨stored, par, g, k, x, hstored, hval, hg, hds, hgobs, hgv, hcalls, hx, hres⟩ :=
    computePvalue1d_eq cfg plhScan chi2minGlobal id st h
  obtain ⟨_, hw, hn, _⟩ := h
  have hlen : g.dataset.entries.length
      = (actualToys cfg plhScan.minNll chi2minGlobal).toNat := by
    rw [hds, generate_length]
  obtain ⟨y, hy, h1, h2, _, h4, h4r, h4s, _, new, h6, h7, h8⟩ :=
    toyLoop_spec cfg par.val g.dataset
      (List.range (actualToys cfg plhScan.minNll chi2minGlobal).toNat)
      (loopEntry cfg plhScan chi2minGlobal id st par.val g)
      (fun j hj => by rw [hlen]; exact List.mem_range.mp hj)
      (show cfg.scanVar1 ∈ varNames g.w.pars by rw [hgv]; exact hw)
  rw [hx] at hy
  cases hy
  refine ⟨stored, cleanedUp cfg x, hstored, hres, ?_, ?_, ?_, ?_, ?_, new, h6, ?_, ?_⟩
  · show varNames (setParameters x.st.w.pars _) = _
    rw [varNames_setParameters, h4]
    exact hgv
  · show ranges (setParameters x.st.w.pars _) = _
    rw [ranges_setParameters, h4r]
    show ranges g.w.pars = _
    rw [generateToys_ranges cfg _ _ _ g hg]
    exact ranges_pointPars cfg plhScan st
  · show shape (setParameters x.st.w.obs _) = _
    rw [shape_setParameters, h4s]
    show shape g.w.obs = _
    rw [hgobs]
  · show x.st.pb.nSteps = _
    rw [h1, List.length_range]
    show (if cfg.importance then
        st.pb.skipSteps (cfg.nToys - actualToys cfg plhScan.minNll chi2minGlobal)
      else st.pb).nSteps + _ = _
    have hnat : (((actualToys cfg plhScan.minNll chi2minGlobal).toNat : Nat) : Int)
        = actualToys cfg plhScan.minNll chi2minGlobal := Int.toNat_of_nonneg (by omega)
    rw [hnat]
    by_cases hi : cfg.importance = true
    · rw [if_pos hi]
      show st.pb.nSteps + (cfg.nToys - actualToys cfg plhScan.minNll chi2minGlobal) + _ = _
      ring
    · rw [if_neg hi]
      have : actualToys cfg plhScan.minNll chi2minGlobal = cfg.nToys := by
        unfold actualToys
        rw [if_neg hi]
      rw [this]
  · show ∃ rest, x.st.genCalls = _ ∧ _
    rw [h2]
    exact hcalls
  · rw [h7, List.length_range]
  · intro r hr
    obtain ⟨hp, q, hq1, hq2, hq3⟩ := h8 r hr
    refine ⟨?_, q, hq1, by rw [hq2, hval], hq3⟩
    rw [hp]
    show (par.val, _, _, _, _) = _
    rw [hval]
    rfl

/-! ### The claims on `computePvalue1d` -/

theorem importance_mem_unit (p : ℚ) : 0 ≤ importance p ∧ importance p ≤ 1 := by
  unfold importance
  simp only []
  split_ifs with h1 h2 h3
  · exact ⟨le_refl _, by norm_num⟩
  · exact ⟨by norm_num, le_refl _⟩
  · exact ⟨by norm_num, by norm_num⟩
  · constructor
    · have : (5 : ℚ) / 100 ≤ (1 - p) / p / 30 := not_lt.mp h3
      linarith
    · exact not_lt.mp h2

theorem truncToInt_nonneg (x : ℚ) (hx : 0 ≤ x) : 0 ≤ truncToInt x := by
  unfold truncToInt
  rw [if_pos hx]
  exact Int.floor_nonneg.mpr hx

theorem truncToInt_le (x : ℚ) (n : Int) (hx : 0 ≤ x) (hn : x ≤ (n : ℚ)) :
    truncToInt x ≤ n := by
  unfold truncToInt
  rw [if_pos hx]
  have h1 : ((Int.floor x : Int) : ℚ) ≤ x := Int.floor_le x
  have h2 : ((Int.floor x : Int) : ℚ) ≤ (n : ℚ) := le_trans h1 hn
  exact_mod_cast h2

theorem actualToys_bounds (cfg : PluginConfig) (chi2min chi2minGlobal : ℚ)
    (hToys : 0 ≤ cfg.nToys) :
    0 ≤ actualToys cfg chi2min chi2minGlobal
      ∧ actualToys cfg chi2min chi2minGlobal ≤ cfg.nToys := by
  unfold actualToys
  have hq : (0 : ℚ) ≤ (cfg.nToys : ℚ) := by exact_mod_cast hToys
  obtain ⟨h0, h1⟩ := importance_mem_unit (cfg.prob (chi2min - chi2minGlobal))
  split_ifs
  · constructor
    · exact truncToInt_nonneg _ (mul_nonneg hq h0)
    · apply truncToInt_le _ _ (mul_nonneg hq h0)
      calc (cfg.nToys : ℚ) * importance (cfg.prob (chi2min - chi2minGlobal))
          ≤ (cfg.nToys : ℚ) * 1 := mul_le_mul_of_nonneg_left h1 hq
        _ = (cfg.nToys : ℚ) := mul_one _
  · exact ⟨hToys, le_refl _⟩

/-- The toy count of a call that runs through: for every call of `computePvalue1d` with
`nToys ≥ 0` that meets no failed `assert` and no null pointer (at least two toys are
drawn), the number of toys drawn is the truncation of
`nToys * importance(p)` under importance sampling and `nToys` otherwise, it lies between
`0` and `nToys`, the call returns, the progress counter has advanced by exactly `nToys`
and as many rows were appended as toys were drawn. -/
theorem computePvalue1d_toy_count (cfg : PluginConfig) (plhScan : RooSlimFitResult)
    (chi2minGlobal : ℚ) (id : Int) (st : ScanState) (hToys : 0 ≤ cfg.nToys)
    (h : CallDefined cfg plhScan chi2minGlobal st) :
    actualToys cfg plhScan.minNll chi2minGlobal
        = (if cfg.importance then
            truncToInt
              ((cfg.nToys : ℚ) * importance (cfg.prob (plhScan.minNll - chi2minGlobal)))
          else cfg.nToys)
      ∧ 0 ≤ actualToys cfg plhScan.minNll chi2minGlobal
      ∧ actualToys cfg plhScan.minNll chi2minGlobal ≤ cfg.nToys
      ∧ ∃ st', computePvalue1d cfg plhScan chi2minGlobal id st = some st'
          ∧ st'.pb.nSteps
              = st.pb.nSteps + (cfg.nToys - actualToys cfg plhScan.minNll chi2minGlobal)
                + actualToys cfg plhScan.minNll chi2minGlobal
          ∧ st'.pb.nSteps = st.pb.nSteps + cfg.nToys
          ∧ ∃ new, st'.t.rows = st.t.rows ++ new
              ∧ (new.length : Int) = actualToys cfg plhScan.minNll chi2minGlobal := by
  obtain ⟨hlo, hhi⟩ := actualToys_bounds cfg plhScan.minNll chi2minGlobal hToys
  obtain ⟨_, st', _, hres, _, _, _, hpb, _, new, hrows, hlen, _⟩ :=
    computePvalue1d_summary cfg plhScan chi2minGlobal id st h
  refine ⟨rfl, hlo, hhi, st', hres, ?_, hpb, new, hrows, ?_⟩
  · rw [hpb]
    ring
  · rw [hlen]
    exact Int.toNat_of_nonneg hlo

/-- An instance of the toy count: with one hundred toys configured and an expected
p-value of `1/2`, five toys are drawn, five rows are appended and the progress counter
stands at one hundred. -/
theorem computePvalue1d_toy_count_witness :
    actualToys importanceToys storedResult.minNll 0 = 5
      ∧ ∃ st', computePvalue1d importanceToys storedResult 0 0 (startState false) = some st'
          ∧ st'.pb.nSteps = 100
          ∧ ∃ new, st'.t.rows = new ∧ (new.length : Int) = 5 := by
  have h5 : actualToys importanceToys storedResult.minNll 0 = 5 := by
    norm_num [actualToys, importanceToys, twoToys, storedResult, importance, truncToInt]
  have hdef : CallDefined importanceToys storedResult 0 (startState false) := by
    refine ⟨by decide, by decide, ?_, Or.inl (by decide)⟩
    rw [h5]
    decide
  obtain ⟨_, _, _, st', hres, _, hpb, new, hrows, hlen⟩ :=
    computePvalue1d_toy_count importanceToys storedResult 0 0 (startState false)
      (by decide) hdef
  refine ⟨h5, st', hres, ?_, new, ?_, ?_⟩
  · rw [hpb]
    rfl
  · rw [hrows]
    rfl
  · rw [hlen, h5]
/-- C15: for every toy that the loop of `computePvalue1d` processes, in every loop
state: the status stored as `statusFree` is the status of the last optimizer call of the
toy, the free fit; the parameters after the free fit become the most recent slot of the
round-robin cache when that status is `0`, and the cache is left exactly as it was
otherwise, whatever the status of the scan fit. -/
theorem toyStep_roundRobin (cfg : PluginConfig) (scanpoint : ℚ) (toyDataSet : RooDataSet)
    (x : ToyLoopState) (j : Nat) (hj : j < toyDataSet.entries.length)
    (hv : cfg.scanVar1 ∈ varNames x.st.w.pars) :
    ∃ y, toyStep cfg scanpoint toyDataSet x j = some y
      ∧ (∃ out, y.st.f.lastOutcome cfg = some out
          ∧ y.st.t.branches.statusFree = (out.status : ℚ))
      ∧ y.st.t.branches.parsFree = y.st.w.pars
      ∧ (y.st.t.branches.statusFree = 0 →
          y.frCache = x.frCache.storeParsRoundRobin y.st.t.branches.parsFree)
      ∧ (y.st.t.branches.statusFree ≠ 0 → y.frCache = x.frCache) := by
  obtain ⟨toyData, best, _, _, hstep⟩ :=
    toyStep_defined_eq cfg scanpoint toyDataSet x j hj hv
  refine ⟨_, hstep, ?_, rfl, ?_, ?_⟩
  · obtain ⟨out, ho, hs, _⟩ := freeFit_lastOutcome cfg (scanned cfg scanpoint x toyData).1
      (scanned cfg scanpoint x toyData).2
    refine ⟨out, ho, ?_⟩
    show (((freed cfg scanpoint x toyData).1.status : Int) : ℚ) = _
    unfold freed
    rw [hs]
  · intro h0
    have h0' : ((freed cfg scanpoint x toyData).1.status : ℚ) = 0 := h0
    show (if ((freed cfg scanpoint x toyData).1.status : ℚ) = 0 then _ else _) = _
    rw [if_pos h0']
    rfl
  · intro h0
    have h0' : ¬ ((freed cfg scanpoint x toyData).1.status : ℚ) = 0 := h0
    show (if ((freed cfg scanpoint x toyData).1.status : ℚ) = 0 then _ else _) = _
    rw [if_neg h0']

/-- The witness of C15: with an optimizer whose first scan fit fails twice and whose free
fit converges, the first toy of the batch pushes the parameters after its free fit into
the cache. -/
theorem toyStep_roundRobin_witness :
    ∃ y, toyStep failingFirst (1 / 2) twoToyBatch startLoopState 0 = some y
      ∧ y.st.t.branches.statusScan = 1
      ∧ y.st.t.branches.statusFree = 0
      ∧ y.frCache = startLoopState.frCache.storeParsRoundRobin y.st.w.pars := by
  obtain ⟨y, hy, _, hpars, hpush, _⟩ :=
    toyStep_roundRobin failingFirst (1 / 2) twoToyBatch startLoopState 0 (by decide)
      (by decide)
  have hy' : toyStep failingFirst (1 / 2) twoToyBatch startLoopState 0
      = some (stepped failingFirst (1 / 2) startLoopState
          [{ name := "obs", val := 0, isConstant := false, min := 0, max := 10 }]
          (1 / 2)) := by
    rfl
  rw [hy'] at hy
  cases hy
  have hfree : (stepped failingFirst (1 / 2) startLoopState
      [{ name := "obs", val := 0, isConstant := false, min := 0, max := 10 }]
        (1 / 2)).st.t.branches.statusFree = 0 := by
    show (((freed failingFirst (1 / 2) startLoopState _).1.status : Int) : ℚ) = 0
    have : (freed failingFirst (1 / 2) startLoopState
      [{ name := "obs", val := 0, isConstant := false, min := 0, max := 10 }]).1.status = 0 := by
      rfl
    rw [this]
    rfl
  refine ⟨_, hy', ?_, hfree, ?_⟩
  · show (((scanned failingFirst (1 / 2) startLoopState _).1.status : Int) : ℚ) = 1
    have : (scanned failingFirst (1 / 2) startLoopState
      [{ name := "obs", val := 0, isConstant := false, min := 0, max := 10 }]).1.status = 1 := by
      rfl
    rw [this]
    rfl
  · rw [hpush hfree, hpars]
/-- C16: for every call of `computePvalue1d` that meets no failed `assert` and no null
pointer, whatever the optimizer returns: the call returns and has appended exactly one
row per toy drawn, in the order of the toys; row `j` holds the observables loaded from
toy `j` of the batch and, as status codes and test statistics, those of the last
optimizer call of the scan fit and of the free fit of toy `j`, made from the state in
which the loop reached toy `j`. -/
theorem computePvalue1d_rows (cfg : PluginConfig) (plhScan : RooSlimFitResult)
    (chi2minGlobal : ℚ) (id : Int) (st : ScanState)
    (h : CallDefined cfg plhScan chi2minGlobal st) :
    ∃ (st' : ScanState) (sp : ℚ) (g : Generated) (new : List ToyRecord),
      computePvalue1d cfg plhScan chi2minGlobal id st = some st'
      ∧ generateToys cfg { pars := pointPars cfg plhScan st, obs := st.w.obs } st.genCalls
          (actualToys cfg plhScan.minNll chi2minGlobal) = some g
      ∧ st'.t.rows = st.t.rows ++ new
      ∧ new.length = (actualToys cfg plhScan.minNll chi2minGlobal).toNat
      ∧ ∀ j, j < (actualToys cfg plhScan.minNll chi2minGlobal).toNat →
          ∃ (xj : ToyLoopState) (toyData : RooArgSet) (row : ToyRecord),
            toyLoop cfg sp g.dataset (List.range j)
                (loopEntry cfg plhScan chi2minGlobal id st sp g) = some xj
            ∧ g.dataset.get j = some toyData
            ∧ new[j]? = some row
            ∧ row.observables = setParameters st.w.obs toyData
            ∧ (∃ out, (scanned cfg sp xj toyData).1.lastOutcome cfg = some out
                ∧ row.statusScan = (out.status : ℚ) ∧ row.chi2minToy = out.chi2)
            ∧ (∃ out, (freed cfg sp xj toyData).1.lastOutcome cfg = some out
                ∧ row.statusFree = (out.status : ℚ) ∧ row.chi2minGlobalToy = out.chi2) := by
  obtain ⟨stored, par, g, k, x, _, _, hg, hds, hgobs, hgv, _, hx, hres⟩ :=
    computePvalue1d_eq cfg plhScan chi2minGlobal id st h
  obtain ⟨_, hw, _, _⟩ := h
  have hlen : g.dataset.entries.length
      = (actualToys cfg plhScan.minNll chi2minGlobal).toNat := by
    rw [hds, generate_length]
  obtain ⟨y, new, hy, hrows, hnew, hidx⟩ := toyLoop_range_rows cfg par.val g.dataset
    (loopEntry cfg plhScan chi2minGlobal id st par.val g)
    (show cfg.scanVar1 ∈ varNames g.w.pars by rw [hgv]; exact hw)
    (actualToys cfg plhScan.minNll chi2minGlobal).toNat (by rw [hlen])
  rw [hx] at hy
  cases hy
  refine ⟨cleanedUp cfg x, par.val, g, new, hres, hg, hrows, hnew, ?_⟩
  intro j hj
  obtain ⟨xj, toyData, best, h1, h2, _, h4, h5⟩ := hidx j hj
  refine ⟨xj, toyData, toyRecord cfg par.val xj toyData best.val, h1, h2, h5, ?_, ?_, ?_⟩
  · show setParameters xj.st.w.obs toyData = _
    have hshape : shape xj.st.w.obs = shape st.w.obs := by
      rw [h4]
      show shape g.w.obs = _
      rw [hgobs]
    apply setParameters_congr_shape _ _ _ hshape
    have htoy : toyData
        = toyOf cfg k g.w (actualToys cfg plhScan.minNll chi2minGlobal) j := by
      rw [hds, generate_get, if_pos hj] at h2
      cases h2
      rfl
    rw [htoy, varNames_toyOf, hgobs, varNames_eq_of_shape _ _ hshape]
    exact fun _ hn => hn
  · obtain ⟨out, ho, hs, hc⟩ := scanFit_lastOutcome cfg par.val xj.frCache xj.st.f
      { xj.st.w with obs := setParameters xj.st.w.obs toyData }
    refine ⟨out, ho, ?_, hc⟩
    show (((scanned cfg par.val xj toyData).1.status : Int) : ℚ) = _
    unfold scanned
    rw [hs]
  · obtain ⟨out, ho, hs, hc⟩ := freeFit_lastOutcome cfg (scanned cfg par.val xj toyData).1
      (scanned cfg par.val xj toyData).2
    refine ⟨out, ho, ?_, hc⟩
    show (((freed cfg par.val xj toyData).1.status : Int) : ℚ) = _
    unfold freed
    rw [hs]

/-- The witness of C16: with two toys and an optimizer that fails both attempts of the
first scan fit, two rows are appended, the first with scan status `1`. -/
theorem computePvalue1d_rows_witness :
    ∃ st', computePvalue1d failingFirst storedResult 0 0 (startState false) = some st'
      ∧ st'.t.rows.length = 2
      ∧ st'.t.rows.map (fun r => r.statusScan) = [1, 0] := by
  obtain ⟨st', _, _, new, hres, _, hrows, hlen, _⟩ :=
    computePvalue1d_rows failingFirst storedResult 0 0 (startState false)
      ⟨by decide, by decide, by decide, Or.inl (by decide)⟩
  have hev : (computePvalue1d failingFirst storedResult 0 0 (startState false)).map
      (fun s => s.t.rows.map (fun r => r.statusScan)) = some [1, 0] := by
    rfl
  rw [hres] at hev
  refine ⟨st', hres, ?_, Option.some.inj hev⟩
  rw [hrows, List.length_append, hlen]
  rfl
/-- C17: a call of `computePvalue1d` on a model whose scan parameter `g` is held constant
returns with the values of the parameters and of the observable as they were at the
call, but with `g` floating: the held-constant flag of the scan parameter is not set
back. -/
theorem computePvalue1d_scan_flag_not_restored :
    (startState true).w.pars.map (fun v => (v.name, v.val, v.isConstant))
        = [("g", 1, true), ("x", 2, false)]
      ∧ (computePvalue1d twoToys storedResult 0 0 (startState true)).map
          (fun s => s.w.pars.map (fun v => (v.name, v.val, v.isConstant)))
        = some [("g", 1, false), ("x", 2, false)]
      ∧ (computePvalue1d twoToys storedResult 0 0 (startState true)).map
          (fun s => s.w.obs.map (fun v => (v.name, v.val)))
        = some [("obs", 7)] := by
  refine ⟨rfl, rfl, rfl⟩

/-! ### `scan1d` -/

theorem mem_varNames_of_findVar (set : RooArgSet) (name : String) (v : RooRealVar)
    (h : findVar set name = some v) : name ∈ varNames set := by
  by_contra hn
  rw [(findVar_eq_none_iff set name).mpr hn] at h
  cases h

theorem findVar_of_ranges (a b : RooArgSet) (name : String) (par : RooRealVar)
    (h : ranges a = ranges b) (hb : findVar b name = some par) :
    ∃ par', findVar a name = some par' ∧ par'.min = par.min ∧ par'.max = par.max := by
  have := findVar_ranges a b name h
  rw [hb] at this
  cases ha : findVar a name with
  | none => rw [ha] at this; cases this
  | some par' =>
    rw [ha] at this
    simp only [Option.map_some', Option.some.injEq, Prod.mk.injEq] at this
    exact ⟨par', rfl, this.1, this.2⟩

theorem getParevolPoint_returned (scanVar1 : String) (parevolPLH : MethodProbScan)
    (scanpoint : ℚ) (p : ParevolPoint)
    (h : getParevolPoint scanVar1 parevolPLH scanpoint = some (Outcome.returned p)) :
    scanVar1 ∈ varNames (p.result.floatParsFinal ++ p.result.constPars) := by
  unfold getParevolPoint at h
  simp only [] at h
  split_ifs at h
  split at h
  · cases h
  · rename_i r _
    split at h
    · cases h
    · rename_i var hvar
      cases h
      exact mem_varNames_of_findVar _ _ var hvar

theorem scan1dStep_skipped (s : PluginScanner) (pafc : RooArgSet) (x : Scan1dState) (i : Nat)
    (par : RooRealVar) (hpar : findVar x.st.w.pars s.cfg.scanVar1 = some par)
    (hout : scanCoordinate s i < par.min ∨ scanCoordinate s i > par.max) :
    scan1dStep s pafc x i
      = some (Outcome.returned { x with st := atCoordinate x.st (scanCoordinate s i) }) := by
  unfold scan1dStep
  simp only []
  rw [hpar]
  simp only []
  rw [if_pos hout]
  rfl

theorem scan1dStep_processed (s : PluginScanner) (pafc : RooArgSet) (x : Scan1dState)
    (i : Nat) (par : RooRealVar) (p : ParevolPoint) (st' : ScanState)
    (hpar : findVar x.st.w.pars s.cfg.scanVar1 = some par)
    (hin : ¬ (scanCoordinate s i < par.min ∨ scanCoordinate s i > par.max))
    (hget : getParevolPoint s.cfg.scanVar1 s.parevolPLH (scanCoordinate s i)
      = some (Outcome.returned p))
    (hcall : computePvalue1d s.cfg p.result s.chi2minGlobal (i : Int)
      (atCoordinate x.st (scanCoordinate s i)) = some st') :
    scan1dStep s pafc x i
      = some (Outcome.returned
          { st := resetTo s pafc st'
            lookups := x.lookups ++ [scanCoordinate s i]
            warnings :=
              if p.warned then x.warnings ++ [scanCoordinate s i] else x.warnings }) := by
  unfold scan1dStep
  simp only []
  rw [hpar]
  simp only []
  rw [if_neg hin, hget]
  simp only []
  have hcall' : computePvalue1d s.cfg p.result s.chi2minGlobal (i : Int)
      { x.st with
        t := { x.st.t with
               branches := { x.st.t.branches with scanpoint := scanCoordinate s i } } }
      = some st' := hcall
  rw [hcall']
  rfl

theorem SameFrame.resetTo (s : PluginScanner) (pafc : RooArgSet) (w : RooWorkspace)
    (st : ScanState) (h : SameFrame w st) : SameFrame w (resetTo s pafc st) := by
  obtain ⟨h1, h2, h3⟩ := h
  refine ⟨?_, ?_, ?_⟩
  · show varNames (setParameters st.w.pars pafc) = _
    rw [varNames_setParameters, h1]
  · show ranges (setParameters st.w.pars pafc) = _
    rw [ranges_setParameters, h2]
  · show shape (setParameters st.w.obs s.cfg.obsDataset) = _
    rw [shape_setParameters, h3]

theorem map_id_eq_replicate (new : List ToyRecord) (n : Nat) (a : ℚ)
    (hlen : new.length = n) (hall : ∀ r ∈ new, r.id = a) :
    new.map (fun r => r.id) = List.replicate n a := by
  rw [List.eq_replicate_iff]
  refine ⟨by rw [List.length_map, hlen], ?_⟩
  intro b hb
  obtain ⟨r, hr, rfl⟩ := List.mem_map.mp hb
  exact hall r hr

theorem scan1dStep_spec (s : PluginScanner) (pafc : RooArgSet) (w : RooWorkspace)
    (par : RooRealVar) (x : Scan1dState) (i : Nat)
    (hpar : findVar w.pars s.cfg.scanVar1 = some par)
    (hk : (∀ o ∈ w.obs, containsSubstr o.name "kD_k3pi_obs" = false)
      ∨ ("kD_k3pi" ∈ varNames w.pars ∧ "dD_k3pi" ∈ varNames w.pars))
    (hpt : par.min ≤ scanCoordinate s i → scanCoordinate s i ≤ par.max →
      ∃ p, getParevolPoint s.cfg.scanVar1 s.parevolPLH (scanCoordinate s i)
          = some (Outcome.returned p)
        ∧ 2 ≤ actualToys s.cfg p.result.minNll s.chi2minGlobal)
    (hx : SameFrame w x.st) :
    ∃ y, scan1dStep s pafc x i = some (Outcome.returned y)
      ∧ SameFrame w y.st
      ∧ y.lookups = x.lookups
          ++ (if par.min ≤ scanCoordinate s i ∧ scanCoordinate s i ≤ par.max then
                [scanCoordinate s i]
              else [])
      ∧ y.st.t.rows.map (fun r => r.id) = x.st.t.rows.map (fun r => r.id)
          ++ (if par.min ≤ scanCoordinate s i ∧ scanCoordinate s i ≤ par.max then
                List.replicate (toysAt s i) (i : ℚ)
              else []) := by
  obtain ⟨hv, hr, hs⟩ := hx
  obtain ⟨par', hpar', hmin, hmax⟩ := findVar_of_ranges _ _ _ par hr hpar
  by_cases hin : par.min ≤ scanCoordinate s i ∧ scanCoordinate s i ≤ par.max
  · rw [if_pos hin, if_pos hin]
    obtain ⟨p, hget, h2⟩ := hpt hin.1 hin.2
    have hdef : CallDefined s.cfg p.result s.chi2minGlobal
        (atCoordinate x.st (scanCoordinate s i)) := by
      refine ⟨getParevolPoint_returned _ _ _ p hget, ?_, h2, ?_⟩
      · exact mem_varNames_of_findVar _ _ par' hpar'
      · show (∀ o ∈ x.st.w.obs, containsSubstr o.name "kD_k3pi_obs" = false)
          ∨ ("kD_k3pi" ∈ varNames x.st.w.pars ∧ "dD_k3pi" ∈ varNames x.st.w.pars)
        rw [hv]
        rcases hk with hk | hk
        · left
          rw [forall_obs_iff_varNames _ (fun n => containsSubstr n "kD_k3pi_obs" = false),
            varNames_eq_of_shape _ _ hs,
            ← forall_obs_iff_varNames _ (fun n => containsSubstr n "kD_k3pi_obs" = false)]
          exact hk
        · exact Or.inr hk
    obtain ⟨stored, st', _, hres, h1, h2', h3, _, _, new, hrows, hlen, hnew⟩ :=
      computePvalue1d_summary s.cfg p.result s.chi2minGlobal (i : Int)
        (atCoordinate x.st (scanCoordinate s i)) hdef
    have hin' : ¬ (scanCoordinate s i < par'.min ∨ scanCoordinate s i > par'.max) := by
      rw [hmin, hmax, not_or, not_lt, not_lt]
      exact hin
    refine ⟨_, scan1dStep_processed s pafc x i par' p st' hpar' hin' hget hres, ?_, rfl, ?_⟩
    · exact SameFrame.resetTo s pafc w st'
        ⟨by rw [h1]; exact hv, by rw [h2']; exact hr, by rw [h3]; exact hs⟩
    · show st'.t.rows.map (fun r => r.id) = _
      rw [hrows, List.map_append]
      congr 1
      have htoys : toysAt s i = (actualToys s.cfg p.result.minNll s.chi2minGlobal).toNat := by
        unfold toysAt
        rw [hget]
      rw [htoys]
      apply map_id_eq_replicate _ _ _ hlen
      intro r hr'
      have := (hnew r hr').1
      unfold ToyRecord.point at this
      simp only [Prod.mk.injEq] at this
      rw [this.2.1]
      norm_cast
  · rw [if_neg hin, if_neg hin, List.append_nil, List.append_nil]
    have hout : scanCoordinate s i < par'.min ∨ scanCoordinate s i > par'.max := by
      rw [hmin, hmax]
      by_contra hc
      rw [not_or, not_lt, not_lt] at hc
      exact hin hc
    exact ⟨_, scan1dStep_skipped s pafc x i par' hpar' hout, ⟨hv, hr, hs⟩, rfl, rfl⟩
theorem scan1dLoop_spec (s : PluginScanner) (pafc : RooArgSet) (w : RooWorkspace)
    (par : RooRealVar) (hpar : findVar w.pars s.cfg.scanVar1 = some par)
    (hk : (∀ o ∈ w.obs, containsSubstr o.name "kD_k3pi_obs" = false)
      ∨ ("kD_k3pi" ∈ varNames w.pars ∧ "dD_k3pi" ∈ varNames w.pars)) :
    ∀ (is : List Nat) (x : Scan1dState),
      (∀ i ∈ is, par.min ≤ scanCoordinate s i → scanCoordinate s i ≤ par.max →
        ∃ p, getParevolPoint s.cfg.scanVar1 s.parevolPLH (scanCoordinate s i)
            = some (Outcome.returned p)
          ∧ 2 ≤ actualToys s.cfg p.result.minNll s.chi2minGlobal) →
      SameFrame w x.st →
      ∃ y, scan1dLoop s pafc is x = some (Outcome.returned y)
        ∧ y.lookups = x.lookups
            ++ (is.map (scanCoordinate s)).filter (fun c => par.min ≤ c ∧ c ≤ par.max)
        ∧ y.st.t.rows.map (fun r => r.id) = x.st.t.rows.map (fun r => r.id)
            ++ is.flatMap (fun i =>
                if par.min ≤ scanCoordinate s i ∧ scanCoordinate s i ≤ par.max then
                  List.replicate (toysAt s i) (i : ℚ)
                else []) := by
  intro is
  induction is with
  | nil =>
    intro x _ _
    exact ⟨x, rfl, by simp, by simp⟩
  | cons i is ih =>
    intro x hpts hx
    obtain ⟨y, hy, hyf, hyl, hyr⟩ := scan1dStep_spec s pafc w par x i hpar hk
      (hpts i (List.mem_cons_self _ _)) hx
    obtain ⟨z, hz, hzl, hzr⟩ := ih y (fun k hk' => hpts k (List.mem_cons_of_mem _ hk')) hyf
    refine ⟨z, ?_, ?_, ?_⟩
    · rw [scan1dLoop, hy]
      exact hz
    · rw [hzl, hyl, List.map_cons, List.filter_cons, List.append_assoc]
      congr 1
      by_cases hin : par.min ≤ scanCoordinate s i ∧ scanCoordinate s i ≤ par.max
      · rw [if_pos hin, if_pos (by simpa using hin)]
        rfl
      · rw [if_neg hin, if_neg (by simpa using hin)]
        rfl
    · rw [hzr, hyr, List.flatMap_cons, List.append_assoc]

/-- C18: `scan1d` on a workspace that has the scan parameter, where every coordinate
inside the range of the scan parameter has an evolution point at which at least two toys
are drawn. Consecutive coordinates differ by `(max - min) / nPoints1d`; the scan returns;
the evolution lookups are, in increasing order of the index, exactly the coordinates
`c` with `par.min ≤ c ≤ par.max`; and the rows appended are, in the same order, the
toys of exactly these coordinates, marked with the index of their coordinate: a skipped
coordinate has no lookup and no row. -/
theorem scan1d_grid (s : PluginScanner) (nRun : Int) (w : RooWorkspace) (t : ToyStore)
    (par : RooRealVar)
    (hpar : findVar (s.loadParameterLimits w.pars) s.cfg.scanVar1 = some par)
    (hk : (∀ o ∈ w.obs, containsSubstr o.name "kD_k3pi_obs" = false)
      ∨ ("kD_k3pi" ∈ varNames (s.loadParameterLimits w.pars)
          ∧ "dD_k3pi" ∈ varNames (s.loadParameterLimits w.pars)))
    (hpts : ∀ i : Nat, (i : Int) < s.nPoints1d →
      par.min ≤ scanCoordinate s i → scanCoordinate s i ≤ par.max →
      ∃ p, getParevolPoint s.cfg.scanVar1 s.parevolPLH (scanCoordinate s i)
          = some (Outcome.returned p)
        ∧ 2 ≤ actualToys s.cfg p.result.minNll s.chi2minGlobal) :
    (∀ i : Nat, ((i : Int) + 1 < s.nPoints1d) →
        scanCoordinate s i
            = s.hCL.fXmin + (s.hCL.fXmax - s.hCL.fXmin) * (i : ℚ) / (s.nPoints1d : ℚ)
              + s.hCL.GetBinWidth 1 / 2
          ∧ scanCoordinate s (i + 1) - scanCoordinate s i
            = (s.hCL.fXmax - s.hCL.fXmin) / (s.nPoints1d : ℚ))
      ∧ ∃ x, scan1d s nRun w t = some (Outcome.returned x)
          ∧ x.lookups
              = ((List.range s.nPoints1d.toNat).map (scanCoordinate s)).filter
                  (fun c => par.min ≤ c ∧ c ≤ par.max)
          ∧ x.st.t.rows.map (fun r => r.id) = t.rows.map (fun r => r.id)
              ++ (List.range s.nPoints1d.toNat).flatMap (fun i =>
                  if par.min ≤ scanCoordinate s i ∧ scanCoordinate s i ≤ par.max then
                    List.replicate (toysAt s i) (i : ℚ)
                  else []) := by
  constructor
  · intro i _
    refine ⟨rfl, ?_⟩
    unfold scanCoordinate
    push_cast
    ring
  · obtain ⟨x, hx, hl, hr⟩ := scan1dLoop_spec s (s.loadParameterLimits w.pars)
      { pars := s.loadParameterLimits w.pars, obs := w.obs } par hpar hk
      (List.range s.nPoints1d.toNat)
      { st :=
          { w := { pars := s.loadParameterLimits w.pars, obs := w.obs }
            t := { t with branches := { t.branches with nrun := (nRun : ℚ) } }
            f := Fitter.new
            pb := { nSteps := 0 }
            genCalls := [] }
        lookups := []
        warnings := [] }
      (fun i hi => hpts i (by have := List.mem_range.mp hi; omega))
      ⟨rfl, rfl, rfl⟩
    exact ⟨x, hx, by rw [hl]; rfl, hr⟩
theorem pointPars_vals (cfg : PluginConfig) (plhScan : RooSlimFitResult) (st : ScanState)
    (v : RooRealVar) (hv : v ∈ pointPars cfg plhScan st) (u : RooRealVar)
    (hu : findVar (plhScan.floatParsFinal ++ plhScan.constPars) v.name = some u) :
    v.val = u.val := by
  unfold pointPars setConstant setParameters at hv
  rw [List.map_map] at hv
  obtain ⟨q, _, rfl⟩ := List.mem_map.mp hv
  simp only [Function.comp] at hu ⊢
  have hname : ∀ r : RooRealVar,
      (if (r.name == cfg.scanVar1) = true then { r with isConstant := true } else r).name
        = r.name := by
    intro r
    split_ifs <;> rfl
  have hval : ∀ r : RooRealVar,
      (if (r.name == cfg.scanVar1) = true then { r with isConstant := true } else r).val
        = r.val := by
    intro r
    split_ifs <;> rfl
  rw [hname] at hu
  rw [hval]
  cases hq : findVar (plhScan.floatParsFinal ++ plhScan.constPars) q.name with
  | none =>
    rw [hq] at hu
    simp only [] at hu
    rw [hq] at hu
    cases hu
  | some u' =>
    rw [hq] at hu
    simp only [] at hu
    rw [hq] at hu
    cases hu
    rfl

/-- C13: at every coordinate of `scan1d` that is processed (inside the range of the scan
parameter, with an evolution point at which at least two toys are drawn), the point of
toy generation is the stored configuration, the scan parameter included: the first batch
is drawn with every parameter at the value that the evolution point stores for it and
the scan parameter held constant at its stored value; every row appended for the
coordinate has that stored value as `scanpoint`, and its scan fit ended with the scan
parameter held at that value. -/
theorem scan1dStep_generation_point (s : PluginScanner) (pafc : RooArgSet)
    (x : Scan1dState) (i : Nat) (par : RooRealVar) (p : ParevolPoint)
    (hpar : findVar x.st.w.pars s.cfg.scanVar1 = some par)
    (hin : par.min ≤ scanCoordinate s i ∧ scanCoordinate s i ≤ par.max)
    (hget : getParevolPoint s.cfg.scanVar1 s.parevolPLH (scanCoordinate s i)
      = some (Outcome.returned p))
    (hn : 2 ≤ actualToys s.cfg p.result.minNll s.chi2minGlobal)
    (hk : (∀ o ∈ x.st.w.obs, containsSubstr o.name "kD_k3pi_obs" = false)
      ∨ ("kD_k3pi" ∈ varNames x.st.w.pars ∧ "dD_k3pi" ∈ varNames x.st.w.pars)) :
    ∃ (stored : RooRealVar) (y : Scan1dState) (new : List ToyRecord) (first : GenCall)
      (rest : List GenCall),
      findVar (p.result.floatParsFinal ++ p.result.constPars) s.cfg.scanVar1 = some stored
      ∧ scan1dStep s pafc x i = some (Outcome.returned y)
      ∧ y.lookups = x.lookups ++ [scanCoordinate s i]
      ∧ y.st.t.rows = x.st.t.rows ++ new
      ∧ new.length = (actualToys s.cfg p.result.minNll s.chi2minGlobal).toNat
      ∧ (∀ r ∈ new, r.scanpoint = stored.val
          ∧ ∃ q, findVar r.parsScan s.cfg.scanVar1 = some q ∧ q.val = stored.val
              ∧ q.isConstant = true)
      ∧ y.st.genCalls = x.st.genCalls ++ first :: rest
      ∧ rest.length ≤ 1
      ∧ first.nEvents = actualToys s.cfg p.result.minNll s.chi2minGlobal
      ∧ HeldAt first.pars s.cfg.scanVar1 stored.val
      ∧ ∀ v ∈ first.pars, ∀ u,
          findVar (p.result.floatParsFinal ++ p.result.constPars) v.name = some u →
          v.val = u.val := by
  have hdef : CallDefined s.cfg p.result s.chi2minGlobal
      (atCoordinate x.st (scanCoordinate s i)) :=
    ⟨getParevolPoint_returned _ _ _ p hget, mem_varNames_of_findVar _ _ par hpar, hn, hk⟩
  obtain ⟨stored, st', hstored, hres, _, _, _, _, ⟨rest, hcalls, hrest⟩, new, hrows, hlen,
    hnew⟩ := computePvalue1d_summary s.cfg p.result s.chi2minGlobal (i : Int)
      (atCoordinate x.st (scanCoordinate s i)) hdef
  have hin' : ¬ (scanCoordinate s i < par.min ∨ scanCoordinate s i > par.max) := by
    rw [not_or, not_lt, not_lt]
    exact hin
  refine ⟨stored, _, new,
    { pars := pointPars s.cfg p.result (atCoordinate x.st (scanCoordinate s i))
      nEvents := actualToys s.cfg p.result.minNll s.chi2minGlobal }, rest, hstored,
    scan1dStep_processed s pafc x i par p st' hpar hin' hget hres, rfl, hrows, hlen, ?_,
    hcalls, hrest, rfl, heldAt_pointPars _ _ _ stored hstored, ?_⟩
  · intro r hr
    obtain ⟨hp, hq⟩ := hnew r hr
    refine ⟨?_, hq⟩
    unfold ToyRecord.point at hp
    simp only [Prod.mk.injEq] at hp
    exact hp.1
  · intro v hv u hu
    exact pointPars_vals _ _ _ v hv u hu

theorem driftScanner_coordinate : scanCoordinate driftScanner 0 = 1 := by
  norm_num [scanCoordinate, driftScanner, TH1F.create, TH1F.GetBinWidth]

theorem driftScanner_lookup :
    getParevolPoint "g" driftScanner.parevolPLH (scanCoordinate driftScanner 0)
      = some (Outcome.returned { result := storedResult, warned := true }) := by
  rw [driftScanner_coordinate]
  have hb : driftScanner.parevolPLH.hCL.FindBin 1 = 1 := by
    norm_num [driftScanner, TH1F.create, TH1F.FindBin]
  unfold getParevolPoint
  simp only []
  rw [hb]
  have hw : decide (fabsDivGt ((1 : ℚ) - 1 / 2) 1 (1 / 100)) = true := by
    rw [decide_eq_true_iff]
    unfold fabsDivGt
    norm_num [abs_of_pos]
  have hfind : findVar (storedResult.floatParsFinal ++ storedResult.constPars) "g"
      = some { name := "g", val := 1 / 2, isConstant := true, min := 0, max := 2 } := by
    rfl
  have hslot : (driftScanner.parevolPLH.curveResults.getD (((1 : Nat) : Int) - 1).toNat none)
      = some storedResult := by
    rfl
  have hidx : ¬ ((((1 : Nat) : Int) - 1 < 0)
      ∨ (((1 : Nat) : Int) - 1 ≥ (driftScanner.parevolPLH.curveResults.length : Int))) := by
    decide
  rw [if_neg hidx, hslot]
  simp only []
  rw [hfind]
  simp only []
  rw [hw]

/-- The witness of C13: at the only coordinate of `driftScanner`, which is `1`, the
evolution point stores the scan parameter at `1/2`; the rows of the coordinate have
`scanpoint = 1/2`. -/
theorem scan1dStep_generation_point_witness :
    ∃ (y : Scan1dState) (new : List ToyRecord),
      scan1dStep driftScanner (startState false).w.pars
          { st := startState false, lookups := [], warnings := [] } 0
        = some (Outcome.returned y)
      ∧ y.st.t.rows = new ∧ new.length = 2 ∧ ∀ r ∈ new, r.scanpoint = 1 / 2 := by
  obtain ⟨stored, y, new, _, _, hstored, hy, _, hrows, hlen, hnew, _⟩ :=
    scan1dStep_generation_point driftScanner (startState false).w.pars
      ({ st := startState false, lookups := [], warnings := [] } : Scan1dState) 0
      ({ name := "g", val := 1, isConstant := false, min := 0, max := 2 } : RooRealVar)
      ({ result := storedResult, warned := true } : ParevolPoint) (by rfl)
      (by rw [driftScanner_coordinate]; norm_num) driftScanner_lookup (by decide)
      (Or.inl (by decide))
  have hs : stored.val = 1 / 2 := by
    have h : findVar (storedResult.floatParsFinal ++ storedResult.constPars) "g"
        = some stored := hstored
    have h' : findVar (storedResult.floatParsFinal ++ storedResult.constPars) "g"
        = some { name := "g", val := 1 / 2, isConstant := true, min := 0, max := 2 } := by
      rfl
    rw [h'] at h
    cases h
    rfl
  refine ⟨y, new, hy, ?_, hlen, ?_⟩
  · rw [hrows]
    rfl
  · intro r hr
    rw [(hnew r hr).1, hs]

/-- C13 (the claim fails): `driftScanner` has one coordinate, `1`, inside the range
`[0, 2]` of the scan parameter, and its evolution point stores the scan parameter at
`1/2`. The lookup warns, and the scan goes on with the stored value: both rows of the
coordinate have `scanpoint = 1/2`, not `1`, and the toys are drawn with the scan
parameter held at `1/2`. -/
theorem scan1d_scanpoint_is_stored_value :
    scanCoordinate driftScanner 0 = 1
      ∧ ∃ (x : Scan1dState) (first : GenCall) (rest : List GenCall),
          scan1d driftScanner 0 (startState false).w { branches := emptyRecord, rows := [] }
            = some (Outcome.returned x)
          ∧ x.lookups = [1] ∧ x.warnings = [1]
          ∧ x.st.t.rows.map (fun r => r.scanpoint) = [1 / 2, 1 / 2]
          ∧ x.st.genCalls = first :: rest
          ∧ HeldAt first.pars "g" (1 / 2) := by
  refine ⟨driftScanner_coordinate, ?_⟩
  have hdef : CallDefined twoToys storedResult 0
      (atCoordinate
        { w := (startState false).w, t := { branches := emptyRecord, rows := [] }
          f := Fitter.new, pb := { nSteps := 0 }, genCalls := [] }
        (scanCoordinate driftScanner 0)) :=
    ⟨by decide, by decide, by decide, Or.inl (by decide)⟩
  obtain ⟨stored, st', hstored, hres, _, _, _, _, ⟨rest, hcalls, _⟩, new, hrows, hlen,
    hnew⟩ := computePvalue1d_summary twoToys storedResult 0 ((0 : Nat) : Int) _ hdef
  have hs : stored.val = 1 / 2 := by
    have h' : findVar (storedResult.floatParsFinal ++ storedResult.constPars) "g"
        = some { name := "g", val := 1 / 2, isConstant := true, min := 0, max := 2 } := by
      rfl
    have h : findVar (storedResult.floatParsFinal ++ storedResult.constPars) "g"
        = some stored := hstored
    rw [h'] at h
    cases h
    rfl
  have hstep := scan1dStep_processed driftScanner (startState false).w.pars
    { st :=
        { w := (startState false).w, t := { branches := emptyRecord, rows := [] }
          f := Fitter.new, pb := { nSteps := 0 }, genCalls := [] }
      lookups := [], warnings := [] } 0
    { name := "g", val := 1, isConstant := false, min := 0, max := 2 }
    { result := storedResult, warned := true } st' (by rfl)
    (by rw [driftScanner_coordinate]; norm_num) driftScanner_lookup hres
  refine ⟨{ st := resetTo driftScanner (startState false).w.pars st'
            lookups := [] ++ [scanCoordinate driftScanner 0]
            warnings := [] ++ [scanCoordinate driftScanner 0] },
    { pars := pointPars twoToys storedResult
        (atCoordinate
          { w := (startState false).w, t := { branches := emptyRecord, rows := [] }
            f := Fitter.new, pb := { nSteps := 0 }, genCalls := [] }
          (scanCoordinate driftScanner 0))
      nEvents := actualToys twoToys storedResult.minNll 0 }, rest, ?_, ?_, ?_, ?_, ?_, ?_⟩
  · show scan1dLoop driftScanner _ [0] _ = _
    rw [scan1dLoop]
    erw [hstep]
    rfl
  · show [] ++ [scanCoordinate driftScanner 0] = _
    rw [driftScanner_coordinate]
    rfl
  · show [] ++ [scanCoordinate driftScanner 0] = _
    rw [driftScanner_coordinate]
    rfl
  · show st'.t.rows.map (fun r => r.scanpoint) = _
    rw [hrows]
    show new.map (fun r => r.scanpoint) = List.replicate 2 (1 / 2)
    rw [List.eq_replicate_iff]
    refine ⟨by rw [List.length_map, hlen]; rfl, ?_⟩
    intro b hb
    obtain ⟨r, hr, rfl⟩ := List.mem_map.mp hb
    have hp := (hnew r hr).1
    unfold ToyRecord.point at hp
    simp only [Prod.mk.injEq] at hp
    rw [hp.1, hs]
  · show st'.genCalls = _
    rw [hcalls]
    rfl
  · have := heldAt_pointPars twoToys storedResult
      (atCoordinate
        { w := (startState false).w, t := { branches := emptyRecord, rows := [] }
          f := Fitter.new, pb := { nSteps := 0 }, genCalls := [] }
        (scanCoordinate driftScanner 0)) stored hstored
    rw [hs] at this
    exact this
theorem getParevolPoint_of_slot (scanVar1 : String) (parevolPLH : MethodProbScan)
    (scanpoint : ℚ) (bin : Nat) (r : RooSlimFitResult) (var : RooRealVar)
    (hbin : parevolPLH.hCL.FindBin scanpoint = bin) (hlo : 1 ≤ bin)
    (hhi : bin ≤ parevolPLH.curveResults.length)
    (hslot : parevolPLH.curveResults.getD (bin - 1) none = some r)
    (hvar : findVar (r.floatParsFinal ++ r.constPars) scanVar1 = some var) :
    getParevolPoint scanVar1 parevolPLH scanpoint
      = some (Outcome.returned
          { result := r
            warned := decide (fabsDivGt (scanpoint - var.val) scanpoint (1 / 100)) }) := by
  have hidx : ((bin : Int) - 1).toNat = bin - 1 := by omega
  have hin : ¬ ((bin : Int) - 1 < 0 ∨ (bin : Int) - 1 ≥ (parevolPLH.curveResults.length : Int)) := by
    omega
  unfold getParevolPoint
  simp only []
  rw [hbin, if_neg hin, hidx, hslot]
  simp only []
  rw [hvar]

theorem toNat_four : Int.toNat 4 = 4 := rfl

theorem clippedScanner_coordinate (i : Nat) :
    scanCoordinate clippedScanner i = (i : ℚ) + 1 / 2 := by
  norm_num [scanCoordinate, clippedScanner, TH1F.create, TH1F.GetBinWidth, toNat_four]

theorem clippedScanner_lookup (i : Nat) (hi : (i : ℚ) + 1 / 2 ≤ 2) :
    ∃ p, getParevolPoint "g" clippedScanner.parevolPLH (scanCoordinate clippedScanner i)
        = some (Outcome.returned p) ∧ p.result = storedResult := by
  have hi' : i = 0 ∨ i = 1 := by
    have h2 : (i : ℚ) < 2 := by linarith
    have : i < 2 := by exact_mod_cast h2
    omega
  rcases hi' with rfl | rfl
  · refine ⟨_, getParevolPoint_of_slot "g" clippedScanner.parevolPLH _ 1 storedResult
      { name := "g", val := 1 / 2, isConstant := true, min := 0, max := 2 } ?_ (by decide)
      (by decide) (by rfl) (by rfl), rfl⟩
    rw [clippedScanner_coordinate]
    norm_num [clippedScanner, TH1F.create, TH1F.FindBin, toNat_four]
  · refine ⟨_, getParevolPoint_of_slot "g" clippedScanner.parevolPLH _ 2 storedResult
      { name := "g", val := 1 / 2, isConstant := true, min := 0, max := 2 } ?_ (by decide)
      (by decide) (by rfl) (by rfl), rfl⟩
    rw [clippedScanner_coordinate]
    norm_num [clippedScanner, TH1F.create, TH1F.FindBin, toNat_four]

theorem clippedScanner_toysAt (i : Nat) (hi : (i : ℚ) + 1 / 2 ≤ 2) :
    toysAt clippedScanner i = 2 := by
  obtain ⟨p, hp, hr⟩ := clippedScanner_lookup i hi
  unfold toysAt
  have hp' : getParevolPoint clippedScanner.cfg.scanVar1 clippedScanner.parevolPLH
      (scanCoordinate clippedScanner i) = some (Outcome.returned p) := hp
  rw [hp']
  simp only []
  rw [hr]
  rfl

/-- The witness of C18: `clippedScanner` has the coordinates `1/2`, `3/2`, `5/2` and
`7/2`, and its scan parameter has the range `[0, 2]`: the scan looks up `1/2` and `3/2`
and appends two rows for each of them, none for the other two. -/
theorem scan1d_grid_witness :
    ∃ x, scan1d clippedScanner 0 (startState false).w { branches := emptyRecord, rows := [] }
        = some (Outcome.returned x)
      ∧ x.lookups = [1 / 2, 3 / 2]
      ∧ x.st.t.rows.map (fun r => r.id) = [0, 0, 1, 1] := by
  obtain ⟨_, x, hx, hl, hr⟩ := scan1d_grid clippedScanner 0 (startState false).w
    { branches := emptyRecord, rows := [] }
    { name := "g", val := 1, isConstant := false, min := 0, max := 2 } (by rfl)
    (Or.inl (by decide))
    (by
      intro i _ _ hmax
      rw [clippedScanner_coordinate] at hmax
      obtain ⟨p, hp, hr⟩ := clippedScanner_lookup i hmax
      refine ⟨p, hp, ?_⟩
      rw [hr]
      decide)
  have hn : clippedScanner.nPoints1d.toNat = 4 := by rfl
  have hrange : List.range 4 = [0, 1, 2, 3] := by rfl
  refine ⟨x, hx, ?_, ?_⟩
  · rw [hl, hn, hrange]
    simp only [List.map_cons, List.map_nil, clippedScanner_coordinate]
    norm_num [List.filter]
  · rw [hr, hn, hrange]
    simp only [List.flatMap_cons, List.flatMap_nil, clippedScanner_coordinate]
    have h0 := clippedScanner_toysAt 0 (by norm_num)
    have h1 := clippedScanner_toysAt 1 (by norm_num)
    rw [h0, h1]
    norm_num
    rfl

/-! ### `PDF_Abs::buildCov` -/

theorem storeErrorsLoop_spec {n : Nat} (u : MatrixUtils n) :
    ∀ (is : List (Fin n)) (pdf : PDF_Abs n), pdf.obsError.length = n →
      ∃ pdf', storeErrorsLoop u is pdf = some pdf'
        ∧ pdf'.covMatrix = pdf.covMatrix ∧ pdf'.corMatrix = pdf.corMatrix
        ∧ pdf'.obsError.length = n
        ∧ (∀ i : Fin n, i ∈ is → pdf'.obsError[i.val]? = some (u.sqrt (pdf.covMatrix i i)))
        ∧ (∀ i : Fin n, i ∉ is → pdf'.obsError[i.val]? = pdf.obsError[i.val]?) := by
  intro is
  induction is with
  | nil =>
    intro pdf hlen
    exact ⟨pdf, rfl, rfl, rfl, hlen, fun i hi => absurd hi (List.not_mem_nil i),
      fun _ _ => rfl⟩
  | cons i is ih =>
    intro pdf hlen
    have hi : i.val < pdf.obsError.length := by rw [hlen]; exact i.isLt
    obtain ⟨pdf', h1, h2, h3, h4, h5, h6⟩ := ih
      { pdf with obsError := pdf.obsError.set i.val (u.sqrt (pdf.covMatrix i i)) }
      (by rw [List.length_set]; exact hlen)
    refine ⟨pdf', ?_, h2, h3, h4, ?_, ?_⟩
    · rw [storeErrorsLoop, if_pos hi]
      exact h1
    · intro k hk
      by_cases hkis : k ∈ is
      · exact h5 k hkis
      · rw [h6 k hkis]
        have hki : k = i := by
          rcases List.mem_cons.mp hk with h | h
          · exact h
          · exact absurd h hkis
        subst hki
        show (pdf.obsError.set k.val _)[k.val]? = _
        rw [List.getElem?_set_self hi]
    · intro k hk
      have hkis : k ∉ is := fun h => hk (List.mem_cons_of_mem _ h)
      have hki : i.val ≠ k.val := by
        intro h
        exact hk (by rw [Fin.ext h.symm]; exact List.mem_cons_self _ _)
      rw [h6 k hkis]
      show (pdf.obsError.set i.val _)[k.val]? = _
      rw [List.getElem?_set_ne hki]

theorem storeErrorsInObs_spec {n : Nat} (u : MatrixUtils n) (pdf : PDF_Abs n)
    (hlen : pdf.obsError.length = n) (hdet : pdf.covMatrix.det ≠ 0) :
    ∃ pdf', storeErrorsInObs u pdf = some pdf'
      ∧ pdf'.covMatrix = pdf.covMatrix ∧ pdf'.corMatrix = pdf.corMatrix
      ∧ ∀ i : Fin n, pdf'.obsError[i.val]? = some (u.sqrt (pdf.covMatrix i i)) := by
  unfold storeErrorsInObs
  by_cases hall : ∀ i j, pdf.covMatrix i j = 0
  · rw [if_pos hall]
    refine ⟨pdf, rfl, rfl, rfl, ?_⟩
    intro i
    exfalso
    apply hdet
    have hzero : pdf.covMatrix = 0 := by
      ext a b
      exact hall a b
    rw [hzero]
    exact Matrix.det_zero ⟨i⟩
  · rw [if_neg hall]
    obtain ⟨pdf', h1, h2, h3, _, h5, _⟩ := storeErrorsLoop_spec u (List.finRange n) pdf hlen
    exact ⟨pdf', h1, h2, h3, fun i => h5 i (List.mem_finRange i)⟩

/-- C20: `buildCov` on a PDF whose list of observables has `nObs` entries. When the total
covariance matrix has determinant `0`, or the total correlation matrix is not positive
definite, the call throws and the errors of the observables are as before. Otherwise the
call completes without a throw, the covariance member is the sum of the statistical and
the systematic covariance, every correlation entry is
`cov i j / (sqrt (cov i i) * sqrt (cov j j))`, and the error stored in observable `i` is
`sqrt (cov i i)`, whose square is `cov i i` where the square root is exact. -/
theorem buildCov_spec {n : Nat} (u : MatrixUtils n) (pdf : PDF_Abs n)
    (hobs : pdf.obsError.length = n) :
    (((totalCov u pdf).det = 0 ∨ u.isPosDef (totalCor u pdf) = false) →
        ∃ pdf', buildCov u pdf = some (pdf', some "need help")
          ∧ pdf'.obsError = pdf.obsError)
      ∧ ((totalCov u pdf).det ≠ 0 → u.isPosDef (totalCor u pdf) = true →
        ∃ pdf', buildCov u pdf = some (pdf', none)
          ∧ pdf'.covMatrix = totalCov u pdf
          ∧ (∀ i j, pdf'.corMatrix i j
              = totalCov u pdf i j
                / (u.sqrt (totalCov u pdf i i) * u.sqrt (totalCov u pdf j j)))
          ∧ (∀ i : Fin n, pdf'.obsError[i.val]? = some (u.sqrt (totalCov u pdf i i)))
          ∧ (∀ i : Fin n,
              u.sqrt (totalCov u pdf i i) * u.sqrt (totalCov u pdf i i) = totalCov u pdf i i →
              ∃ e, pdf'.obsError[i.val]? = some e ∧ e * e = totalCov u pdf i i)) := by
  constructor
  · intro h
    by_cases hdet : (totalCov u pdf).det = 0
    · refine ⟨afterCov u pdf, ?_, rfl⟩
      · unfold buildCov
        simp only []
        have hdet' : (u.buildCovMatrix (u.buildCorMatrix pdf.corStatMatrix) pdf.StatErr
            + u.buildCovMatrix (u.buildCorMatrix pdf.corSystMatrix) pdf.SystErr).det = 0 :=
          hdet
        rw [if_pos hdet']
        rfl
    · have hpd : u.isPosDef (totalCor u pdf) = false := h.resolve_left hdet
      refine ⟨afterCor u pdf, ?_, rfl⟩
      · unfold buildCov
        simp only []
        have hdet' : ¬ (u.buildCovMatrix (u.buildCorMatrix pdf.corStatMatrix) pdf.StatErr
            + u.buildCovMatrix (u.buildCorMatrix pdf.corSystMatrix) pdf.SystErr).det = 0 :=
          hdet
        rw [if_neg hdet']
        have hpd' : ¬ ¬ u.isPosDef (fun i j =>
            (u.buildCovMatrix (u.buildCorMatrix pdf.corStatMatrix) pdf.StatErr
              + u.buildCovMatrix (u.buildCorMatrix pdf.corSystMatrix) pdf.SystErr) i j
            / u.sqrt ((u.buildCovMatrix (u.buildCorMatrix pdf.corStatMatrix) pdf.StatErr
              + u.buildCovMatrix (u.buildCorMatrix pdf.corSystMatrix) pdf.SystErr) i i)
            / u.sqrt ((u.buildCovMatrix (u.buildCorMatrix pdf.corStatMatrix) pdf.StatErr
              + u.buildCovMatrix (u.buildCorMatrix pdf.corSystMatrix) pdf.SystErr) j j))
            = true → False := by
          intro hc
          have : u.isPosDef (totalCor u pdf) = true := not_not.mp hc
          rw [hpd] at this
          cases this
        rw [if_pos (fun hc => hpd' (not_not.mpr hc))]
        rfl
  · intro hdet hpd
    obtain ⟨pdf', h1, h2, h3, h4⟩ := storeErrorsInObs_spec u (afterCor u pdf) hobs hdet
    refine ⟨pdf', ?_, h2, ?_, h4, ?_⟩
    · unfold buildCov
      simp only []
      have hdet' : ¬ (u.buildCovMatrix (u.buildCorMatrix pdf.corStatMatrix) pdf.StatErr
          + u.buildCovMatrix (u.buildCorMatrix pdf.corSystMatrix) pdf.SystErr).det = 0 :=
        hdet
      rw [if_neg hdet']
      have hpd' : ¬ ¬ u.isPosDef (fun i j =>
          (u.buildCovMatrix (u.buildCorMatrix pdf.corStatMatrix) pdf.StatErr
            + u.buildCovMatrix (u.buildCorMatrix pdf.corSystMatrix) pdf.SystErr) i j
          / u.sqrt ((u.buildCovMatrix (u.buildCorMatrix pdf.corStatMatrix) pdf.StatErr
            + u.buildCovMatrix (u.buildCorMatrix pdf.corSystMatrix) pdf.SystErr) i i)
          / u.sqrt ((u.buildCovMatrix (u.buildCorMatrix pdf.corStatMatrix) pdf.StatErr
            + u.buildCovMatrix (u.buildCorMatrix pdf.corSystMatrix) pdf.SystErr) j j))
          = true := not_not.mpr hpd
      rw [if_neg hpd']
      erw [h1]
    · intro i j
      rw [h3]
      show totalCov u pdf i j / u.sqrt (totalCov u pdf i i) / u.sqrt (totalCov u pdf j j) = _
      rw [div_div]
    · intro i hsq
      exact ⟨_, h4 i, hsq⟩

theorem rat_sqrt_four : Rat.sqrt 4 = 2 := by
  have h : (4 : ℚ) = 2 * 2 := by norm_num
  rw [h, Rat.sqrt_eq]
  norm_num [abs_of_pos]

theorem rat_sqrt_nine : Rat.sqrt 9 = 3 := by
  have h : (9 : ℚ) = 3 * 3 := by norm_num
  rw [h, Rat.sqrt_eq]
  norm_num [abs_of_pos]

theorem totalCov_twoObsPdf :
    totalCov twoObsUtils twoObsPdf = !![4, 0; 0, 9] := by
  ext i j
  fin_cases i <;> fin_cases j <;>
    norm_num [totalCov, twoObsUtils, twoObsPdf, Matrix.one_apply]

theorem totalCov_singularPdf :
    totalCov twoObsUtils singularPdf = !![0, 0; 0, 9] := by
  ext i j
  fin_cases i <;> fin_cases j <;>
    norm_num [totalCov, twoObsUtils, singularPdf, twoObsPdf, Matrix.one_apply]

/-- The witness of C20: for two uncorrelated observables with errors `2` and `3` the
call completes, the correlation of the two is `0` and the stored errors are `2` and `3`;
with the first error at `0` the covariance matrix is singular and the call throws. -/
theorem buildCov_spec_witness :
    (∃ pdf', buildCov twoObsUtils twoObsPdf = some (pdf', none)
        ∧ pdf'.corMatrix 0 1 = 0 ∧ pdf'.corMatrix 1 1 = 1
        ∧ pdf'.obsError[0]? = some 2 ∧ pdf'.obsError[1]? = some 3)
      ∧ ∃ pdf', buildCov twoObsUtils singularPdf = some (pdf', some "need help")
          ∧ pdf'.obsError = [0, 0] := by
  have hs : twoObsUtils.sqrt = Rat.sqrt := rfl
  constructor
  · have hdet : (totalCov twoObsUtils twoObsPdf).det ≠ 0 := by
      rw [totalCov_twoObsPdf, Matrix.det_fin_two_of]
      norm_num
    have hpd : twoObsUtils.isPosDef (totalCor twoObsUtils twoObsPdf) = true := by
      show decide (_ ∧ _) = true
      rw [decide_eq_true_iff]
      unfold totalCor
      rw [totalCov_twoObsPdf, hs]
      norm_num [rat_sqrt_four, rat_sqrt_nine]
    obtain ⟨pdf', hres, _, hcor, herr, _⟩ :=
      (buildCov_spec twoObsUtils twoObsPdf rfl).2 hdet hpd
    refine ⟨pdf', hres, ?_, ?_, ?_, ?_⟩
    · rw [hcor, totalCov_twoObsPdf]
      norm_num
    · rw [hcor, totalCov_twoObsPdf, hs]
      norm_num [rat_sqrt_nine]
    · have := herr 0
      rw [totalCov_twoObsPdf, hs] at this
      rw [show ((0 : Fin 2) : Nat) = 0 from rfl] at this
      rw [this]
      norm_num [rat_sqrt_four]
    · have := herr 1
      rw [totalCov_twoObsPdf, hs] at this
      rw [show ((1 : Fin 2) : Nat) = 1 from rfl] at this
      rw [this]
      norm_num [rat_sqrt_nine]
  · have hdet : (totalCov twoObsUtils singularPdf).det = 0 := by
      rw [totalCov_singularPdf, Matrix.det_fin_two_of]
      norm_num
    obtain ⟨pdf', hres, herr⟩ := (buildCov_spec twoObsUtils singularPdf rfl).1 (Or.inl hdet)
    exact ⟨pdf', hres, herr⟩

/-! ### The cut-off of `importance` -/

/-- C23 (the code at the failing input): the expected p-value `5e-5` lies below the
documented cut-off `1e-4`, and `importance` returns `1` for it, not `0`: the cut-off of
the code is `1e-5`. -/
theorem importance_above_code_cutoff :
    (1 : ℚ) / 20000 < 1 / 10000 ∧ importance (1 / 20000) = 1 := by
  constructor
  · norm_num
  · norm_num [importance]

/-! ### Toys read outside the batch -/

theorem generateToys_eq_none_of_lt_two (cfg : PluginConfig) (w : RooWorkspace)
    (genCalls : List GenCall) (n : Int) (hn : n < 2) :
    generateToys cfg w genCalls n = none := by
  have h1 : ¬ (1 < n.toNat) := by omega
  unfold generateToys
  simp only []
  rw [generate_get cfg genCalls.length w n 1, if_neg h1]
  cases (generate cfg genCalls.length w n).get 0 <;> rfl

theorem computePvalue1d_eq_none_of_lt_two (cfg : PluginConfig) (plhScan : RooSlimFitResult)
    (chi2minGlobal : ℚ) (id : Int) (st : ScanState)
    (hn : actualToys cfg plhScan.minNll chi2minGlobal < 2) :
    computePvalue1d cfg plhScan chi2minGlobal id st = none := by
  unfold computePvalue1d
  cases findVar (plhScan.floatParsFinal ++ plhScan.constPars) cfg.scanVar1 with
  | none => rfl
  | some v =>
    simp only []
    cases findVar (setParameters st.w.pars (plhScan.floatParsFinal ++ plhScan.constPars))
        cfg.scanVar1 with
    | none => rfl
    | some par =>
      simp only []
      rw [generateToys_eq_none_of_lt_two cfg _ _ _ hn]

/-- C28 (the code at the failing input): with `nToys = 2` and importance sampling at an
expected p-value of `1/2` the number of toys is scaled to `trunc (2 / 20) = 0`;
`generateToys` is called for a batch of no toys, in which its read of toy `0` finds
nothing, and the call of `computePvalue1d` has no defined result. -/
theorem computePvalue1d_reads_outside_batch :
    2 ≤ fewToys.nToys
      ∧ actualToys fewToys storedResult.minNll 0 = 0
      ∧ (generate fewToys 0
          { pars := pointPars fewToys storedResult (startState false)
            obs := (startState false).w.obs } 0).get 0 = none
      ∧ generateToys fewToys
          { pars := pointPars fewToys storedResult (startState false)
            obs := (startState false).w.obs } [] 0 = none
      ∧ computePvalue1d fewToys storedResult 0 0 (startState false) = none := by
  have h0 : actualToys fewToys storedResult.minNll 0 = 0 := by
    norm_num [actualToys, fewToys, importanceToys, twoToys, storedResult, importance,
      truncToInt]
  refine ⟨by decide, h0, rfl, ?_, ?_⟩
  · exact generateToys_eq_none_of_lt_two _ _ _ _ (by norm_num)
  · exact computePvalue1d_eq_none_of_lt_two _ _ _ _ _ (by rw [h0]; norm_num)

/-- C14 (the code at the failing input): with `nToys = 100` and importance sampling at an
expected p-value of `1/1000000` the importance is `0` and the number of toys is
`trunc (100 * 0) = 0`, between `0` and `nToys`, which leaves `100` steps to skip. But
`generateToys` is then called for a batch of no toys, its read of toy `0` finds nothing,
and the call of `computePvalue1d` has no defined result: it does not return with the
progress counter advanced by `nToys`. The same holds without importance sampling for
`nToys = 1`, where one toy is drawn and the read of toy `1` finds nothing. -/
theorem computePvalue1d_all_skipped :
    0 ≤ skippedToys.nToys
      ∧ importance (skippedToys.prob (storedResult.minNll - 0)) = 0
      ∧ actualToys skippedToys storedResult.minNll 0 = 0
      ∧ skippedToys.nToys - actualToys skippedToys storedResult.minNll 0 = 100
      ∧ generateToys skippedToys
          { pars := pointPars skippedToys storedResult (startState false)
            obs := (startState false).w.obs } [] 0 = none
      ∧ computePvalue1d skippedToys storedResult 0 0 (startState false) = none
      ∧ 0 ≤ oneToy.nToys
      ∧ actualToys oneToy storedResult.minNll 0 = 1
      ∧ (generate oneToy 0
          { pars := pointPars oneToy storedResult (startState false)
            obs := (startState false).w.obs } 1).get 1 = none
      ∧ computePvalue1d oneToy storedResult 0 0 (startState false) = none := by
  have hi : importance (skippedToys.prob (storedResult.minNll - 0)) = 0 := by
    norm_num [skippedToys, importanceToys, twoToys, importance]
  have h0 : actualToys skippedToys storedResult.minNll 0 = 0 := by
    norm_num [actualToys, skippedToys, importanceToys, twoToys, storedResult, importance,
      truncToInt]
  have h1 : actualToys oneToy storedResult.minNll 0 = 1 := rfl
  refine ⟨by decide, hi, h0, ?_, ?_, ?_, by decide, h1, rfl, ?_⟩
  · rw [h0]
    rfl
  · exact generateToys_eq_none_of_lt_two _ _ _ _ (by norm_num)
  · exact computePvalue1d_eq_none_of_lt_two _ _ _ _ _ (by rw [h0]; norm_num)
  · exact computePvalue1d_eq_none_of_lt_two _ _ _ _ _ (by rw [h1]; norm_num)

/-! ### The retry table of the toy loop -/

theorem Fitter.fit_calls (cfg : PluginConfig) (f : Fitter) (w : RooWorkspace) :
    (f.fit cfg w).1.calls = f.calls ++ [f.callOf w]
      ∧ (f.fit cfg w).1.status = (cfg.minimize f.calls.length (f.callOf w)).status
      ∧ (f.fit cfg w).1.startparsFirstFit = f.startparsFirstFit
      ∧ (f.fit cfg w).1.startparsSecondFit = f.startparsSecondFit :=
  ⟨rfl, rfl, rfl, rfl⟩

theorem scanFit_calls (cfg : PluginConfig) (sp : ℚ) (c : FitResultCache) (f : Fitter)
    (w : RooWorkspace) :
    ∃ c1 c2 : FitCall,
      c1.seeds = (c.getRoundRobinNminus 0, c.parsAtGlobalMin)
      ∧ c1.pars = setConstant (setVal w.pars cfg.scanVar1 sp) cfg.scanVar1 true
      ∧ c2.seeds = (c.getRoundRobinNminus 1, c.getRoundRobinNminus 2)
      ∧ (scanFit cfg sp c f w).1.calls
          = f.calls ++ (if (cfg.minimize f.calls.length c1).status = 1 then [c1, c2] else [c1])
      ∧ ((scanFit cfg sp c f w).1.startparsFirstFit,
          (scanFit cfg sp c f w).1.startparsSecondFit)
          = (if (cfg.minimize f.calls.length c1).status = 1 then c2.seeds else c1.seeds) := by
  refine ⟨Fitter.callOf
      { f with
        startparsFirstFit := c.getRoundRobinNminus 0
        startparsSecondFit := c.parsAtGlobalMin }
      { w with pars := setConstant (setVal w.pars cfg.scanVar1 sp) cfg.scanVar1 true },
    Fitter.callOf
      { (Fitter.fit cfg
          { f with
            startparsFirstFit := c.getRoundRobinNminus 0
            startparsSecondFit := c.parsAtGlobalMin }
          { w with
            pars := setConstant (setVal w.pars cfg.scanVar1 sp) cfg.scanVar1 true }).1 with
        startparsFirstFit := c.getRoundRobinNminus 1
        startparsSecondFit := c.getRoundRobinNminus 2 }
      (Fitter.fit cfg
          { f with
            startparsFirstFit := c.getRoundRobinNminus 0
            startparsSecondFit := c.parsAtGlobalMin }
          { w with
            pars := setConstant (setVal w.pars cfg.scanVar1 sp) cfg.scanVar1 true }).2,
    rfl, rfl, rfl, ?_, ?_⟩
  · unfold scanFit
    simp only []
    split_ifs with h1 h2 h2
    · show f.calls ++ [_] ++ [_] = f.calls ++ [_, _]
      rw [List.append_assoc]
      rfl
    · exact absurd h1 h2
    · exact absurd h2 h1
    · rfl
  · unfold scanFit
    simp only []
    split_ifs with h1 h2 h2
    · rfl
    · exact absurd h1 h2
    · exact absurd h2 h1
    · rfl

theorem freeFit_calls (cfg : PluginConfig) (f : Fitter) (w : RooWorkspace) :
    ∃ c3 c4 : FitCall,
      c3.seeds = (f.startparsFirstFit, f.startparsSecondFit)
      ∧ c3.pars = setConstant w.pars cfg.scanVar1 false
      ∧ c4.seeds = c3.seeds
      ∧ (freeFit cfg f w).1.calls
          = f.calls ++ (if (cfg.minimize f.calls.length c3).status = 1 then [c3, c4] else [c3]) := by
  refine ⟨Fitter.callOf f { w with pars := setConstant w.pars cfg.scanVar1 false },
    Fitter.callOf (Fitter.fit cfg f { w with pars := setConstant w.pars cfg.scanVar1 false }).1
      (Fitter.fit cfg f { w with pars := setConstant w.pars cfg.scanVar1 false }).2,
    rfl, rfl, rfl, ?_⟩
  unfold freeFit
  simp only []
  split_ifs with h1 h2 h2
  · show f.calls ++ [_] ++ [_] = f.calls ++ [_, _]
    rw [List.append_assoc]
    rfl
  · exact absurd h1 h2
  · exact absurd h2 h1
  · rfl

theorem floating_setConstant_false (set : RooArgSet) (name : String) :
    ∀ p ∈ setConstant set name false, p.name = name → p.isConstant = false := by
  intro p hp hname
  unfold setConstant at hp
  obtain ⟨q, _, rfl⟩ := List.mem_map.mp hp
  by_cases hq : (q.name == name) = true
  · rw [if_pos hq]
  · rw [if_neg hq] at hname
    rw [hname] at hq
    simp at hq

/-- C21: for every toy of the loop of `computePvalue1d`, in every loop state and for
every optimizer: the first optimizer call `c1` is the scan fit (scan parameter held at
the scan point) seeded with cache slot `0` and the parameters at the global minimum; a
second call `c2`, seeded with the slots `1` and `2`, follows exactly when `c1` ended with
status `1`; then comes the free fit `c3` (scan parameter floating) with the seeds that
the fitter holds, and a repetition `c4` with the same seeds exactly when `c3` ended with
status `1`. No other call is made: two to four calls per toy. -/
theorem toyStep_retry_table (cfg : PluginConfig) (scanpoint : ℚ) (toyDataSet : RooDataSet)
    (x : ToyLoopState) (j : Nat) (hj : j < toyDataSet.entries.length)
    (hv : cfg.scanVar1 ∈ varNames x.st.w.pars) :
    ∃ (y : ToyLoopState) (c1 c2 c3 c4 : FitCall),
      toyStep cfg scanpoint toyDataSet x j = some y
      ∧ c1.seeds = (x.frCache.getRoundRobinNminus 0, x.frCache.parsAtGlobalMin)
      ∧ c2.seeds = (x.frCache.getRoundRobinNminus 1, x.frCache.getRoundRobinNminus 2)
      ∧ c3.seeds
          = (if (cfg.minimize x.st.f.calls.length c1).status = 1 then c2.seeds else c1.seeds)
      ∧ c4.seeds = c3.seeds
      ∧ HeldAt c1.pars cfg.scanVar1 scanpoint
      ∧ (∀ p ∈ c3.pars, p.name = cfg.scanVar1 → p.isConstant = false)
      ∧ y.st.f.calls
          = x.st.f.calls
            ++ (if (cfg.minimize x.st.f.calls.length c1).status = 1 then [c1, c2] else [c1])
            ++ (if (cfg.minimize
                  (x.st.f.calls.length
                    + (if (cfg.minimize x.st.f.calls.length c1).status = 1 then 2 else 1))
                  c3).status = 1 then [c3, c4] else [c3])
      ∧ x.st.f.calls.length + 2 ≤ y.st.f.calls.length
      ∧ y.st.f.calls.length ≤ x.st.f.calls.length + 4 := by
  obtain ⟨toyData, best, _, _, hstep⟩ :=
    toyStep_defined_eq cfg scanpoint toyDataSet x j hj hv
  obtain ⟨c1, c2, h1, hp1, h2, hcalls, hseeds⟩ := scanFit_calls cfg scanpoint x.frCache x.st.f
    { x.st.w with obs := setParameters x.st.w.obs toyData }
  obtain ⟨c3, c4, h3, hp3, h4, hfree⟩ := freeFit_calls cfg (scanned cfg scanpoint x toyData).1
    (scanned cfg scanpoint x toyData).2
  have hlen : (scanned cfg scanpoint x toyData).1.calls.length
      = x.st.f.calls.length
        + (if (cfg.minimize x.st.f.calls.length c1).status = 1 then 2 else 1) := by
    unfold scanned
    rw [hcalls, List.length_append]
    split_ifs <;> rfl
  have hy : (stepped cfg scanpoint x toyData best.val).st.f.calls
      = x.st.f.calls
        ++ (if (cfg.minimize x.st.f.calls.length c1).status = 1 then [c1, c2] else [c1])
        ++ (if (cfg.minimize
              (x.st.f.calls.length
                + (if (cfg.minimize x.st.f.calls.length c1).status = 1 then 2 else 1))
              c3).status = 1 then [c3, c4] else [c3]) := by
    show (freeFit cfg (scanned cfg scanpoint x toyData).1
      (scanned cfg scanpoint x toyData).2).1.calls = _
    rw [hfree, hlen]
    unfold scanned
    rw [hcalls]
  refine ⟨_, c1, c2, c3, c4, hstep, h1, h2, ?_, h4, ?_, ?_, hy, ?_, ?_⟩
  · rw [h3]
    unfold scanned
    exact hseeds
  · rw [hp1]
    exact heldAt_setConstant_setVal _ _ _
  · rw [hp3]
    exact floating_setConstant_false _ _
  · rw [hy, List.length_append, List.length_append]
    split_ifs <;> simp
  · rw [hy, List.length_append, List.length_append]
    split_ifs <;> simp

/-- The witness of C21: with an optimizer that fails at its first two calls, the first
toy makes three calls: the scan fit, its one retry, and the free fit. -/
theorem toyStep_retry_table_witness :
    ∃ y, toyStep failingFirst (1 / 2) twoToyBatch startLoopState 0 = some y
      ∧ y.st.f.calls.length = 3 := by
  obtain ⟨y, c1, c2, c3, c4, hy, _, _, _, _, _, _, hcalls, _, _⟩ :=
    toyStep_retry_table failingFirst (1 / 2) twoToyBatch startLoopState 0 (by decide)
      (by decide)
  refine ⟨y, hy, ?_⟩
  have h0 : startLoopState.st.f.calls = [] := rfl
  have hs1 : (failingFirst.minimize 0 c1).status = 1 := rfl
  have hs3 : (failingFirst.minimize 2 c3).status = 0 := rfl
  rw [hcalls, h0]
  simp only [List.length_nil, List.nil_append, zero_add]
  rw [if_pos hs1]
  show ([c1, c2] ++ (if (failingFirst.minimize 2 c3).status = 1 then [c3, c4] else [c3])).length
    = 3
  rw [hs3]
  rfl

/-! ### The batches of `generateToys` -/

/-- C22: `generateToys` for at least two toys, on a workspace that has the two
parameters of the perturbation if it has a fragile observable. The call returns. If the
fragile observable has the same value in the toys `0` and `1` of the first batch, the two
parameters are perturbed, a second batch is drawn from the perturbed workspace and is
returned as it is; otherwise the first batch is returned and the workspace is as before.
The sampler is called once or twice. -/
theorem generateToys_batches (cfg : PluginConfig) (w : RooWorkspace)
    (genCalls : List GenCall) (n : Int) (hn : 2 ≤ n)
    (hk : (∀ o ∈ w.obs, containsSubstr o.name "kD_k3pi_obs" = false)
      ∨ ("kD_k3pi" ∈ varNames w.pars ∧ "dD_k3pi" ∈ varNames w.pars)) :
    ∃ g, generateToys cfg w genCalls n = some g
      ∧ (Degenerate (toyOf cfg genCalls.length w n 0) (toyOf cfg genCalls.length w n 1) →
          ∃ k d, findVar w.pars "kD_k3pi" = some k ∧ findVar w.pars "dD_k3pi" = some d
            ∧ g.w.pars
                = setVal (setVal w.pars "kD_k3pi" (cfg.gaus 0 k.val)) "dD_k3pi"
                    (cfg.gaus 1 d.val)
            ∧ g.w.obs = w.obs
            ∧ g.genCalls
                = genCalls ++ [{ pars := w.pars, nEvents := n }, { pars := g.w.pars, nEvents := n }]
            ∧ g.dataset = generate cfg (genCalls.length + 1) g.w n)
      ∧ (¬ Degenerate (toyOf cfg genCalls.length w n 0) (toyOf cfg genCalls.length w n 1) →
          g.w = w ∧ g.genCalls = genCalls ++ [{ pars := w.pars, nEvents := n }]
            ∧ g.dataset = generate cfg genCalls.length w n)
      ∧ genCalls.length + 1 ≤ g.genCalls.length
      ∧ g.genCalls.length ≤ genCalls.length + 2 := by
  have h0 : (0 : Nat) < n.toNat := by omega
  have h1 : (1 : Nat) < n.toNat := by omega
  unfold generateToys Degenerate
  simp only []
  rw [generate_get, generate_get, if_pos h0, if_pos h1]
  simp only []
  cases hv0 : lastK3piValue (toyOf cfg genCalls.length w n 0) with
  | none =>
    have hall := (lastK3piValue_eq_none_iff _).mp hv0
    rw [varNames_toyOf] at hall
    have hv1 : lastK3piValue (toyOf cfg genCalls.length w n 1) = none := by
      rw [lastK3piValue_eq_none_iff, varNames_toyOf]
      exact hall
    rw [hv1]
    refine ⟨_, rfl, ?_, fun _ => ⟨rfl, rfl, rfl⟩, by simp, by simp⟩
    rintro ⟨v, hv, _⟩
    cases hv
  | some v0 =>
    cases hv1 : lastK3piValue (toyOf cfg genCalls.length w n 1) with
    | none =>
      have hall := (lastK3piValue_eq_none_iff _).mp hv1
      rw [varNames_toyOf] at hall
      have : lastK3piValue (toyOf cfg genCalls.length w n 0) = none := by
        rw [lastK3piValue_eq_none_iff, varNames_toyOf]
        exact hall
      rw [this] at hv0
      cases hv0
    | some v1 =>
      simp only []
      by_cases heq : v0 = v1
      · rw [if_pos heq]
        have hsome : ¬ (∀ o ∈ w.obs, containsSubstr o.name "kD_k3pi_obs" = false) := by
          intro hno
          have : lastK3piValue (toyOf cfg genCalls.length w n 0) = none := by
            rw [lastK3piValue_eq_none_iff, varNames_toyOf]
            intro name hname
            unfold varNames at hname
            obtain ⟨o, ho, rfl⟩ := List.mem_map.mp hname
            exact hno o ho
          rw [this] at hv0
          cases hv0
        obtain ⟨hkd, hdd⟩ := hk.resolve_left hsome
        obtain ⟨k, hk'⟩ := findVar_isSome_of_mem _ _ hkd
        obtain ⟨d, hd'⟩ := findVar_isSome_of_mem _ _ hdd
        rw [hk', hd']
        simp only []
        rw [generate_get, generate_get, if_pos h0, if_pos h1]
        simp only []
        refine ⟨_, rfl, ?_, ?_, by simp, by simp⟩
        · intro _
          refine ⟨k, d, rfl, rfl, rfl, rfl, ?_, ?_⟩
          · show genCalls ++ [_] ++ [_] = genCalls ++ [_, _]
            rw [List.append_assoc]
            rfl
          · show generate cfg (genCalls ++ [_]).length _ n = _
            rw [List.length_append]
            rfl
        · intro hnd
          exact absurd ⟨v1, by rw [heq], rfl⟩ hnd
      · rw [if_neg heq]
        refine ⟨_, rfl, ?_, fun _ => ⟨rfl, rfl, rfl⟩, by simp, by simp⟩
        rintro ⟨v, hv, hv'⟩
        cases hv
        cases hv'
        exact absurd rfl heq

/-- The witness of C22: the sampler of `stuckSampler` gives the fragile observable the
value `1` in every toy; the two parameters are perturbed from `1` and `2` to `2` and `4`,
and the sampler is called twice. -/
theorem generateToys_batches_witness :
    ∃ g, generateToys stuckSampler k3piWorkspace [] 2 = some g
      ∧ g.w.pars.map (fun v => (v.name, v.val)) = [("kD_k3pi", 2), ("dD_k3pi", 4)]
      ∧ g.genCalls.length = 2 := by
  obtain ⟨g, hg, hdeg, _, _, _⟩ :=
    generateToys_batches stuckSampler k3piWorkspace [] 2 (by decide)
      (Or.inr ⟨by decide, by decide⟩)
  have hd : Degenerate (toyOf stuckSampler ([] : List GenCall).length k3piWorkspace 2 0)
      (toyOf stuckSampler ([] : List GenCall).length k3piWorkspace 2 1) :=
    ⟨1, by rfl, by rfl⟩
  obtain ⟨k, d, hk, hd', hpars, _, hcalls, _⟩ := hdeg hd
  have hk1 : findVar k3piWorkspace.pars "kD_k3pi"
      = some { name := "kD_k3pi", val := 1, isConstant := false, min := 0, max := 10 } := by
    rfl
  have hd1 : findVar k3piWorkspace.pars "dD_k3pi"
      = some { name := "dD_k3pi", val := 2, isConstant := false, min := 0, max := 10 } := by
    rfl
  rw [hk1] at hk
  rw [hd1] at hd'
  cases hk
  cases hd'
  refine ⟨g, hg, ?_, ?_⟩
  · rw [hpars]
    have hne : ¬ ("kD_k3pi" = "dD_k3pi") := by decide
    norm_num [stuckSampler, twoToys, k3piWorkspace, setVal, hne]
  · rw [hcalls]
    rfl

/-! ### The three classes of `analyseToys` -/

theorem countP_three_classes {α : Type} (l : List α) (sel p q r : α → Bool)
    (h : ∀ x ∈ l,
      (sel x = true ∧ p x = true ∧ q x = false ∧ r x = false)
      ∨ (sel x = true ∧ p x = false ∧ q x = true ∧ r x = false)
      ∨ (sel x = true ∧ p x = false ∧ q x = false ∧ r x = true)
      ∨ (sel x = false ∧ p x = false ∧ q x = false ∧ r x = false)) :
    l.countP p + l.countP q + l.countP r = l.countP sel := by
  induction l with
  | nil => rfl
  | cons a l ih =>
    have iha := ih (fun x hx => h x (List.mem_cons_of_mem a hx))
    rw [List.countP_cons, List.countP_cons, List.countP_cons, List.countP_cons]
    rcases h a (List.mem_cons_self a l) with ⟨h0, h1, h2, h3⟩ | ⟨h0, h1, h2, h3⟩
        | ⟨h0, h1, h2, h3⟩ | ⟨h0, h1, h2, h3⟩ <;>
      simp only [h0, h1, h2, h3, if_true, if_false, Bool.false_eq_true] <;> omega

theorem analyseLoop_h_gof (s : Scanner) (t : ToyTree) (id : Int) (b : Nat) :
    (analyseLoop s t id).h_gof.GetBinContent b =
      (t.entries.countP (fun r => decide
        ((binned s id r ∧ inPhysicalRegion r ∧ r.chi2minGlobalToy > r.chi2minGlobal)
          ∧ (newHCL t).FindBin r.scanpoint = b)) : ℚ) := by
  unfold analyseLoop TH1F.GetBinContent
  rw [(filledWhen_h_gof s id).fArray]
  simp [analyseInit, newHCL_fArray]

theorem analyseLoop_entries_h_all (s : Scanner) (t : ToyTree) (id : Int) :
    (analyseLoop s t id).h_all.GetEntries
      = t.entries.countP (fun r => decide (binned s id r ∧ inPhysicalRegion r)) := by
  unfold analyseLoop TH1F.GetEntries
  rw [(filledWhen_h_all s id).fEntries]
  show 0 + _ = _
  rw [Nat.zero_add]

theorem analyseLoop_entries_h_background (s : Scanner) (t : ToyTree) (id : Int) :
    (analyseLoop s t id).h_background.GetEntries
      = t.entries.countP (fun r => decide (binned s id r ∧ ¬ inPhysicalRegion r)) := by
  unfold analyseLoop TH1F.GetEntries
  rw [(filledWhen_h_background s id).fEntries]
  show 0 + _ = _
  rw [Nat.zero_add]

/-- C27: with no plot-range clip configured, for every list of rows and every id filter:
the failed counter, the entries of the total counter and the entries of the background
counter count three classes of rows that exclude each other, and add up to the number of
rows that the filter selects; in every bin the better counter and the goodness-of-fit
counter are at most the total counter. -/
theorem analyseLoop_three_classes (s : Scanner) (t : ToyTree) (id : Int)
    (hclip : s.arg.pluginPlotRangeMin = s.arg.pluginPlotRangeMax) :
    (analyseLoop s t id).nfailed
        = t.entries.countP (fun r => decide (selected id r ∧ ¬ passesCuts r))
      ∧ (analyseLoop s t id).h_all.GetEntries
        = t.entries.countP
            (fun r => decide (selected id r ∧ passesCuts r ∧ inPhysicalRegion r))
      ∧ (analyseLoop s t id).h_background.GetEntries
        = t.entries.countP
            (fun r => decide (selected id r ∧ passesCuts r ∧ ¬ inPhysicalRegion r))
      ∧ (analyseLoop s t id).nfailed + (analyseLoop s t id).h_all.GetEntries
          + (analyseLoop s t id).h_background.GetEntries
        = t.entries.countP (fun r => decide (selected id r))
      ∧ ∀ b : Nat,
          (analyseLoop s t id).h_better.GetBinContent b
              ≤ (analyseLoop s t id).h_all.GetBinContent b
            ∧ (analyseLoop s t id).h_gof.GetBinContent b
              ≤ (analyseLoop s t id).h_all.GetBinContent b := by
  have hin : ∀ r : ToyRow, inPlotRange s.arg r := by
    intro r
    unfold inPlotRange
    rintro ⟨h1, _⟩
    exact h1 hclip
  have hall : (analyseLoop s t id).h_all.GetEntries
      = t.entries.countP
          (fun r => decide (selected id r ∧ passesCuts r ∧ inPhysicalRegion r)) := by
    rw [analyseLoop_entries_h_all]
    apply List.countP_congr
    intro r _
    simp only [decide_eq_true_eq, binned]
    constructor
    · rintro ⟨⟨h1, h2, _⟩, h4⟩
      exact ⟨h1, h2, h4⟩
    · rintro ⟨h1, h2, h4⟩
      exact ⟨⟨h1, h2, hin r⟩, h4⟩
  have hbkg : (analyseLoop s t id).h_background.GetEntries
      = t.entries.countP
          (fun r => decide (selected id r ∧ passesCuts r ∧ ¬ inPhysicalRegion r)) := by
    rw [analyseLoop_entries_h_background]
    apply List.countP_congr
    intro r _
    simp only [decide_eq_true_eq, binned]
    constructor
    · rintro ⟨⟨h1, h2, _⟩, h4⟩
      exact ⟨h1, h2, h4⟩
    · rintro ⟨h1, h2, h4⟩
      exact ⟨⟨h1, h2, hin r⟩, h4⟩
  refine ⟨analyseLoop_nfailed s t id, hall, hbkg, ?_, ?_⟩
  · rw [analyseLoop_nfailed, hall, hbkg]
    apply countP_three_classes
    intro r _
    by_cases h1 : selected id r
    · by_cases h2 : passesCuts r
      · by_cases h3 : inPhysicalRegion r
        · right; left
          simp [h1, h2, h3]
        · right; right; left
          simp [h1, h2, h3]
      · left
        simp [h1, h2]
    · right; right; right
      simp [h1]
  · intro b
    refine ⟨analyseLoop_better_le_all s t id b, ?_⟩
    rw [analyseLoop_h_gof, analyseLoop_h_all]
    have h := List.countP_mono_left
      (l := t.entries)
      (p := fun r => decide
        ((binned s id r ∧ inPhysicalRegion r ∧ r.chi2minGlobalToy > r.chi2minGlobal)
          ∧ (newHCL t).FindBin r.scanpoint = b))
      (q := fun r => decide ((binned s id r ∧ inPhysicalRegion r)
          ∧ (newHCL t).FindBin r.scanpoint = b))
      (by
        intro x _ hx
        simp only [decide_eq_true_eq] at hx ⊢
        exact ⟨⟨hx.1.1, hx.1.2.1⟩, hx.2⟩)
    exact_mod_cast h

/-- The witness of C27: of the four toys of `mixedIdToys`, the filter `id = 0` selects
three: one failed, one physical and one background. -/
theorem analyseLoop_three_classes_witness :
    (analyseLoop plainScanner mixedIdToys 0).nfailed = 1
      ∧ (analyseLoop plainScanner mixedIdToys 0).h_all.GetEntries = 1
      ∧ (analyseLoop plainScanner mixedIdToys 0).h_background.GetEntries = 1
      ∧ (analyseLoop plainScanner mixedIdToys 0).nfailed
          + (analyseLoop plainScanner mixedIdToys 0).h_all.GetEntries
          + (analyseLoop plainScanner mixedIdToys 0).h_background.GetEntries = 3 := by
  obtain ⟨h1, h2, h3, h4, _⟩ := analyseLoop_three_classes plainScanner mixedIdToys 0 rfl
  have hf : mixedIdToys.entries.countP
      (fun r => decide (selected 0 r ∧ ¬ passesCuts r)) = 1 := by
    norm_num [mixedIdToys, selected, passesCuts, failedRow, physicalRow, backgroundRow,
      List.countP_cons]
  have ha : mixedIdToys.entries.countP
      (fun r => decide (selected 0 r ∧ passesCuts r ∧ inPhysicalRegion r)) = 1 := by
    norm_num [mixedIdToys, selected, passesCuts, inPhysicalRegion, failedRow, physicalRow,
      backgroundRow, List.countP_cons]
  have hb : mixedIdToys.entries.countP
      (fun r => decide (selected 0 r ∧ passesCuts r ∧ ¬ inPhysicalRegion r)) = 1 := by
    norm_num [mixedIdToys, selected, passesCuts, inPhysicalRegion, failedRow, physicalRow,
      backgroundRow, List.countP_cons]
  rw [h1, h2, h3, hf, ha, hb]
  exact ⟨rfl, rfl, rfl, rfl⟩

/-! ### The scan coordinates and the bins of the CL histogram -/

theorem TH1F.FindBin_of_floor (h : TH1F) (x : ℚ) (i : Nat) (hlo : h.fXmin ≤ x)
    (hhi : x < h.fXmax)
    (hfl : Int.floor ((h.fNbins : ℚ) * (x - h.fXmin) / (h.fXmax - h.fXmin)) = (i : Int)) :
    h.FindBin x = i + 1 := by
  unfold TH1F.FindBin
  rw [if_neg (not_lt.mpr hlo), if_neg (not_not.mpr hhi), hfl, Int.toNat_ofNat, Nat.add_comm]

theorem scanCoordinate_eq_centre (s : PluginScanner) (hN : 1 ≤ s.hCL.fNbins)
    (hn : s.nPoints1d = (s.hCL.fNbins : Int)) (i : Nat) :
    scanCoordinate s i
      = s.hCL.fXmin + (s.hCL.fXmax - s.hCL.fXmin) * ((i : ℚ) + 1 / 2) / (s.hCL.fNbins : ℚ) := by
  have hN0 : s.hCL.fNbins ≠ 0 := by omega
  have hNq : (s.hCL.fNbins : ℚ) ≠ 0 := by exact_mod_cast hN0
  unfold scanCoordinate TH1F.GetBinWidth
  rw [if_neg hN0, hn]
  push_cast
  field_simp
  ring

/-- C29: for a CL histogram with `N ≥ 1` bins over `[min, max]`, `min < max`. If
`nPoints1d = N`, then for every `i < N` the scan coordinate number `i` is the centre of
the bin `i + 1`, its bin is `i + 1`, also in every histogram with the same axis, and the
index `FindBin - 1` is `i`, inside `[0, N)`. For every `nPoints1d`, each coordinate lies
above `min`, and all coordinates lie below `max` exactly when `nPoints1d < 2 N`. -/
theorem scanCoordinate_bins (s : PluginScanner) (hN : 1 ≤ s.hCL.fNbins)
    (hr : s.hCL.fXmin < s.hCL.fXmax) :
    (s.nPoints1d = (s.hCL.fNbins : Int) →
        ∀ i : Nat, i < s.hCL.fNbins →
          scanCoordinate s i = s.hCL.GetBinCenter (i + 1)
            ∧ ∀ h : TH1F, h.fNbins = s.hCL.fNbins → h.fXmin = s.hCL.fXmin →
                h.fXmax = s.hCL.fXmax →
                h.FindBin (scanCoordinate s i) = i + 1
                  ∧ ((h.FindBin (scanCoordinate s i) : Int) - 1 = (i : Int))
                  ∧ (0 : Int) ≤ (h.FindBin (scanCoordinate s i) : Int) - 1
                  ∧ (h.FindBin (scanCoordinate s i) : Int) - 1 < (s.hCL.fNbins : Int))
      ∧ (∀ i : Nat, (i : Int) < s.nPoints1d → s.hCL.fXmin < scanCoordinate s i)
      ∧ ((∀ i : Nat, (i : Int) < s.nPoints1d → scanCoordinate s i < s.hCL.fXmax)
          ↔ s.nPoints1d < 2 * (s.hCL.fNbins : Int)) := by
  have hN0 : s.hCL.fNbins ≠ 0 := by omega
  have hNpos : (0 : ℚ) < (s.hCL.fNbins : ℚ) := by exact_mod_cast hN
  have hL : (0 : ℚ) < s.hCL.fXmax - s.hCL.fXmin := by linarith
  have hw : s.hCL.GetBinWidth 1 = (s.hCL.fXmax - s.hCL.fXmin) / (s.hCL.fNbins : ℚ) := by
    unfold TH1F.GetBinWidth
    rw [if_neg hN0]
  have hwpos : 0 < s.hCL.GetBinWidth 1 := by
    rw [hw]
    exact div_pos hL hNpos
  refine ⟨?_, ?_, ?_⟩
  · intro hn i hi
    have hc := scanCoordinate_eq_centre s hN hn i
    have hiq : (i : ℚ) + 1 ≤ (s.hCL.fNbins : ℚ) := by exact_mod_cast hi
    constructor
    · rw [hc]
      unfold TH1F.GetBinCenter TH1F.GetBinWidth
      rw [if_neg hN0]
      push_cast
      field_simp
      ring
    · intro h h1 h2 h3
      have hfind : h.FindBin (scanCoordinate s i) = i + 1 := by
        apply TH1F.FindBin_of_floor
        · rw [h2, hc]
          have : 0 ≤ (s.hCL.fXmax - s.hCL.fXmin) * ((i : ℚ) + 1 / 2) / (s.hCL.fNbins : ℚ) := by
            positivity
          linarith
        · rw [h3, hc]
          have : (s.hCL.fXmax - s.hCL.fXmin) * ((i : ℚ) + 1 / 2) / (s.hCL.fNbins : ℚ)
              < s.hCL.fXmax - s.hCL.fXmin := by
            rw [div_lt_iff₀ hNpos]
            nlinarith
          linarith
        · rw [h1, h2, h3, hc]
          have : (s.hCL.fNbins : ℚ)
              * (s.hCL.fXmin
                  + (s.hCL.fXmax - s.hCL.fXmin) * ((i : ℚ) + 1 / 2) / (s.hCL.fNbins : ℚ)
                - s.hCL.fXmin) / (s.hCL.fXmax - s.hCL.fXmin) = (i : ℚ) + 1 / 2 := by
            field_simp
            ring
          rw [this, Int.floor_eq_iff]
          constructor
          · push_cast
            linarith
          · push_cast
            linarith
      rw [hfind]
      refine ⟨rfl, ?_, ?_, ?_⟩
      · push_cast
        ring
      · push_cast
        omega
      · push_cast
        omega
  · intro i hi
    have hnpos : (0 : ℚ) < (s.nPoints1d : ℚ) := by
      have : (0 : Int) < s.nPoints1d := by omega
      exact_mod_cast this
    unfold scanCoordinate
    have : 0 ≤ (s.hCL.fXmax - s.hCL.fXmin) * (i : ℚ) / (s.nPoints1d : ℚ) := by positivity
    linarith
  · constructor
    · intro hall
      by_contra hcon
      have hn2 : 2 * (s.hCL.fNbins : Int) ≤ s.nPoints1d := not_lt.mp hcon
      have hn1 : (1 : Int) ≤ s.nPoints1d := by omega
      have hlast := hall (s.nPoints1d - 1).toNat (by omega)
      have hcast : (((s.nPoints1d - 1).toNat : Nat) : ℚ) = (s.nPoints1d : ℚ) - 1 := by
        have : (((s.nPoints1d - 1).toNat : Nat) : Int) = s.nPoints1d - 1 :=
          Int.toNat_of_nonneg (by omega)
        have h' : ((((s.nPoints1d - 1).toNat : Nat) : Int) : ℚ) = ((s.nPoints1d - 1 : Int) : ℚ) := by
          rw [this]
        push_cast at h'
        exact h'
      have hnpos : (0 : ℚ) < (s.nPoints1d : ℚ) := by exact_mod_cast hn1
      have hn2q : 2 * (s.hCL.fNbins : ℚ) ≤ (s.nPoints1d : ℚ) := by exact_mod_cast hn2
      unfold scanCoordinate at hlast
      rw [hw, hcast] at hlast
      have h1 : (s.hCL.fXmax - s.hCL.fXmin) * ((s.nPoints1d : ℚ) - 1) / (s.nPoints1d : ℚ)
          = (s.hCL.fXmax - s.hCL.fXmin) - (s.hCL.fXmax - s.hCL.fXmin) / (s.nPoints1d : ℚ) := by
        field_simp
        ring
      rw [h1] at hlast
      have h2 : (s.hCL.fXmax - s.hCL.fXmin) / (s.nPoints1d : ℚ)
          ≤ (s.hCL.fXmax - s.hCL.fXmin) / (s.hCL.fNbins : ℚ) / 2 := by
        rw [div_div]
        exact div_le_div_of_nonneg_left hL.le (by positivity) (by linarith)
      linarith
    · intro hlt i hi
      have hi0 : (0 : Int) ≤ (i : Int) := Int.natCast_nonneg i
      have hnpos : (0 : ℚ) < (s.nPoints1d : ℚ) := by
        have : (0 : Int) < s.nPoints1d := by omega
        exact_mod_cast this
      have hiq : (i : ℚ) + 1 ≤ (s.nPoints1d : ℚ) := by
        have : (i : Int) + 1 ≤ s.nPoints1d := by omega
        exact_mod_cast this
      have hltq : (s.nPoints1d : ℚ) < 2 * (s.hCL.fNbins : ℚ) := by exact_mod_cast hlt
      unfold scanCoordinate
      rw [hw]
      have h1 : (s.hCL.fXmax - s.hCL.fXmin) * (i : ℚ) / (s.nPoints1d : ℚ)
          ≤ (s.hCL.fXmax - s.hCL.fXmin)
            - (s.hCL.fXmax - s.hCL.fXmin) / (s.nPoints1d : ℚ) := by
        rw [div_le_iff₀ hnpos]
        have hmul : ((s.hCL.fXmax - s.hCL.fXmin)
            - (s.hCL.fXmax - s.hCL.fXmin) / (s.nPoints1d : ℚ)) * (s.nPoints1d : ℚ)
            = (s.hCL.fXmax - s.hCL.fXmin) * (s.nPoints1d : ℚ)
              - (s.hCL.fXmax - s.hCL.fXmin) := by
          field_simp
        rw [hmul]
        nlinarith
      have h2 : (s.hCL.fXmax - s.hCL.fXmin) / (s.hCL.fNbins : ℚ) / 2
          < (s.hCL.fXmax - s.hCL.fXmin) / (s.nPoints1d : ℚ) := by
        rw [div_div]
        exact div_lt_div_of_pos_left hL hnpos (by linarith)
      linarith

/-- The witness of C29: `clippedScanner` has four bins over `[0, 4]` and four scan
points; the coordinate number `2` is `5/2`, the centre of bin `3`, and every coordinate
lies below `4`. -/
theorem scanCoordinate_bins_witness :
    scanCoordinate clippedScanner 2 = clippedScanner.hCL.GetBinCenter 3
      ∧ clippedScanner.hCL.FindBin (scanCoordinate clippedScanner 2) = 3
      ∧ ∀ i : Nat, (i : Int) < clippedScanner.nPoints1d →
          scanCoordinate clippedScanner i < clippedScanner.hCL.fXmax := by
  have hN : clippedScanner.hCL.fNbins = 4 := rfl
  obtain ⟨hcentre, _, hbelow⟩ := scanCoordinate_bins clippedScanner (by rw [hN]; decide)
    (by norm_num [clippedScanner, TH1F.create])
  obtain ⟨h1, h2⟩ := hcentre (by rw [hN]; rfl) 2 (by rw [hN]; decide)
  exact ⟨h1, (h2 clippedScanner.hCL rfl rfl rfl).1,
    hbelow.mpr (by rw [hN]; decide)⟩

/-! ### `cacheParameters` -/

/-- C30 (the code at the failing input): in `skewScan` the requested point `(1/2, 3/2)`
lies in bin `1` of the x axis and in bin `1` of the y axis, so that the result to write
is `curveResults2d[0][0]`, marked `0`. The code looks the y coordinate up on the x axis,
finds bin `2`, and writes `curveResults2d[0][1]`, marked `1`. -/
theorem cacheParameters_y_bin_from_x_axis :
    skewScan.hCL2d.fXaxis.FindBin (1 / 2) = 1
      ∧ skewScan.hCL2d.fYaxis.FindBin (3 / 2) = 1
      ∧ skewScan.hCL2d.fXaxis.FindBin (3 / 2) = 2
      ∧ cacheParameters "g" skewScan
          = some (some [{ index := 0, label := CacheLabel.at2d (1 / 2) (3 / 2)
                          result := resultMarked 1 }])
      ∧ (resultMarked 1).minNll ≠ (resultMarked 0).minNll := by
  have hx : skewScan.hCL2d.fXaxis.FindBin (1 / 2) = 1 := by
    norm_num [skewScan, TAxis.FindBin]
  have hy : skewScan.hCL2d.fYaxis.FindBin (3 / 2) = 1 := by
    norm_num [skewScan, TAxis.FindBin]
  have hyx : skewScan.hCL2d.fXaxis.FindBin (3 / 2) = 2 := by
    norm_num [skewScan, TAxis.FindBin]
  refine ⟨hx, hy, hyx, ?_, by norm_num [resultMarked]⟩
  have hzip : skewScan.savenuisances2dx.zip skewScan.savenuisances2dy
      = [((1 : ℚ) / 2, (3 : ℚ) / 2)] := rfl
  have hloop : cachePoints2d skewScan [((1 : ℚ) / 2, (3 : ℚ) / 2)] []
      = some ([{ index := 0, label := CacheLabel.at2d (1 / 2) (3 / 2)
                 result := resultMarked 1 }], false) := by
    rw [cachePoints2d, hx, hyx]
    rfl
  unfold cacheParameters
  rw [if_neg (by decide)]
  simp only []
  rw [hzip]
  show (match cachePoints2d skewScan [((1 : ℚ) / 2, (3 : ℚ) / 2)] [] with
    | none => none
    | some (out, _) => some (some out)) = _
  rw [hloop]

/-! ### `setObservablesToy` -/

theorem set_eq_self_of_getElem? {α : Type} (l : List α) (i : Nat) (a : α)
    (h : l[i]? = some a) : l.set i a = l := by
  apply List.ext_getElem?
  intro j
  rw [List.getElem?_set]
  by_cases hij : i = j
  · subst hij
    rw [if_pos rfl, h]
    have hlt : i < l.length := by
      obtain ⟨hlt, _⟩ := List.getElem?_eq_some.mp h
      exact hlt
    rw [if_pos hlt]
  · rw [if_neg hij]

theorem loadToyObs_defined (toyData : RooArgSet) :
    ∀ (is : List Nat) (observables : RooArgSet),
      (∀ i ∈ is, i < observables.length) →
      (∀ name ∈ varNames observables, name ∈ varNames toyData) →
      ∃ obs', loadToyObs (some toyData) is observables = some obs'
        ∧ varNames obs' = varNames observables := by
  intro is
  induction is with
  | nil =>
    intro observables _ _
    exact ⟨observables, rfl, rfl⟩
  | cons i is ih =>
    intro observables hlen hnames
    have hi := hlen i (List.mem_cons_self _ _)
    have hget : observables[i]? = some observables[i] := List.getElem?_eq_getElem hi
    have hmem : observables[i].name ∈ varNames observables := by
      unfold varNames
      exact List.mem_map_of_mem _ (List.getElem_mem hi)
    obtain ⟨v, hv⟩ := findVar_isSome_of_mem toyData _ (hnames _ hmem)
    have hvn : varNames (observables.set i { observables[i] with val := v.val })
        = varNames observables := by
      unfold varNames
      rw [List.map_set]
      apply set_eq_self_of_getElem?
      rw [List.getElem?_map, hget]
      rfl
    obtain ⟨obs', h1, h2⟩ := ih (observables.set i { observables[i] with val := v.val })
      (by
        intro k hk
        rw [List.length_set]
        exact hlen k (List.mem_cons_of_mem _ hk))
      (by rw [hvn]; exact hnames)
    refine ⟨obs', ?_, by rw [h2, hvn]⟩
    unfold loadToyObs
    simp only [hget, hv]
    exact h1

theorem generateObs_length (sample : Nat → Nat → String → ℚ) (b : Nat)
    (observables : RooArgSet) (n : Nat) :
    (generateObs sample b observables (n : Int)).entries.length = n := by
  unfold generateObs
  simp

theorem generateObs_varNames (sample : Nat → Nat → String → ℚ) (b : Nat)
    (observables : RooArgSet) (nToyObs : Int) :
    ∀ toy ∈ (generateObs sample b observables nToyObs).entries,
      varNames toy = varNames observables := by
  intro toy htoy
  unfold generateObs at htoy
  obtain ⟨j, _, rfl⟩ := List.mem_map.mp htoy
  unfold varNames
  rw [List.map_map]
  rfl

theorem succ_mod_cases (k n : Nat) (hn : 0 < n) :
    (k % n + 1 = n ∧ (k + 1) % n = 0) ∨ (k % n + 1 < n ∧ (k + 1) % n = k % n + 1) := by
  have hlt : k % n < n := Nat.mod_lt k hn
  have hk : k + 1 = (k % n + 1) + n * (k / n) := by
    have := Nat.mod_add_div k n
    omega
  by_cases h : k % n + 1 = n
  · left
    refine ⟨h, ?_⟩
    rw [hk, Nat.add_mul_mod_self_left, h, Nat.mod_self]
  · right
    have hlt' : k % n + 1 < n := by omega
    refine ⟨hlt', ?_⟩
    rw [hk, Nat.add_mul_mod_self_left, Nat.mod_eq_of_lt hlt']

theorem setObservablesToy_step (sample : Nat → Nat → String → ℚ) (names : List String)
    (n k : Nat) (p : ToyObsState) (hn : 1 ≤ n) (hmax : (n : Int) ≤ 2147483647)
    (h : ToyObsInv names n k p) :
    ∃ q, setObservablesToy sample p = some (Outcome.returned q)
      ∧ ToyObsInv names n (k + 1) q := by
  obtain ⟨hpdf, hnt, hno, hnames, hgen, hreads, h0, hpos⟩ := h
  have hkn : k % n < n := Nat.mod_lt k (by omega)
  -- whether the call generates a batch
  have hregen : (p.toyObservables.isNone || decide (p.iToyObs = p.nToyObs))
      = decide (k % n = 0) := by
    rcases Nat.eq_zero_or_pos k with hk | hk
    · obtain ⟨ht, _⟩ := h0 hk
      rw [ht, hk]
      simp
    · obtain ⟨hi, toys, ht, _, _⟩ := hpos hk
      rw [ht, hi, hnt]
      have hk1 : k - 1 + 1 = k := by omega
      have e : ((((k - 1) % n : Nat) : Int) + 1 = (n : Int)) ↔ (k - 1) % n + 1 = n := by
        constructor <;> intro hc <;> exact_mod_cast hc
      simp only [Option.isNone_some, Bool.false_or]
      rw [decide_eq_decide, e]
      rcases succ_mod_cases (k - 1) n (by omega) with ⟨h1, h2⟩ | ⟨h1, h2⟩
      · rw [hk1] at h2
        exact ⟨fun _ => h2, fun _ => h1⟩
      · rw [hk1] at h2
        constructor
        · intro hc
          omega
        · intro hc
          omega
  -- the batch and the index that the call uses
  have huse : ∃ toys,
      (if (p.toyObservables.isNone || decide (p.iToyObs = p.nToyObs)) = true then
          some (generateObs sample (p.generated.count true) p.observables p.nToyObs)
        else p.toyObservables) = some toys
      ∧ toys.entries.length = n ∧ (∀ toy ∈ toys.entries, varNames toy = names)
      ∧ (if (p.toyObservables.isNone || decide (p.iToyObs = p.nToyObs)) = true then 0
          else p.iToyObs) = ((k % n : Nat) : Int) := by
    rw [hregen]
    by_cases hz : k % n = 0
    · rw [if_pos (by simpa using hz), if_pos (by simpa using hz)]
      refine ⟨_, rfl, ?_, ?_, by rw [hz]; rfl⟩
      · rw [hnt]
        exact generateObs_length sample _ _ n
      · intro toy htoy
        rw [generateObs_varNames sample _ _ _ toy htoy, hnames]
    · rw [if_neg (by simpa using hz), if_neg (by simpa using hz)]
      have hk : 0 < k := by
        rcases Nat.eq_zero_or_pos k with hk | hk
        · rw [hk] at hz
          exact absurd (Nat.zero_mod n) hz
        · exact hk
      obtain ⟨hi, toys, ht, hl, hv⟩ := hpos hk
      refine ⟨toys, ht, hl, hv, ?_⟩
      rw [hi]
      have hk1 : k - 1 + 1 = k := by omega
      rcases succ_mod_cases (k - 1) n (by omega) with ⟨h1, h2⟩ | ⟨h1, h2⟩
      · rw [hk1] at h2
        exact absurd h2 hz
      · rw [hk1] at h2
        rw [h2]
        push_cast
        rfl
  obtain ⟨toys, htoys, hlen, hvn, hidx⟩ := huse
  have hget : ∃ toyData, toys.get (k % n) = some toyData ∧ varNames toyData = names := by
    have hlt : k % n < toys.entries.length := by rw [hlen]; exact hkn
    refine ⟨toys.entries[k % n], ?_, hvn _ (List.getElem_mem hlt)⟩
    unfold RooDataSet.get
    exact List.getElem?_eq_getElem hlt
  obtain ⟨toyData, htoy, htn⟩ := hget
  obtain ⟨obs', hload, hobs'⟩ := loadToyObs_defined toyData (List.range p.nObs.toNat)
    p.observables
    (by
      intro i hi
      have := List.mem_range.mp hi
      rw [hno] at this
      have hl : p.observables.length = names.length := by
        rw [← hnames]
        unfold varNames
        rw [List.length_map]
      omega)
    (by rw [hnames, htn]; exact fun _ hx => hx)
  refine ⟨{ p with
      obsValSource := "toy"
      toyObservables := some toys
      observables := obs'
      iToyObs := ((k % n : Nat) : Int) + 1
      generated := p.generated ++ [decide (k % n = 0)]
      reads := p.reads ++ [((k % n : Nat) : Int)] }, ?_, ?_⟩
  · unfold setObservablesToy
    simp only []
    rw [if_neg (by rw [hpdf]; simp)]
    by_cases hz : (p.toyObservables.isNone || decide (p.iToyObs = p.nToyObs)) = true
    · rw [if_pos hz] at htoys hidx
      simp only [hz, if_true]
      rw [Option.some.injEq] at htoys
      rw [htoys]
      have hi0 : (0 : Int) = ((k % n : Nat) : Int) := hidx
      have hkz : k % n = 0 := by exact_mod_cast hi0.symm
      have hg0 : toys.get (Int.toNat 0) = some toyData := by
        rw [hkz] at htoy
        exact htoy
      rw [if_neg (by decide), hg0, hload]
      simp only []
      rw [hregen] at hz
      rw [wrapInt_eq_self _ (by norm_num) (by norm_num), hkz]
      simp [hz, hkz, hregen]
    · have hz' : (p.toyObservables.isNone || decide (p.iToyObs = p.nToyObs)) = false := by
        rw [Bool.not_eq_true] at hz
        exact hz
      rw [if_neg hz] at htoys hidx
      simp only [hz', Bool.false_eq_true, if_false]
      rw [htoys]
      simp only []
      rw [hidx, if_neg (by omega), Int.toNat_ofNat, htoy, hload]
      simp only []
      rw [wrapInt_eq_self _ (by omega) (by omega)]
      rw [hregen] at hz'
      simp [hz', hregen]
  · refine ⟨hpdf, hnt, hno, by rw [hobs', hnames], ?_, ?_, ?_, ?_⟩
    · show p.generated ++ [_] = _
      rw [List.range_succ, List.map_append, hgen]
      rfl
    · show p.reads ++ [_] = _
      rw [List.range_succ, List.map_append, hreads]
      rfl
    · intro hk
      omega
    · intro _
      refine ⟨?_, toys, rfl, hlen, hvn⟩
      show ((k % n : Nat) : Int) + 1 = _
      rw [Nat.add_sub_cancel]

theorem setObservablesToyTimes_inv (sample : Nat → Nat → String → ℚ)
    (observables : RooArgSet) (n : Nat) (hn : 1 ≤ n) (hmax : (n : Int) ≤ 2147483647) :
    ∀ k : Nat, ∃ q,
      setObservablesToyTimes sample k
          (ToyObsState.fresh observables (observables.length : Int) (n : Int))
        = some (Outcome.returned q)
      ∧ ToyObsInv (varNames observables) n k q := by
  intro k
  induction k with
  | zero =>
    refine ⟨_, rfl, rfl, rfl, ?_, rfl, rfl, rfl, fun _ => ⟨rfl, rfl⟩, fun h => absurd h (by decide)⟩
    show ((observables.length : Nat) : Int) = ((varNames observables).length : Int)
    unfold varNames
    rw [List.length_map]
  | succ k ih =>
    obtain ⟨q, hq, hinv⟩ := ih
    obtain ⟨q', hq', hinv'⟩ := setObservablesToy_step sample _ n k q hn hmax hinv
    refine ⟨q', ?_, hinv'⟩
    rw [setObservablesToyTimes, hq]
    exact hq'

/-- C26: on a PDF that has just been set up (pdf built, no toys generated yet, toy index
0) with a batch size `n ≥ 1`, any number `k` of calls of `setObservablesToy` return; after
them the toy index is between 1 and `n` (for `k ≥ 1`) and the current batch holds `n` toys;
the call number `c + 1` read the toy number `c mod n`, which is below `n`, and generated a
new batch exactly when `c mod n = 0`. -/
theorem setObservablesToy_batches (sample : Nat → Nat → String → ℚ)
    (observables : RooArgSet) (n k : Nat) (hn : 1 ≤ n) (hmax : (n : Int) ≤ 2147483647) :
    ∃ q,
      setObservablesToyTimes sample k
          (ToyObsState.fresh observables (observables.length : Int) (n : Int))
        = some (Outcome.returned q)
      ∧ (0 < k → 1 ≤ q.iToyObs ∧ q.iToyObs ≤ (n : Int)
          ∧ ∃ toys, q.toyObservables = some toys ∧ toys.entries.length = n)
      ∧ q.reads = (List.range k).map (fun c => ((c % n : Nat) : Int))
      ∧ (∀ i ∈ q.reads, 0 ≤ i ∧ i < (n : Int))
      ∧ q.generated = (List.range k).map (fun c => decide (c % n = 0)) := by
  obtain ⟨q, hq, _, _, _, _, hgen, hreads, _, hpos⟩ :=
    setObservablesToyTimes_inv sample observables n hn hmax k
  refine ⟨q, hq, ?_, hreads, ?_, hgen⟩
  · intro hk
    obtain ⟨hi, toys, ht, hl, _⟩ := hpos hk
    have hlt : (k - 1) % n < n := Nat.mod_lt _ (by omega)
    refine ⟨?_, ?_, toys, ht, hl⟩
    · rw [hi]
      omega
    · rw [hi]
      omega
  · intro i hi
    rw [hreads] at hi
    obtain ⟨c, _, rfl⟩ := List.mem_map.mp hi
    have hlt : c % n < n := Nat.mod_lt _ (by omega)
    constructor
    · omega
    · omega

/-- The witness of C26: with a batch of two toys, three calls read the toys 0, 1, 0 and
generate a batch on the first and on the third call. -/
theorem setObservablesToy_batches_witness :
    ∃ q,
      setObservablesToyTimes (fun b j _ => (b : ℚ) * 10 + j) 3
          (ToyObsState.fresh oneObservable ((oneObservable.length : Nat) : Int) ((2 : Nat) : Int))
        = some (Outcome.returned q)
      ∧ (0 < 3 → 1 ≤ q.iToyObs ∧ q.iToyObs ≤ ((2 : Nat) : Int)
          ∧ ∃ toys, q.toyObservables = some toys ∧ toys.entries.length = 2)
      ∧ q.reads = (List.range 3).map (fun c => ((c % 2 : Nat) : Int))
      ∧ (∀ i ∈ q.reads, 0 ≤ i ∧ i < ((2 : Nat) : Int))
      ∧ q.generated = (List.range 3).map (fun c => decide (c % 2 = 0)) :=
  setObservablesToy_batches (fun b j _ => (b : ℚ) * 10 + j) oneObservable 2 3
    (by decide) (by decide)

/-! ### `uniquify` and `getBaseName` -/

theorem replaceGo_skip_all (s1 s2 : List Char) :
    ∀ (l : List Char) (skip : Nat), l.length ≤ skip → replaceGo s1 s2 skip l = [] := by
  intro l
  induction l with
  | nil =>
    intro skip _
    cases skip <;> rfl
  | cons c t ih =>
    intro skip h
    cases skip with
    | zero => simp at h
    | succ k =>
      rw [replaceGo]
      exact ih k (by simpa using h)

theorem replaceGo_no_occurrence (s1 s2 : List Char) :
    ∀ l : List Char, (∀ t ∈ l.tails, s1.isPrefixOf t = false) → replaceGo s1 s2 0 l = l := by
  intro l
  induction l with
  | nil => intro _; rfl
  | cons c t ih =>
    intro h
    have h0 : s1.isPrefixOf (c :: t) = false := h _ (by simp)
    rw [replaceGo, h0]
    simp only [Bool.false_eq_true, if_false]
    rw [ih (fun u hu => h u (by simp [hu]))]

theorem uid_not_straddling (d : List Char) :
    ∀ t : List Char, t ≠ [] → ['U', 'I', 'D'].isPrefixOf t = false →
      ('U' :: 'I' :: 'D' :: d).isPrefixOf (t ++ 'U' :: 'I' :: 'D' :: d) = false := by
  intro t ht h
  match t, ht, h with
  | [c1], _, _ =>
    simp [List.isPrefixOf]
  | [c1, c2], _, _ =>
    simp [List.isPrefixOf]
  | c1 :: c2 :: c3 :: t', _, h =>
    simp [List.isPrefixOf] at h ⊢
    intro h1 h2 h3
    exact absurd h3 (h h1 h2)

theorem replaceGo_suffix (d s2 : List Char) :
    ∀ b : List Char, (∀ t ∈ b.tails, ['U', 'I', 'D'].isPrefixOf t = false) →
      replaceGo ('U' :: 'I' :: 'D' :: d) s2 0 (b ++ 'U' :: 'I' :: 'D' :: d) = b ++ s2 := by
  intro b
  induction b with
  | nil =>
    intro _
    show replaceGo _ _ 0 ('U' :: 'I' :: 'D' :: d) = s2
    rw [replaceGo]
    have hp : ('U' :: 'I' :: 'D' :: d).isPrefixOf ('U' :: 'I' :: 'D' :: d) = true := by
      simp
    rw [if_pos hp, replaceGo_skip_all _ _ _ _ (by simp)]
    simp
  | cons c t ih =>
    intro h
    have h0 := uid_not_straddling d (c :: t) (by simp) (h _ (by simp))
    rw [List.cons_append] at h0 ⊢
    rw [replaceGo, h0]
    simp only [Bool.false_eq_true, if_false]
    rw [ih (fun u hu => h u (by simp [hu]))]
    rfl

theorem uid_toList (x : String) :
    ("UID" ++ x).toList = 'U' :: 'I' :: 'D' :: x.toList := by
  show ("UID" ++ x).data = _
  rw [String.data_append]
  rfl

theorem uid_ne_empty (x : String) : ¬ ("UID" ++ x = "") := by
  intro h
  have h2 := congrArg String.toList h
  rw [uid_toList] at h2
  exact absurd h2 (by simp)

theorem no_uid_tails (b : String) (hb : containsSubstr b "UID" = false) :
    ∀ t ∈ b.toList.tails, ['U', 'I', 'D'].isPrefixOf t = false := by
  unfold containsSubstr at hb
  rw [List.any_eq_false] at hb
  intro t ht
  exact Bool.eq_false_iff.mpr (hb t ht)

theorem containsSubstr_uid_false (b x : String) (hb : containsSubstr b "UID" = false) :
    containsSubstr b ("UID" ++ x) = false := by
  unfold containsSubstr
  rw [List.any_eq_false]
  intro t ht
  have h1 := no_uid_tails b hb t ht
  rw [uid_toList]
  intro h2
  rw [List.isPrefixOf_iff_prefix] at h2
  have h3 : ['U', 'I', 'D'] <+: t :=
    List.IsPrefix.trans (List.prefix_append ['U', 'I', 'D'] x.toList) h2
  rw [← List.isPrefixOf_iff_prefix] at h3
  rw [h3] at h1
  exact absurd h1 (by decide)

theorem containsSubstr_suffix (b u : String) : containsSubstr (b ++ u) u = true := by
  unfold containsSubstr
  rw [List.any_eq_true]
  refine ⟨u.toList, ?_, ?_⟩
  · rw [List.mem_tails]
    show u.data <:+ (b ++ u).data
    rw [String.data_append]
    exact List.suffix_append _ _
  · rw [List.isPrefixOf_iff_prefix]

theorem replaceAll_uid_suffix (b x r : String) (hb : containsSubstr b "UID" = false) :
    replaceAll (b ++ ("UID" ++ x)) ("UID" ++ x) r = b ++ r := by
  unfold replaceAll
  rw [if_neg (uid_ne_empty x)]
  apply String.ext
  show replaceGo _ _ 0 (b ++ ("UID" ++ x)).data = (b ++ r).data
  rw [String.data_append b]
  have hx : ("UID" ++ x).data = 'U' :: 'I' :: 'D' :: x.toList := uid_toList x
  rw [uid_toList, hx, String.data_append]
  exact replaceGo_suffix x.toList r.toList b.toList (no_uid_tails b hb)

theorem replaceAll_uid_absent (b x r : String) (hb : containsSubstr b "UID" = false) :
    replaceAll b ("UID" ++ x) r = b := by
  unfold replaceAll
  rw [if_neg (uid_ne_empty x)]
  apply String.ext
  show replaceGo _ _ 0 b.toList = b.data
  rw [replaceGo_no_occurrence]
  · rfl
  · have h := containsSubstr_uid_false b x hb
    unfold containsSubstr at h
    rw [List.any_eq_false] at h
    intro t ht
    have h2 := h t ht
    rw [uid_toList] at h2 ⊢
    exact Bool.eq_false_iff.mpr h2

theorem uniquify_spec (b x : String) (uID : Int) (p : PdfNames) (pdfName : String)
    (hb : containsSubstr b "UID" = false)
    (hid : p.uniqueID = "UID" ++ x) (hpdf : p.pdfName = some pdfName)
    (hname : p.name = b ∨ p.name = b ++ ("UID" ++ x)) :
    ∃ q, uniquify uID p = some (Outcome.returned q)
      ∧ q.name = b ++ ("UID" ++ toString uID)
      ∧ q.uniqueID = "UID" ++ toString uID
      ∧ (∃ pdfName', q.pdfName = some pdfName')
      ∧ q.m_isCrossCorPdf = p.m_isCrossCorPdf
      ∧ (p.m_isCrossCorPdf = true → q.observables = p.observables ∧ q.theory = p.theory) := by
  have hn : uniquifyThisString p p.name uID = b ++ ("UID" ++ toString uID) := by
    unfold uniquifyThisString
    rw [hid]
    rcases hname with h | h
    · rw [h, containsSubstr_uid_false b x hb]
      simp
    · rw [h, containsSubstr_suffix]
      simp only [if_true]
      exact replaceAll_uid_suffix b x _ hb
  have he : ∀ q : PdfNames, q.uniqueID = p.uniqueID →
      uniquifyThisString q "" uID = "UID" ++ toString uID := by
    intro q hq
    unfold uniquifyThisString
    rw [hq, hid]
    have hempty : containsSubstr "" "UID" = false := by decide
    rw [containsSubstr_uid_false "" x hempty]
    simp
  unfold uniquify
  rw [if_neg (by rw [hid]; exact uid_ne_empty x), hpdf]
  simp only []
  by_cases hc : p.m_isCrossCorPdf = true
  · rw [if_neg (not_not.mpr hc)]
    exact ⟨_, rfl, hn, he _ rfl, ⟨_, rfl⟩, rfl, fun _ => ⟨rfl, rfl⟩⟩
  · rw [if_pos hc]
    exact ⟨_, rfl, hn, he _ rfl, ⟨_, rfl⟩, rfl, fun h => absurd h hc⟩

/-- C24: for a base name `b` without the substring `UID`, on a PDF named `b` with the
initial unique ID `UID0` and a built pdf: `getBaseName` returns `b`; `uniquify a` returns
and leaves the name `b` followed by `UID<a>`; a following `uniquify c` returns and leaves
the name `b` followed by `UID<c>`; `getBaseName` returns `b` after each of the two; and
for a cross-correlation PDF the names of the observables and of the theory parameters are
the same after both. -/
theorem uniquify_replaces_id (b pdfName : String) (observables theory : List String)
    (isCrossCorPdf : Bool) (a c : Int) (hb : containsSubstr b "UID" = false) :
    getBaseName (PdfNames.create b pdfName observables theory isCrossCorPdf) = b
      ∧ ∃ p1 p2,
          uniquify a (PdfNames.create b pdfName observables theory isCrossCorPdf)
            = some (Outcome.returned p1)
          ∧ p1.name = b ++ ("UID" ++ toString a)
          ∧ getBaseName p1 = b
          ∧ uniquify c p1 = some (Outcome.returned p2)
          ∧ p2.name = b ++ ("UID" ++ toString c)
          ∧ getBaseName p2 = b
          ∧ (isCrossCorPdf = true →
              p1.observables = observables ∧ p1.theory = theory
                ∧ p2.observables = observables ∧ p2.theory = theory) := by
  have h0 : getBaseName (PdfNames.create b pdfName observables theory isCrossCorPdf) = b :=
    replaceAll_uid_absent b "0" "" hb
  obtain ⟨p1, hp1, hn1, hid1, ⟨pdfName1, hpdf1⟩, hc1, hobs1⟩ :=
    uniquify_spec b "0" a (PdfNames.create b pdfName observables theory isCrossCorPdf)
      pdfName hb rfl rfl (Or.inl rfl)
  obtain ⟨p2, hp2, hn2, hid2, _, _, hobs2⟩ :=
    uniquify_spec b (toString a) c p1 pdfName1 hb hid1 hpdf1 (Or.inr hn1)
  have hb1 : getBaseName p1 = b := by
    unfold getBaseName
    rw [hn1, hid1, replaceAll_uid_suffix b _ "" hb]
    exact String.append_empty b
  have hb2 : getBaseName p2 = b := by
    unfold getBaseName
    rw [hn2, hid2, replaceAll_uid_suffix b _ "" hb]
    exact String.append_empty b
  refine ⟨h0, p1, p2, hp1, hn1, hb1, hp2, hn2, hb2, ?_⟩
  intro hcross
  obtain ⟨ho1, ht1⟩ := hobs1 hcross
  obtain ⟨ho2, ht2⟩ := hobs2 (by rw [hc1]; exact hcross)
  exact ⟨ho1, ht1, ho2.trans ho1, ht2.trans ht1⟩

/-- The witness of C24: the cross-correlation PDF `pdf_x` with the observable `obs_x` and
the parameter `g`, uniquified with the id `3` and then with the id `12`. -/
theorem uniquify_replaces_id_witness :
    containsSubstr "pdf_x" "UID" = false
      ∧ getBaseName (PdfNames.create "pdf_x" "pdf_x" ["obs_x"] ["g"] true) = "pdf_x"
      ∧ ∃ p1 p2,
          uniquify 3 (PdfNames.create "pdf_x" "pdf_x" ["obs_x"] ["g"] true)
            = some (Outcome.returned p1)
          ∧ p1.name = "pdf_x" ++ ("UID" ++ toString (3 : Int))
          ∧ getBaseName p1 = "pdf_x"
          ∧ uniquify 12 p1 = some (Outcome.returned p2)
          ∧ p2.name = "pdf_x" ++ ("UID" ++ toString (12 : Int))
          ∧ getBaseName p2 = "pdf_x"
          ∧ (true = true →
              p1.observables = ["obs_x"] ∧ p1.theory = ["g"]
                ∧ p2.observables = ["obs_x"] ∧ p2.theory = ["g"]) :=
  ⟨by decide, uniquify_replaces_id "pdf_x" "pdf_x" ["obs_x"] ["g"] true 3 12 (by decide)⟩

/-! ### `loadPoints` -/

theorem splitGo_head (l : List Char) :
    ∀ (cur : List Char) (inDelim : Bool), inDelim = false →
      ∃ name, (splitGo cur inDelim l)[0]? = some name := by
  induction l with
  | nil =>
    intro cur inDelim _
    exact ⟨_, rfl⟩
  | cons c t ih =>
    intro cur inDelim h
    rw [splitGo]
    by_cases hc : c = ' '
    · rw [if_pos hc, h]
      simp only [Bool.false_eq_true, if_false]
      exact ⟨_, List.getElem?_cons_zero⟩
    · rw [if_neg hc]
      exact ih _ false rfl

theorem set_concat_last {α : Type} (init : List α) (last x : α) :
    (init ++ [last]).set init.length x = init ++ [x] := by
  induction init with
  | nil => rfl
  | cons a t ih =>
    show a :: (t ++ [last]).set t.length x = a :: (t ++ [x])
    rw [ih]

theorem startsWith_comment_not_solution (line : String) (h : startsWith line "#" = true) :
    startsWith line "----" = false := by
  unfold startsWith at h ⊢
  have h1 : "#".toList = ['#'] := rfl
  have h2 : "----".toList = ['-', '-', '-', '-'] := rfl
  rw [h1] at h
  rw [h2]
  cases hl : line.toList with
  | nil => rfl
  | cons c t =>
    rw [hl] at h
    simp [List.isPrefixOf] at h ⊢
    intro hc
    rw [← h] at hc
    exact absurd hc (by decide)

theorem startsWith_empty (pat : String) (h : startsWith "" pat = true) : pat = "" := by
  unfold startsWith at h
  apply String.ext
  cases hp : pat.toList with
  | nil => exact hp
  | cons c t =>
    rw [hp] at h
    exact absurd h (by simp [List.isPrefixOf])

theorem loadLine_skip (parseDouble : String → Option ℚ) (st : Int × List Point)
    (line : String) (h : line = "" ∨ startsWith line "#" = true) :
    loadLine parseDouble st line = some st := by
  unfold loadLine
  by_cases he : line = ""
  · rw [if_pos he]
  · rw [if_neg he]
    rcases h with h | h
    · exact absurd h he
    · rw [if_pos h]

theorem loadLine_solution (parseDouble : String → Option ℚ) (points : List Point)
    (line : String) (hlen : points.length < 2147483647)
    (h : startsWith line "----" = true) :
    loadLine parseDouble ((points.length : Int), points) line
      = some (((points ++ [[]]).length : Int), points ++ [[]]) := by
  unfold loadLine
  have he : ¬ line = "" := by
    intro he
    rw [he] at h
    exact absurd (startsWith_empty _ h) (by decide)
  have hc : ¬ startsWith line "#" = true := by
    intro hc
    rw [startsWith_comment_not_solution line hc] at h
    exact absurd h (by decide)
  rw [if_neg he, if_neg hc, if_pos h]
  simp only []
  rw [wrapInt_eq_self _ (by omega) (by omega), List.length_append]
  rfl

theorem loadLine_parameter (parseDouble : String → Option ℚ) (init : List Point)
    (last : Point) (line name tok : String) (val : ℚ)
    (hp : parameterLine line = true)
    (hname : (splitCompress line)[0]? = some name)
    (htok : (splitCompress line)[1]? = some tok) (hval : parseDouble tok = some val) :
    loadLine parseDouble (((init ++ [last]).length : Int), init ++ [last]) line
      = some (((init ++ [last]).length : Int), init ++ [mapInsert last name val]) := by
  unfold parameterLine at hp
  simp only [Bool.and_eq_true, Bool.not_eq_true', decide_eq_false_iff_not] at hp
  obtain ⟨⟨he, hc⟩, hs⟩ := hp
  unfold loadLine
  rw [if_neg he, if_neg (by rw [hc]; decide), if_neg (by rw [hs]; decide)]
  simp only [hname, htok, hval]
  have hidx : (((init ++ [last]).length : Int) - 1).toNat = init.length := by
    rw [List.length_append]
    simp
  rw [if_neg (by rw [List.length_append]; simp), hidx, List.getElem?_concat_length]
  simp only []
  rw [set_concat_last]

theorem loadLines_defined (parseDouble : String → Option ℚ) :
    ∀ (lines : List String) (points : List Point),
      points.length + lines.length ≤ 2147483647 →
      (∀ i, i < lines.length → parameterLine (lines.getD i "") = true →
        (0 < points.length ∨ ((lines.take i).any fun m => startsWith m "----") = true)
          ∧ ∃ tok val, (splitCompress (lines.getD i ""))[1]? = some tok
              ∧ parseDouble tok = some val) →
      ∃ points', loadLines parseDouble lines ((points.length : Int), points)
          = some ((points'.length : Int), points')
        ∧ points'.length = points.length + lines.countP (fun l => startsWith l "----") := by
  intro lines
  induction lines with
  | nil =>
    intro points _ _
    exact ⟨points, rfl, rfl⟩
  | cons l ls ih =>
    intro points hlen hok
    have hlen' : points.length + ls.length + 1 ≤ 2147483647 := by
      simpa [Nat.add_assoc] using hlen
    have hok' : ∀ (started : Prop), (0 < points.length ∨ startsWith l "----" = true → started) →
        ∀ i, i < ls.length → parameterLine (ls.getD i "") = true →
          (started ∨ ((ls.take i).any fun m => startsWith m "----") = true)
            ∧ ∃ tok val, (splitCompress (ls.getD i ""))[1]? = some tok
                ∧ parseDouble tok = some val := by
      intro started hst i hi hp
      obtain ⟨h1, h2⟩ := hok (i + 1) (by simpa using hi) (by simpa using hp)
      refine ⟨?_, by simpa using h2⟩
      rcases h1 with h1 | h1
      · exact Or.inl (hst (Or.inl h1))
      · rw [List.take_succ_cons, List.any_cons, Bool.or_eq_true] at h1
        rcases h1 with h1 | h1
        · exact Or.inl (hst (Or.inr h1))
        · exact Or.inr h1
    by_cases hs : startsWith l "----" = true
    · -- a solution starts
      have hl := loadLine_solution parseDouble points l (by omega) hs
      obtain ⟨points', h1, h2⟩ := ih (points ++ [[]])
        (by rw [List.length_append]; simp; omega)
        (hok' (0 < (points ++ [[]]).length) (fun _ => by rw [List.length_append]; simp))
      refine ⟨points', ?_, ?_⟩
      · rw [loadLines, hl]
        exact h1
      · have hcount : (l :: ls).countP (fun l => startsWith l "----")
            = ls.countP (fun l => startsWith l "----") + 1 := List.countP_cons_of_pos _ _ hs
        rw [h2, hcount, List.length_append]
        simp only [List.length_singleton]
        omega
    · have hcount : (l :: ls).countP (fun l => startsWith l "----")
          = ls.countP (fun l => startsWith l "----") := List.countP_cons_of_neg _ _ hs
      by_cases hskip : l = "" ∨ startsWith l "#" = true
      · -- an empty line or a comment
        have hl := loadLine_skip parseDouble ((points.length : Int), points) l hskip
        obtain ⟨points', h1, h2⟩ := ih points (by omega)
          (hok' (0 < points.length) (fun h => by
            rcases h with h | h
            · exact h
            · exact absurd h hs))
        refine ⟨points', ?_, ?_⟩
        · rw [loadLines, hl]
          exact h1
        · rw [h2, hcount]
      · -- a parameter line
        have hp : parameterLine l = true := by
          unfold parameterLine
          rw [not_or] at hskip
          obtain ⟨he, hc⟩ := hskip
          simp [he, hc, hs]
        obtain ⟨hstarted, tok, val, htok, hval⟩ := hok 0 (by simp) hp
        have hpos : 0 < points.length := by
          rcases hstarted with h | h
          · exact h
          · exact absurd h (by simp)
        obtain ⟨name, hname⟩ := splitGo_head l.toList [] false rfl
        have hsplit : ∃ init last, points = init ++ [last] := by
          refine ⟨points.dropLast, points.getLast (List.ne_nil_of_length_pos hpos), ?_⟩
          exact (List.dropLast_append_getLast _).symm
        obtain ⟨init, last, hpts⟩ := hsplit
        have htok' : (splitCompress l)[1]? = some tok := htok
        have hl := loadLine_parameter parseDouble init last l name tok val hp hname htok' hval
        rw [← hpts] at hl
        have hsame : (init ++ [mapInsert last name val]).length = points.length := by
          rw [hpts, List.length_append, List.length_append]
          rfl
        obtain ⟨points', h1, h2⟩ := ih (init ++ [mapInsert last name val])
          (by rw [hsame]; omega)
          (hok' (0 < (init ++ [mapInsert last name val]).length)
            (fun _ => by rw [hsame]; exact hpos))
        refine ⟨points', ?_, ?_⟩
        · rw [loadLines, hl]
          simp only []
          rw [← hsame]
          exact h1
        · rw [h2, hcount, hsame]

theorem mapInsert_lookup (m : Point) (name : String) (val : ℚ) :
    (mapInsert m name val).lookup name = some ((m.lookup name).getD val) := by
  unfold mapInsert Point.lookup
  by_cases h : (m.any fun e => e.1 == name) = true
  · rw [if_pos h]
    rw [List.any_eq_true] at h
    obtain ⟨e, he, hk⟩ := h
    cases hf : m.find? (fun e => e.1 == name) with
    | none =>
      rw [List.find?_eq_none] at hf
      exact absurd hk (hf e he)
    | some x => rfl
  · rw [if_neg h]
    have hf : m.find? (fun e => e.1 == name) = none := by
      rw [List.find?_eq_none]
      intro e he hk
      exact h (List.any_eq_true.mpr ⟨e, he, hk⟩)
    rw [List.find?_append, hf]
    simp

theorem mapInsert_lookup_other (m : Point) (name other : String) (val : ℚ)
    (h : ¬ name = other) : (mapInsert m name val).lookup other = m.lookup other := by
  unfold mapInsert Point.lookup
  by_cases hany : (m.any fun e => e.1 == name) = true
  · rw [if_pos hany]
  · rw [if_neg hany, List.find?_append]
    have hone : [(name, val)].find? (fun e => e.1 == other) = none := by
      rw [List.find?_eq_none]
      intro e he
      rw [List.mem_singleton] at he
      rw [he]
      simpa using h
    rw [hone]
    simp

theorem loadLines_concat (parseDouble : String → Option ℚ) (line : String) :
    ∀ (lines : List String) (st : Int × List Point),
      loadLines parseDouble (lines ++ [line]) st
        = (loadLines parseDouble lines st).bind fun st' => loadLine parseDouble st' line := by
  intro lines
  induction lines with
  | nil =>
    intro st
    show loadLines parseDouble [line] st = loadLine parseDouble st line
    rw [loadLines]
    cases loadLine parseDouble st line <;> rfl
  | cons l ls ih =>
    intro st
    rw [List.cons_append, loadLines, loadLines]
    cases loadLine parseDouble st l with
    | none => rfl
    | some st' => exact ih st'

/-- C25 (the code at the counterexample): the file `par.dat` holds the lines `----`,
`x 1`, `x 2`. `loadPoints` returns true and leaves one point. The line `x 2` is a
parameter line with the tokens `x` and `2`, yet the pair `(x, 2)` is not in the point:
the point holds `1` for `x`. -/
theorem loadPoints_second_value_dropped :
    twiceX "par.dat" = some ["----", "x 1", "x 2"]
      ∧ loadPoints twiceX parseDigit "d" "par.dat"
          { startingValues := [], parametersLoaded := false }
        = some (true, { startingValues := [[("x", 1)]], parametersLoaded := true })
      ∧ parameterLine "x 2" = true
      ∧ splitCompress "x 2" = ["x", "2"]
      ∧ parseDigit "2" = some 2
      ∧ ("x", (2 : ℚ)) ∉ [("x", (1 : ℚ))]
      ∧ Point.lookup [("x", 1)] "x" = some 1 := by
  decide

/-- C25 (amended): `loadPoints` returns false, with no points left, when the file cannot
be opened. When it can, has at most `2147483647` lines, and every parameter line (not
empty, no `#` and no `----` at the start) comes after a `----` line and has a second token
that parses as a double, `loadPoints` returns true, the points are those of the loop
started from no points, and `getNPoints` is the number of lines that begin with `----`.
In the loop, the file with one more line gives what `loadLine` makes of the result for
the file without it; an empty line and a line beginning with `#` change nothing, a line
beginning with `----` starts a new empty point, and a parameter line with the tokens
`name` and `tok` changes the last point only: that point keeps the value it has for
`name`, gets the parsed value of `tok` when it has none, and keeps all other names. -/
theorem loadPoints_keeps_first (files : String → Option (List String))
    (parseDouble : String → Option ℚ) (defaultFileName fileName : String)
    (c : ParameterCache) :
    (files (if fileName = "default" then defaultFileName else fileName) = none →
        loadPoints files parseDouble defaultFileName fileName c
          = some (false, { c with startingValues := [] }))
      ∧ (∀ lines : List String,
          files (if fileName = "default" then defaultFileName else fileName) = some lines →
          lines.length ≤ 2147483647 →
          (∀ i, i < lines.length → parameterLine (lines.getD i "") = true →
            ((lines.take i).any fun m => startsWith m "----") = true
              ∧ ∃ tok val, (splitCompress (lines.getD i ""))[1]? = some tok
                  ∧ parseDouble tok = some val) →
          ∃ points,
            loadPoints files parseDouble defaultFileName fileName c
              = some (true, { startingValues := points, parametersLoaded := true })
            ∧ loadLines parseDouble lines (0, []) = some ((points.length : Int), points)
            ∧ getNPoints { startingValues := points, parametersLoaded := true }
              = ((lines.countP fun l => startsWith l "----" : Nat) : Int))
      ∧ (∀ (lines : List String) (line : String),
          loadLines parseDouble (lines ++ [line]) (0, [])
            = (loadLines parseDouble lines (0, [])).bind fun st =>
                loadLine parseDouble st line)
      ∧ (∀ (points : List Point) (line : String), points.length < 2147483647 →
          (line = "" ∨ startsWith line "#" = true →
            loadLine parseDouble ((points.length : Int), points) line
              = some ((points.length : Int), points))
          ∧ (startsWith line "----" = true →
            loadLine parseDouble ((points.length : Int), points) line
              = some ((points.length : Int) + 1, points ++ [[]]))
          ∧ (parameterLine line = true →
            ∀ (init : List Point) (last : Point) (name tok : String) (val : ℚ),
              points = init ++ [last] →
              (splitCompress line)[0]? = some name →
              (splitCompress line)[1]? = some tok →
              parseDouble tok = some val →
              loadLine parseDouble ((points.length : Int), points) line
                  = some ((points.length : Int), init ++ [mapInsert last name val])
                ∧ (mapInsert last name val).lookup name
                  = some ((last.lookup name).getD val)
                ∧ ∀ other, ¬ name = other →
                    (mapInsert last name val).lookup other = last.lookup other)) := by
  refine ⟨?_, ?_, ?_, ?_⟩
  · intro hfile
    unfold loadPoints
    simp only []
    rw [hfile]
  · intro lines hfile hlen hok
    obtain ⟨points, h1, h2⟩ := loadLines_defined parseDouble lines [] (by simpa using hlen)
      (by
        intro i hi hp
        obtain ⟨ha, hb⟩ := hok i hi hp
        exact ⟨Or.inr ha, hb⟩)
    have h1' : loadLines parseDouble lines (0, []) = some ((points.length : Int), points) := h1
    have hcount : points.length = lines.countP fun l => startsWith l "----" := by
      rw [h2]
      simp
    refine ⟨points, ?_, h1', ?_⟩
    · unfold loadPoints
      simp only []
      rw [hfile]
      simp only []
      rw [h1']
    · unfold getNPoints
      have hle : lines.countP (fun l => startsWith l "----") ≤ lines.length :=
        List.countP_le_length _
      rw [wrapInt_eq_self _ (by omega) (by simp only []; omega), hcount]
  · intro lines line
    exact loadLines_concat parseDouble line lines (0, [])
  · intro points line hlen
    refine ⟨loadLine_skip parseDouble _ line, ?_, ?_⟩
    · intro hs
      rw [loadLine_solution parseDouble points line hlen hs, List.length_append]
      rfl
    · intro hp init last name tok val hpts hname htok hval
      rw [hpts]
      exact ⟨loadLine_parameter parseDouble init last line name tok val hp hname htok hval,
        mapInsert_lookup last name val, fun other h => mapInsert_lookup_other last name other val h⟩

/-- The witness of C25: the file `par.dat` of `oneSolution` opens and is well formed;
`loadPoints` returns true and `getNPoints` is its number of `----` lines. -/
theorem loadPoints_keeps_first_witness :
    ∃ points,
      loadPoints oneSolution parseDigit "d" "par.dat"
          { startingValues := [[("z", 3)]], parametersLoaded := false }
        = some (true, { startingValues := points, parametersLoaded := true })
      ∧ loadLines parseDigit ["# cache", "", "----", "x 1", "y  2"] (0, [])
        = some ((points.length : Int), points)
      ∧ getNPoints { startingValues := points, parametersLoaded := true }
        = (((["# cache", "", "----", "x 1", "y  2"] : List String).countP
            fun l => startsWith l "----" : Nat) : Int) :=
  (loadPoints_keeps_first oneSolution parseDigit "d" "par.dat"
      { startingValues := [[("z", 3)]], parametersLoaded := false }).2.1
    ["# cache", "", "----", "x 1", "y  2"] (by decide) (by decide)
    (by
      intro i hi hp
      have hi5 : i < 5 := hi
      interval_cases i
      · exact absurd hp (by decide)
      · exact absurd hp (by decide)
      · exact absurd hp (by decide)
      · exact ⟨by decide, "1", 1, by decide, by decide⟩
      · exact ⟨by decide, "2", 2, by decide, by decide⟩)

end MethodPluginScan
